import Mathlib

/-!
# Rating_Backend: a shallow embedding of the Express controllers

The repository is a REST backend (Express + Sequelize over PostgreSQL) for a
store-rating platform.  This development embeds

* `middleware/authMiddleware.js` and the four routers mounted by `app.js`,
* the controllers of `controllers/*.js`, as pure functions from a request and
  a database state to a response and a new database state,
* the three Sequelize models of `models/*.js` as row types with the validators
  and column types they declare.

The JavaScript runtime and the libraries (`jsonwebtoken`, `bcrypt`, the string
to number conversions, PostgreSQL's integer input conversion) are collected in
the record `Env`; every general theorem holds for every `Env`.
-/

namespace RatingBackend

/-! ## JavaScript values -/

/-- A value found in a JSON request body.  `undefined` is an absent field,
`compound` an array or an object, carried by the string `String(v)` gives. -/
inductive JsVal where
  | undefined
  | null
  | bool (b : Bool)
  | num (q : ℚ)
  | str (s : String)
  | compound (repr : String)
  deriving DecidableEq

/-- An authenticated identity: the payload `generateToken` signs
(`authControllers.js` lines 6-16). -/
structure Identity where
  id : Int
  email : String
  role : String
  deriving DecidableEq, Repr

/-- The runtime and library functions the controllers call and that are not
part of this repository. -/
structure Env where
  /-- `jwt.verify(token, secret)`: the decoded payload, `none` when it throws. -/
  verify : String → Option Identity
  /-- `jwt.sign(payload, secret, options)`. -/
  sign : Identity → String
  /-- `bcrypt.hash(password, 10)`. -/
  hash : String → String
  /-- `bcrypt.compare(password, hash)`. -/
  compare : String → String → Bool
  /-- The `isEmail` validator of Sequelize. -/
  isEmail : String → Bool
  /-- ECMAScript `ToNumber` on a string; `none` is `NaN`. -/
  strToNumber : String → Option ℚ
  /-- ECMAScript `parseFloat` on a string; `none` is `NaN`. -/
  parseFloat : String → Option ℚ
  /-- ECMAScript `parseInt` on a string; `none` is `NaN`. -/
  parseInt : String → Option Int
  /-- The integer the database reads a value as, where an INTEGER column or
  key is expected; `none` when the statement is rejected. -/
  intColumn : JsVal → Option Int
  /-- `String.prototype.toUpperCase`. -/
  toUpperCase : String → String

/-- ECMAScript `ToBoolean`. -/
def JsVal.truthy : JsVal → Bool
  | .undefined => false
  | .null => false
  | .bool b => b
  | .num q => decide (q ≠ 0)
  | .str s => decide (s ≠ "")
  | .compound _ => true

/-- ECMAScript `ToNumber`; `none` is `NaN`. -/
def JsVal.toNumber (env : Env) : JsVal → Option ℚ
  | .undefined => none
  | .null => some 0
  | .bool b => some (if b then 1 else 0)
  | .num q => some q
  | .str s => env.strToNumber s
  | .compound r => env.strToNumber r

/-- The comparison `v < k` against a number literal: false on `NaN`. -/
def JsVal.ltNum (env : Env) (v : JsVal) (k : ℚ) : Bool :=
  match v.toNumber env with
  | none => false
  | some q => decide (q < k)

/-- The comparison `v > k` against a number literal: false on `NaN`. -/
def JsVal.gtNum (env : Env) (v : JsVal) (k : ℚ) : Bool :=
  match v.toNumber env with
  | none => false
  | some q => decide (k < q)

/-! ## Requests, responses and the authorization middleware -/

/-- HTTP methods the routers register. -/
inductive Method where
  | GET | POST | PUT | DELETE
  deriving DecidableEq, Repr

/-- The part of an Express request the middleware reads and writes: `path` is
the list of non-empty segments of the URL, `user` is `req.user`. -/
structure Request where
  method : Method
  path : List String
  authorization : Option String
  user : Option Identity
  deriving DecidableEq

/-- What a middleware does: it ends the request with `res.status(s).json`
carrying `{message}`, or it calls `next()` with the request as it left it. -/
inductive Outcome where
  | respond (status : Nat) (message : String)
  | next (req : Request)
  deriving DecidableEq

/-- The method `String.prototype.split` on a one-character separator. -/
def splitOn (sep : Char) : List Char → List (List Char)
  | [] => [[]]
  | c :: cs =>
    if c = sep then [] :: splitOn sep cs
    else match splitOn sep cs with
      | [] => [[c]]
      | w :: ws => (c :: w) :: ws

/-- The test `authHeader.startsWith("Bearer ")`. -/
def startsWithBearer (h : String) : Bool :=
  "Bearer ".toList.isPrefixOf h.toList

/-- The expression `authHeader.split(" ")[1]`; `none` is `undefined`. -/
def bearerToken (h : String) : Option String :=
  ((splitOn ' ' h.toList)[1]?).map String.mk

/-- The middleware `authMiddleware` (`authMiddleware.js` lines 5-21). -/
def authMiddleware (env : Env) (req : Request) : Outcome :=
  match req.authorization with
  | none => .respond 401 "No token provided"
  | some authHeader =>
    if authHeader = "" || !startsWithBearer authHeader then
      .respond 401 "No token provided"
    else
      match (bearerToken authHeader).bind env.verify with
      | some decoded => .next { req with user := some decoded }
      | none => .respond 401 "Invalid or expired token"

/-- The middleware `authorizeRoles(...allowedRoles)` (`authMiddleware.js` lines 23-31). -/
def authorizeRoles (allowedRoles : List String) (req : Request) : Outcome :=
  match req.user with
  | none => .respond 403 "Forbidden: insufficient rights"
  | some u =>
    if !allowedRoles.contains u.role then
      .respond 403 "Forbidden: insufficient rights"
    else .next req

/-! ## Routers -/

/-- The controllers the routers register. -/
inductive Controller where
  | signup | login | changePassword
  | getDashboardStats | createUser | listUsers | getUserDetails
  | updateUserByAdmin | deleteUserByAdmin
  | updateStoreByAdmin | deleteStoreByAdmin | createStore | listStores
  | getStoreById
  | getMyStores | getStoreRatingsWithUsers
  | listStoresForUser | updateCurrentUser | createRating | updateRating
  | getMyRatingForStore
  deriving DecidableEq, Repr

/-- A segment of a route path: a literal, or a `:name` parameter. -/
inductive Seg where
  | lit (s : String)
  | param (name : String)
  deriving DecidableEq, Repr

/-- A layer of an Express router, in registration order. -/
inductive Layer where
  | use (mws : List (Request → Outcome))
  | route (m : Method) (pat : List Seg) (mws : List (Request → Outcome))
      (c : Controller)

/-- What the application does with a request. -/
inductive Dispatch where
  | responded (status : Nat) (message : String)
  | invoked (c : Controller) (req : Request)
  | unhandled
  deriving DecidableEq

/-- A route path matches segment by segment; a parameter takes one segment. -/
def matchPath : List Seg → List String → Bool
  | [], [] => true
  | .lit s :: ps, x :: xs => decide (s = x) && matchPath ps xs
  | .param _ :: ps, _ :: xs => matchPath ps xs
  | _, _ => false

/-- A chain of middleware: each runs when the one before it called `next()`. -/
def runMiddlewares : List (Request → Outcome) → Request → Outcome
  | [], req => .next req
  | mw :: rest, req =>
    match mw req with
    | .respond s m => .respond s m
    | .next req' => runMiddlewares rest req'

/-- An Express router: the layers are tried in order on the path that is left
after the mount point. -/
def runRouter : List Layer → List String → Request → Dispatch
  | [], _, _ => .unhandled
  | .use mws :: rest, path, req =>
    match runMiddlewares mws req with
    | .respond s m => .responded s m
    | .next req' => runRouter rest path req'
  | .route m pat mws c :: rest, path, req =>
    if m = req.method && matchPath pat path then
      match runMiddlewares mws req with
      | .respond s msg => .responded s msg
      | .next req' => .invoked c req'
    else runRouter rest path req

/-- The router of `routes/authRoutes.js`. -/
def authRoutes (env : Env) : List Layer :=
  [ .route .POST [.lit "signup"] [] .signup,
    .route .POST [.lit "login"] [] .login,
    .route .POST [.lit "change-password"] [authMiddleware env] .changePassword ]

/-- The router of `routes/adminRoutes.js`. -/
def adminRoutes (env : Env) : List Layer :=
  [ .use [authMiddleware env, authorizeRoles ["SYSTEM_ADMIN"]],
    .route .GET [.lit "dashboard"] [] .getDashboardStats,
    .route .POST [.lit "users"] [] .createUser,
    .route .GET [.lit "users"] [] .listUsers,
    .route .GET [.lit "users", .param "id"] [] .getUserDetails,
    .route .PUT [.lit "users", .param "id"] [] .updateUserByAdmin,
    .route .DELETE [.lit "users", .param "id"] [] .deleteUserByAdmin,
    .route .PUT [.lit "stores", .param "id"] [] .updateStoreByAdmin,
    .route .DELETE [.lit "stores", .param "id"] [] .deleteStoreByAdmin,
    .route .POST [.lit "stores"] [] .createStore,
    .route .GET [.lit "stores"] [] .listStores,
    .route .GET [.lit "stores", .param "id"] [] .getStoreById ]

/-- The router of `routes/ownerRoutes.js`. -/
def ownerRoutes (env : Env) : List Layer :=
  [ .use [authMiddleware env, authorizeRoles ["STORE_OWNER"]],
    .route .GET [.lit "stores"] [] .getMyStores,
    .route .GET [.lit "stores", .param "storeId", .lit "ratings"] []
      .getStoreRatingsWithUsers ]

/-- The router of `routes/userStoreRoutes.js`. -/
def userStoreRoutes (env : Env) : List Layer :=
  [ .use [authMiddleware env, authorizeRoles ["NORMAL_USER"]],
    .route .GET [.lit "stores"] [] .listStoresForUser,
    .route .PUT [.lit "me"] [] .updateCurrentUser,
    .route .POST [.lit "stores", .param "storeId", .lit "rating"] []
      .createRating,
    .route .PUT [.lit "stores", .param "storeId", .lit "rating"] []
      .updateRating,
    .route .GET [.lit "stores", .param "storeId", .lit "rating", .lit "me"] []
      .getMyRatingForStore ]

/-- The path left after a mount point, when the request path is under it. -/
def underMount : List String → List String → Option (List String)
  | [], path => some path
  | _ :: _, [] => none
  | p :: ps, x :: xs => if p = x then underMount ps xs else none

/-- The mounts of `app.js`, in order (lines 136-139). -/
def mounts (env : Env) : List (List String × List Layer) :=
  [ (["api", "auth"], authRoutes env),
    (["api", "admin"], adminRoutes env),
    (["api", "user"], userStoreRoutes env),
    (["api", "owner"], ownerRoutes env) ]

/-- The mounted routers are tried in order; a router that leaves the request
unhandled passes it on. -/
def runMounts : List (List String × List Layer) → Request → Dispatch
  | [], _ => .unhandled
  | (pre, layers) :: rest, req =>
    match underMount pre req.path with
    | none => runMounts rest req
    | some path =>
      match runRouter layers path req with
      | .unhandled => runMounts rest req
      | d => d

/-- The application of `app.js` after the body parser: the mounted routers,
the health check on `/`, and the 404 of Express for what nothing handles. -/
def app (env : Env) (req : Request) : Dispatch :=
  match runMounts (mounts env) req with
  | .unhandled =>
    if req.method = .GET && req.path = [] then
      .responded 200 "Ratings Platform API is running"
    else .responded 404 "Not Found"
  | d => d

/-! ## The data model (`models/*.js`) -/

/-- A row of `users` (`models/user.js`). -/
structure User where
  id : Int
  name : String
  email : String
  address : Option String
  password_hash : String
  role : String
  deriving DecidableEq

/-- A row of `stores` (`models/store.js`).  `average_rating` is a
DECIMAL(3,2) column, `ratings_count` an INTEGER column. -/
structure Store where
  id : Int
  name : String
  email : Option String
  address : String
  owner_id : Int
  average_rating : ℚ
  ratings_count : Int
  deriving DecidableEq

/-- A row of `ratings` (`models/rating.js`). -/
structure Rating where
  id : Int
  store_id : Int
  user_id : Int
  rating_value : Int
  comment : Option String
  created_at : Nat
  deriving DecidableEq

/-- The state of the database: the three tables and the sequences that feed
the auto-increment primary keys. -/
structure DB where
  users : List User
  stores : List Store
  ratings : List Rating
  nextUserId : Int
  nextStoreId : Int
  nextRatingId : Int
  deriving DecidableEq

/-- The database before any request. -/
def DB.empty : DB := ⟨[], [], [], 1, 1, 1⟩

/-- A text field of a JSON body: absent, `null`, or a string. -/
inductive TextField where
  | absent
  | null
  | text (s : String)
  deriving DecidableEq

/-- ECMAScript `ToBoolean` on a text field. -/
def TextField.truthy : TextField → Bool
  | .text s => decide (s ≠ "")
  | _ => false

/-- What a controller sends besides the status and the message. -/
inductive Payload where
  | empty
  | rating (r : Rating)
  | store (s : Store)
  | account (id : Int) (name email : String) (address : Option String)
      (role : String)
  | session (token : String) (id : Int) (name email : String)
      (address : Option String) (role : String)
  | userDetails (id : Int) (name email : String) (address : Option String)
      (role : String) (storeOwnerAverageRating : Option ℚ)
  | storeRatings (s : Store) (ratings : List (Rating × Option User))
  | profile (u : User)
  deriving DecidableEq

/-- A response: `res.status(status).json(body)`. -/
structure Response where
  status : Nat
  message : String
  payload : Payload
  deriving DecidableEq

/-- A response that carries only `{message}`. -/
def Response.msg (status : Nat) (message : String) : Response :=
  ⟨status, message, .empty⟩

/-- The response of every `catch` block. -/
def Response.internal : Response := .msg 500 "Internal server error"

/-! ## Persistence: what Sequelize and the database do with a value -/

/-- The call `Model.findByPk(v)`: `null` without a query for `null` and `undefined`,
a query on the key for a number or a string, an exception for anything
else and when the database rejects the key. -/
def findByPk {α : Type} (env : Env) (key : α → Int) (rows : List α)
    (v : JsVal) : Except Unit (Option α) :=
  match v with
  | .undefined => pure none
  | .null => pure none
  | .num _ | .str _ =>
    match env.intColumn v with
    | none => throw ()
    | some n => pure (rows.find? fun r => key r = n)
  | _ => throw ()

/-- The value `parseFloat(String(v))`, what the `min` and `max` validators of
Sequelize compare; `none` is `NaN`. -/
def parseFloatOf (env : Env) : JsVal → Option ℚ
  | .num q => some q
  | .str s => env.parseFloat s
  | .compound r => env.parseFloat r
  | _ => none

/-- The validation `Rating.rating_value` declares (`models/rating.js` lines
21-28): `allowNull: false`, `min: 1`, `max: 5`; the two bounds pass on
`NaN`. -/
def validRatingValue (env : Env) (v : JsVal) : Bool :=
  match v with
  | .undefined => false
  | .null => false
  | _ =>
    match parseFloatOf env v with
    | none => true
    | some q => decide (1 ≤ q) && decide (q ≤ 5)

/-- What is written to `ratings.rating_value` for the value `v`: the
validation of the model, then the conversion of the INTEGER column. -/
def writeRatingValue (env : Env) (v : JsVal) : Option Int :=
  if validRatingValue env v then env.intColumn v else none

/-- The aggregate `AVG("rating_value")` over the rows; `none` is SQL NULL. -/
def avgOf (rows : List Rating) : Option ℚ :=
  if rows = [] then none
  else some (((rows.map fun r => r.rating_value).sum : ℚ) / (rows.length : ℚ))

/-- What a DECIMAL(3,2) column keeps of a value: two fractional digits,
rounded half away from zero. -/
def roundDecimal2 (q : ℚ) : ℚ :=
  if 0 ≤ q then ((⌊q * 100 + 1 / 2⌋ : Int) : ℚ) / 100
  else - (((⌊(-q) * 100 + 1 / 2⌋ : Int) : ℚ) / 100)

/-- The weight PostgreSQL's `numeric` gives a natural number: the position
of its leading digit in base 10000, 0 for 0. -/
def numericWeight (n : Nat) : Nat := Nat.log 10000 n

/-- The leading digit of a natural number in base 10000, 0 for 0. -/
def numericFirstDigit (n : Nat) : Nat := n / 10000 ^ Nat.log 10000 n

/-- The weight PostgreSQL estimates for the quotient of two integers: the
difference of the weights, one less when the leading digit of the dividend
does not exceed that of the divisor. -/
def quotientWeight (a b : Nat) : Int :=
  (numericWeight a : Int) - (numericWeight b : Int) -
    (if numericFirstDigit a ≤ numericFirstDigit b then 1 else 0)

/-- The number of fractional digits PostgreSQL keeps of the quotient of two
integers: enough for 16 significant digits, between 0 and 1000. -/
def divScale (a b : Nat) : Nat :=
  min (max (16 - quotientWeight a b * 4) 0).toNat 1000

/-- A rational rounded to `scale` fractional digits, half away from zero. -/
def roundHalfAway (scale : Nat) (q : ℚ) : ℚ :=
  if 0 ≤ q then ((⌊q * 10 ^ scale + 1 / 2⌋ : Int) : ℚ) / 10 ^ scale
  else - (((⌊(-q) * 10 ^ scale + 1 / 2⌋ : Int) : ℚ) / 10 ^ scale)

/-- The `numeric` quotient of an integer sum by a count, as PostgreSQL
computes it for `AVG` over an INTEGER column. -/
def numericDiv (sum : Int) (count : Nat) : ℚ :=
  roundHalfAway (divScale sum.natAbs count) ((sum : ℚ) / (count : ℚ))

/-- The value of the decimal numeral the database sends for
`AVG("rating_value")` over the rows; `none` is SQL NULL. -/
def avgNumeric (rows : List Rating) : Option ℚ :=
  if rows = [] then none
  else some (numericDiv (rows.map fun r => r.rating_value).sum rows.length)

/-- The integer nearest to a rational, the even one of the two at a tie. -/
def roundHalfEven (m : ℚ) : Int :=
  if m - ⌊m⌋ < 1 / 2 then ⌊m⌋
  else if 1 / 2 < m - ⌊m⌋ then ⌊m⌋ + 1
  else if ⌊m⌋ % 2 = 0 then ⌊m⌋ else ⌊m⌋ + 1

/-- The distance between neighbouring binary64 numbers at a positive
rational: 53 significant bits, exponents from -1022. -/
def ulp (q : ℚ) : ℚ := 2 ^ (max (Int.log 2 q) (-1022) - 52)

/-- The binary64 number nearest to a rational, ties to even: what
`Number(text)` gives for a decimal numeral.  The means of an INTEGER column
are below 2^31 in magnitude, far from the overflow of the format, which is
left out. -/
def toBinary64 (q : ℚ) : ℚ :=
  if 0 ≤ q then (roundHalfEven (q / ulp q) : ℚ) * ulp q
  else - ((roundHalfEven ((-q) / ulp (-q)) : ℚ) * ulp (-q))

/-- The Rating rows of a store. -/
def ratingsOf (db : DB) (storeId : Int) : List Rating :=
  db.ratings.filter fun r => r.store_id = storeId

/-! ## `controllers/userStoreController.js`: ratings -/

/-- The helper `recalculateStoreRating` (lines 53-73).  `writeOk` tells whether the
database carries out the `Store.update`; it fails, for instance, when the
connection is lost or the value does not fit the column, and the `await`
then throws. -/
def recalculateStoreRating (writeOk : Bool) (storeId : Int) (db : DB) :
    Except Unit DB :=
  let rows := ratingsOf db storeId
  let avg : ℚ := (avgOf rows).getD 0
  let count : Int := rows.length
  if writeOk then
    pure { db with stores := db.stores.map fun s =>
      if s.id = storeId then
        { s with average_rating := roundDecimal2 avg, ratings_count := count }
      else s }
  else throw ()

/-- The body of the two rating requests. -/
structure RatingBody where
  rating_value : JsVal
  comment : TextField

/-- The row `Rating.create` inserts on lines 185-190; the comment is
`comment || null`. -/
def createdRating (now : Nat) (user : Identity) (storeId value : Int)
    (body : RatingBody) (db : DB) : Rating :=
  { id := db.nextRatingId, store_id := storeId, user_id := user.id,
    rating_value := value,
    comment := match body.comment with
      | .text c => if c = "" then none else some c
      | _ => none,
    created_at := now }

/-- The state after the insertion of a Rating row. -/
def afterInsert (row : Rating) (db : DB) : DB :=
  { db with ratings := db.ratings ++ [row],
            nextRatingId := db.nextRatingId + 1 }

/-- The controller `createRating` (lines 152-202).  `user` is `req.user`, `storeIdParam`
is `req.params.storeId`, `now` the time of the insertion. -/
def createRating (env : Env) (writeOk : Bool) (now : Nat) (user : Identity)
    (storeIdParam : String) (body : RatingBody) (db : DB) : Response × DB :=
  if !body.rating_value.truthy then
    (.msg 400 "rating_value is required", db)
  else if body.rating_value.ltNum env 1 || body.rating_value.gtNum env 5 then
    (.msg 400 "rating_value must be between 1 and 5", db)
  else
    match env.parseInt storeIdParam with
    | none => (.internal, db)
    | some storeId =>
      match db.stores.find? fun s => s.id = storeId with
      | none => (.msg 404 "Store not found", db)
      | some _ =>
        match db.ratings.find? fun r =>
            r.store_id = storeId ∧ r.user_id = user.id with
        | some _ =>
          (.msg 400 "Rating already exists. Use update instead.", db)
        | none =>
          match writeRatingValue env body.rating_value with
          | none => (.internal, db)
          | some value =>
            let rating := createdRating now user storeId value body db
            let db1 := afterInsert rating db
            match recalculateStoreRating writeOk storeId db1 with
            | .error _ => (.internal, db1)
            | .ok db2 =>
              (⟨201, "Rating created successfully", .rating rating⟩, db2)

/-- The comment of the instance after lines 228-230. -/
def assignedComment (rating : Rating) (body : RatingBody) : Option String :=
  match body.comment with
  | .absent => rating.comment
  | .null => none
  | .text c => some c

/-- The state after `rating.save()`: the UPDATE of the row with that key. -/
def afterSave (id value : Int) (comment : Option String) (db : DB) : DB :=
  { db with ratings := db.ratings.map fun r =>
      if r.id = id then { r with rating_value := value, comment := comment }
      else r }

/-- The controller `updateRating` (lines 205-243).  `rating.save()` validates and writes
the attributes that changed only. -/
def updateRating (env : Env) (writeOk : Bool) (user : Identity)
    (storeIdParam : String) (body : RatingBody) (db : DB) : Response × DB :=
  if body.rating_value.truthy &&
      (body.rating_value.ltNum env 1 || body.rating_value.gtNum env 5) then
    (.msg 400 "rating_value must be between 1 and 5", db)
  else
    match env.parseInt storeIdParam with
    | none => (.internal, db)
    | some storeId =>
      match db.ratings.find? fun r =>
          r.store_id = storeId ∧ r.user_id = user.id with
      | none => (.msg 404 "Rating not found", db)
      | some rating =>
        let written : Option Int :=
          if body.rating_value = .undefined ∨
              body.rating_value = .num rating.rating_value then
            some rating.rating_value
          else writeRatingValue env body.rating_value
        match written with
        | none => (.internal, db)
        | some value =>
          let comment := assignedComment rating body
          let db1 := afterSave rating.id value comment db
          match recalculateStoreRating writeOk storeId db1 with
          | .error _ => (.internal, db1)
          | .ok db2 =>
            (⟨200, "Rating updated successfully",
              .rating { rating with rating_value := value, comment := comment }⟩,
             db2)

/-! ## `controllers/adminController.js`: stores -/

/-- The body of the two store requests. -/
structure StoreBody where
  name : TextField
  email : TextField
  address : TextField
  ownerId : JsVal

/-- The validation and the column widths of `Store.name` and
`Store.address`: VARCHAR(60) and VARCHAR(400), not null. -/
def validStoreText (width : Nat) (f : TextField) : Option String :=
  match f with
  | .text s => if s.length ≤ width then some s else none
  | _ => none

/-- The validation of `Store.email`: nullable, `isEmail`, VARCHAR(255). -/
def validStoreEmail (env : Env) (f : Option String) : Option (Option String) :=
  match f with
  | none => some none
  | some s => if env.isEmail s && decide (s.length ≤ 255) then some (some s) else none

/-- The expression `field || null` on a text field. -/
def orNull (f : TextField) : Option String :=
  match f with
  | .text s => if s = "" then none else some s
  | _ => none

/-- The controller `createStore` (lines 269-301). -/
def createStore (env : Env) (body : StoreBody) (db : DB) : Response × DB :=
  if !body.name.truthy || !body.address.truthy || !body.ownerId.truthy then
    (.msg 400 "Name, address and ownerId are required", db)
  else
    match findByPk env User.id db.users body.ownerId with
    | .error _ => (.internal, db)
    | .ok none => (.msg 404 "Owner user not found", db)
    | .ok (some owner) =>
      if owner.role ≠ "STORE_OWNER" then
        (.msg 400 "Owner must have role STORE_OWNER", db)
      else
        match validStoreText 60 body.name,
            validStoreEmail env (orNull body.email),
            validStoreText 400 body.address, env.intColumn body.ownerId with
        | some name, some email, some address, some ownerId =>
          let store : Store :=
            { id := db.nextStoreId, name := name, email := email,
              address := address, owner_id := ownerId,
              average_rating := 0, ratings_count := 0 }
          (⟨201, "Store created successfully", .store store⟩,
           { db with stores := db.stores ++ [store],
                     nextStoreId := db.nextStoreId + 1 })
        | _, _, _, _ => (.internal, db)

/-- Lines 376-384 of `updateStoreByAdmin`: when `ownerId` is neither
`undefined` nor `null`, the owner is looked up and must have the role
STORE_OWNER; the result is the key assigned to `store.owner_id`, if any. -/
def newOwnerOf (env : Env) (db : DB) (ownerId : JsVal) :
    Except Response (Option Int) :=
  if ownerId ≠ .undefined ∧ ownerId ≠ .null then
    match findByPk env User.id db.users ownerId with
    | .error _ => throw .internal
    | .ok none => throw (.msg 404 "Owner user not found")
    | .ok (some owner) =>
      if owner.role ≠ "STORE_OWNER" then
        throw (.msg 400 "Owner must have role STORE_OWNER")
      else
        match env.intColumn ownerId with
        | none => throw .internal
        | some n => pure (some n)
  else pure none

/-- What `store.save()` keeps of an assignment to `name` or `address`: the
old value when the field is absent or unchanged, the new one when it fits
the column, `none` when the validation fails. -/
def assignStoreText (width : Nat) (old : String) (f : TextField) :
    Option String :=
  match f with
  | .absent => some old
  | .text s => if s = old then some old else validStoreText width (.text s)
  | .null => none

/-- The same for the nullable column `email`. -/
def assignStoreEmail (env : Env) (old : Option String) (f : TextField) :
    Option (Option String) :=
  match f with
  | .absent => some old
  | .null => some none
  | .text e => if old = some e then some old else validStoreEmail env (some e)

/-- The controller `updateStoreByAdmin` (lines 365-401).  `store.save()` validates and
writes the attributes that were assigned. -/
def updateStoreByAdmin (env : Env) (idParam : String) (body : StoreBody)
    (db : DB) : Response × DB :=
  if idParam = "" then (.msg 400 "Store id required", db)
  else
    match findByPk env Store.id db.stores (.str idParam) with
    | .error _ => (.internal, db)
    | .ok none => (.msg 404 "Store not found", db)
    | .ok (some store) =>
      match newOwnerOf env db body.ownerId with
      | .error r => (r, db)
      | .ok newOwner =>
        match assignStoreText 60 store.name body.name,
            assignStoreEmail env store.email body.email,
            assignStoreText 400 store.address body.address with
        | some name, some email, some address =>
          (⟨200, "Store updated successfully",
            .store { store with name := name, email := email, address := address,
                                owner_id := newOwner.getD store.owner_id }⟩,
           { db with stores := db.stores.map fun s =>
              if s.id = store.id then
                { s with name := name, email := email, address := address,
                         owner_id := newOwner.getD s.owner_id }
              else s })
        | _, _, _ => (.internal, db)

/-- The controller `deleteStoreByAdmin` (lines 403-427). -/
def deleteStoreByAdmin (env : Env) (idParam : String) (db : DB) :
    Response × DB :=
  if idParam = "" then (.msg 400 "Store id required", db)
  else
    match findByPk env Store.id db.stores (.str idParam) with
    | .error _ => (.internal, db)
    | .ok none => (.msg 404 "Store not found", db)
    | .ok (some store) =>
      match env.intColumn (.str idParam) with
      | none => (.internal, db)
      | some storeId =>
        if (ratingsOf db storeId).length > 0 then
          (.msg 400 "Cannot delete store with existing ratings. Remove ratings first or use soft-delete.", db)
        else
          (.msg 200 "Store deleted",
           { db with stores := db.stores.filter fun s => s.id ≠ store.id })

/-! ## `controllers/authControllers.js` and the user part of the other controllers -/

/-- The `length` of a JavaScript string: its number of UTF-16 code units. -/
def jsLength (s : String) : Nat :=
  (s.toList.map fun c => if c.toNat < 65536 then 1 else 2).sum

/-- The characters `.` does not match in a regular expression. -/
def isLineTerminator (c : Char) : Bool :=
  c.toNat = 10 || c.toNat = 13 || c.toNat = 8232 || c.toNat = 8233

/-- The class `[A-Z]`. -/
def isUpperAZ (c : Char) : Bool :=
  decide (65 ≤ c.toNat) && decide (c.toNat ≤ 90)

/-- The class of special characters in `passwordRegex`, by code point:
the characters ! @ # $ % ^ & * ( ) _ + - = [ ] and the two braces, then
; ' : " \ | , . < > / ?  -/
def isSpecial (c : Char) : Bool :=
  [33, 64, 35, 36, 37, 94, 38, 42, 40, 41, 95, 43, 45, 61, 91, 93, 123, 125,
   59, 39, 58, 34, 92, 124, 44, 46, 60, 62, 47, 63].contains c.toNat

/-- The lookahead `(?=.*[cls])` at the start of the input: some character of
the class is preceded only by characters that `.` matches. -/
def lookahead (cls : Char → Bool) : List Char → Bool
  | [] => false
  | c :: cs => cls c || (!isLineTerminator c && lookahead cls cs)

/-- The test `passwordRegex.test(password)` for the expression of lines 28-29,
`^(?=.*[A-Z])(?=.*[special]).{8,16}$`. -/
def passwordRegexTest (password : String) : Bool :=
  lookahead isUpperAZ password.toList && lookahead isSpecial password.toList &&
    (decide (8 ≤ jsLength password) && decide (jsLength password ≤ 16) &&
      password.toList.all fun c => !isLineTerminator c)

/-- The roles of the ENUM column `users.role`. -/
def allowedRoles : List String := ["SYSTEM_ADMIN", "NORMAL_USER", "STORE_OWNER"]

/-- The validation of `User.name`: `len: [20, 60]`. -/
def validName (s : String) : Bool :=
  decide (20 ≤ s.length) && decide (s.length ≤ 60)

/-- The validation of `User.email`: `isEmail`, VARCHAR(255). -/
def validEmail (env : Env) (s : String) : Bool :=
  env.isEmail s && decide (s.length ≤ 255)

/-- The validation of `User.address`: nullable, `len: [0, 400]`. -/
def validAddress (a : Option String) : Bool :=
  match a with
  | none => true
  | some s => decide (s.length ≤ 400)

/-- The call `User.create`: the validation of the model, the unique index on
`email`, the widths of the columns, the ENUM of `role`. -/
def insertUser (env : Env) (name email : String) (address : Option String)
    (password_hash role : String) (db : DB) : Option (User × DB) :=
  if validName name && validEmail env email && validAddress address &&
      decide (password_hash.length ≤ 255) && allowedRoles.contains role &&
      !db.users.any (fun u => u.email = email) then
    let user : User := ⟨db.nextUserId, name, email, address, password_hash, role⟩
    some (user, { db with users := db.users ++ [user],
                          nextUserId := db.nextUserId + 1 })
  else none

/-- The body of `signup` and of `createUser`. -/
structure SignupBody where
  name : TextField
  email : TextField
  address : TextField
  password : TextField
  role : JsVal

/-- The string of a text field that passed the `!field` test. -/
def TextField.get : TextField → String
  | .text s => s
  | _ => ""

/-- The controller `signup` (`authControllers.js` lines 19-69). -/
def signup (env : Env) (body : SignupBody) (db : DB) : Response × DB :=
  if !body.name.truthy || !body.email.truthy || !body.address.truthy ||
      !body.password.truthy then
    (.msg 400 "All fields are required", db)
  else if !passwordRegexTest body.password.get then
    (.msg 400 "Password must be 8-16 chars, include at least one uppercase and one special character", db)
  else if db.users.any (fun u => u.email = body.email.get) then
    (.msg 409 "Email already in use", db)
  else
    match insertUser env body.name.get body.email.get (some body.address.get)
        (env.hash body.password.get) "NORMAL_USER" db with
    | none => (.internal, db)
    | some (user, db1) =>
      (⟨201, "Signup successful",
        .session (env.sign ⟨user.id, user.email, user.role⟩) user.id user.name
          user.email user.address user.role⟩, db1)

/-- The body of `login`. -/
structure LoginBody where
  email : TextField
  password : TextField

/-- The controller `login` (`authControllers.js` lines 72-107). -/
def login (env : Env) (body : LoginBody) (db : DB) : Response :=
  if !body.email.truthy || !body.password.truthy then
    .msg 400 "Email and password required"
  else
    match db.users.find? fun u => u.email = body.email.get with
    | none => .msg 401 "Invalid credentials"
    | some user =>
      if !env.compare body.password.get user.password_hash then
        .msg 401 "Invalid credentials"
      else
        ⟨200, "Login successful",
          .session (env.sign ⟨user.id, user.email, user.role⟩) user.id user.name
            user.email user.address user.role⟩

/-- The controller `changePassword` (`authControllers.js` lines 110-149). -/
def changePassword (env : Env) (user : Identity)
    (oldPassword newPassword : TextField) (db : DB) : Response × DB :=
  if !oldPassword.truthy || !newPassword.truthy then
    (.msg 400 "Old and new passwords are required", db)
  else if !passwordRegexTest newPassword.get then
    (.msg 400 "New password must be 8-16 chars, include at least one uppercase and one special character", db)
  else
    match db.users.find? fun u => u.id = user.id with
    | none => (.msg 404 "User not found", db)
    | some row =>
      if !env.compare oldPassword.get row.password_hash then
        (.msg 401 "Old password is incorrect", db)
      else
        if env.hash newPassword.get ≠ row.password_hash ∧
            255 < (env.hash newPassword.get).length then
          (.internal, db)
        else
          (.msg 200 "Password updated successfully",
           { db with users := db.users.map fun u =>
              if u.id = row.id then
                { u with password_hash := env.hash newPassword.get }
              else u })

/-- The controller `createUser` (`adminController.js` lines 29-81). -/
def createUser (env : Env) (body : SignupBody) (db : DB) : Response × DB :=
  if !body.name.truthy || !body.email.truthy || !body.address.truthy ||
      !body.password.truthy || !body.role.truthy then
    (.msg 400 "All fields are required", db)
  else
    match body.role with
    | .str role =>
      if !allowedRoles.contains role then (.msg 400 "Invalid role", db)
      else if !passwordRegexTest body.password.get then
        (.msg 400 "Password must be 8-16 chars, include at least one uppercase and one special character", db)
      else if db.users.any (fun u => u.email = body.email.get) then
        (.msg 409 "Email already in use", db)
      else
        match insertUser env body.name.get body.email.get
            (some body.address.get) (env.hash body.password.get) role db with
        | none => (.internal, db)
        | some (user, db1) =>
          (⟨201, "User created successfully",
            .account user.id user.name user.email user.address user.role⟩, db1)
    | _ => (.msg 400 "Invalid role", db)

/-- What `user.save()` keeps of an assignment to a text column that is not
nullable: the old value when the field is absent or unchanged, the new one
when it passes the validation, `none` when the validation fails. -/
def assignText (valid : String → Bool) (old : String) (f : TextField) :
    Option String :=
  match f with
  | .absent => some old
  | .null => none
  | .text s => if s = old then some old else if valid s then some s else none

/-- The same for the nullable column `address`. -/
def assignAddress (old : Option String) (f : TextField) :
    Option (Option String) :=
  match f with
  | .absent => some old
  | .null => some none
  | .text s => if old = some s then some old
               else if validAddress (some s) then some (some s) else none

/-- The validation of a changed `email`, with the unique index: no other
row holds the address. -/
def validNewEmail (env : Env) (db : DB) (self : Int) (s : String) : Bool :=
  validEmail env s && !db.users.any (fun u => u.id ≠ self ∧ u.email = s)

/-- The body of `updateUserByAdmin`. -/
structure UpdateUserBody where
  name : TextField
  email : TextField
  address : TextField
  role : JsVal
  password : TextField

/-- Lines 209-222 of `updateUserByAdmin`: the hash to store, or the 400
response of the length check. -/
def newPasswordHash (env : Env) (old : String) (password : TextField) :
    Except Response String :=
  match password with
  | .absent => pure old
  | .null => throw (.msg 400 "Password must be at least 6 characters")
  | .text p =>
    if p = "" then pure old
    else if jsLength p < 6 then
      throw (.msg 400 "Password must be at least 6 characters")
    else pure (env.hash p)

/-- What `user.save()` keeps of an assignment to the ENUM column `role`. -/
def assignRole (old : String) (role : JsVal) : Option String :=
  match role with
  | .undefined => some old
  | .str r => if allowedRoles.contains r then some r else none
  | _ => none

/-- The controller `updateUserByAdmin` (`adminController.js` lines 177-236). -/
def updateUserByAdmin (env : Env) (idParam : String) (body : UpdateUserBody)
    (db : DB) : Response × DB :=
  if idParam = "" then (.msg 400 "User id required", db)
  else
    match findByPk env User.id db.users (.str idParam) with
    | .error _ => (.internal, db)
    | .ok none => (.msg 404 "User not found", db)
    | .ok (some user) =>
      if body.email.truthy && decide (body.email.get ≠ user.email) &&
          db.users.any (fun u => u.email = body.email.get) then
        (.msg 409 "Email already in use", db)
      else if body.role.truthy &&
          !(match body.role with
            | .str r => allowedRoles.contains r
            | _ => false) then
        (.msg 400 "Invalid role", db)
      else
        match newPasswordHash env user.password_hash body.password with
        | .error r => (r, db)
        | .ok hash =>
          match assignText validName user.name body.name,
              assignText (validNewEmail env db user.id) user.email body.email,
              assignAddress user.address body.address,
              assignRole user.role body.role,
              (if hash = user.password_hash ∨ hash.length ≤ 255 then some hash
               else none) with
          | some name, some email, some address, some role, some hash =>
            (⟨200, "User updated",
              .account user.id name email address role⟩,
             { db with users := db.users.map fun u =>
                if u.id = user.id then
                  { u with name := name, email := email, address := address,
                           role := role, password_hash := hash }
                else u })
          | _, _, _, _, _ => (.internal, db)

/-- The controller `deleteUserByAdmin` (`adminController.js` lines 242-266).  `admin` is
`req.user`; `String(adminId)` is the decimal numeral of the id. -/
def deleteUserByAdmin (env : Env) (admin : Identity) (idParam : String)
    (db : DB) : Response × DB :=
  if idParam = "" then (.msg 400 "User id required", db)
  else if toString admin.id = idParam then
    (.msg 400 "You cannot delete your own account", db)
  else
    match findByPk env User.id db.users (.str idParam) with
    | .error _ => (.internal, db)
    | .ok none => (.msg 404 "User not found", db)
    | .ok (some user) =>
      (.msg 200 "User deleted",
       { db with users := db.users.filter fun u => u.id ≠ user.id })

/-- The body of `updateCurrentUser`. -/
structure ProfileBody where
  name : TextField
  email : TextField
  address : TextField
  password : TextField

/-- Lines 25-27 and 39-45 of `updateCurrentUser`: the assignments of
`name`, `email` and `address`, `user.save()` and the response, which
carries the whole row but for the attribute `password`. -/
def saveProfile (env : Env) (row : User) (body : ProfileBody) (db : DB) :
    Response × DB :=
  match assignText validName row.name body.name,
      assignText (validNewEmail env db row.id) row.email body.email,
      assignAddress row.address body.address with
  | some name, some email, some address =>
    (⟨200, "Profile updated",
      .profile { row with name := name, email := email, address := address }⟩,
     { db with users := db.users.map fun u =>
        if u.id = row.id then
          { u with name := name, email := email, address := address }
        else u })
  | _, _, _ => (.internal, db)

/-- The controller `updateCurrentUser` (`userStoreController.js` lines 6-50).  The module
imports `sequelize` and the models only (lines 2-3): `bcrypt` is not
defined in it, so evaluating `bcrypt.hash` on line 35 throws a
ReferenceError, which the `catch` block turns into the 500 response; so
does `password.length` on `null`. -/
def updateCurrentUser (env : Env) (user : Identity) (body : ProfileBody)
    (db : DB) : Response × DB :=
  if user.id = 0 then (.msg 401 "Unauthorized", db)
  else
    match db.users.find? fun u => u.id = user.id with
    | none => (.msg 404 "User not found", db)
    | some row =>
      match body.password with
      | .absent => saveProfile env row body db
      | .null => (.internal, db)
      | .text p =>
        if p = "" then saveProfile env row body db
        else if jsLength p < 6 then
          (.msg 400 "Password must be at least 6 characters", db)
        else (.internal, db)

/-! ## Read-only controllers -/

/-- The clause `ORDER BY created_at DESC`: the rows, newest first. -/
def newestFirst (rows : List Rating) : List Rating :=
  rows.insertionSort fun a b => b.created_at ≤ a.created_at

/-- The controller `getStoreRatingsWithUsers` (`ownerControlller.js` lines 29-73).  The
store is looked up by key and owner in one query; each rating comes with
the user it belongs to, if that user exists. -/
def getStoreRatingsWithUsers (env : Env) (user : Identity)
    (storeIdParam : String) (db : DB) : Response :=
  match env.parseInt storeIdParam with
  | none => .internal
  | some storeId =>
    match db.stores.find? fun s => s.id = storeId ∧ s.owner_id = user.id with
    | none => .msg 404 "Store not found or you are not the owner"
    | some store =>
      ⟨200, "", .storeRatings store
        ((newestFirst (ratingsOf db storeId)).map fun r =>
          (r, db.users.find? fun u => u.id = r.user_id))⟩

/-- The rows of the query of `getUserDetails` (lines 151-162): the Rating
rows joined with the stores of the owner, one row for each pair of a rating
and a store with that key and that owner. -/
def ownerRatings (db : DB) (ownerId : Int) : List Rating :=
  db.ratings.flatMap fun r =>
    (db.stores.filter fun s => s.id = r.store_id ∧ s.owner_id = ownerId).map
      fun _ => r

/-- The controller `getUserDetails` (`adminController.js` lines 136-176).  The
aggregate arrives as the text of a `numeric`; lines 164-165 turn it into a
number with `Number`, and into 0 when it is NULL. -/
def getUserDetails (env : Env) (idParam : String) (db : DB) : Response :=
  match findByPk env User.id db.users (.str idParam) with
  | .error _ => .internal
  | .ok none => .msg 404 "User not found"
  | .ok (some user) =>
    ⟨200, "", .userDetails user.id user.name user.email user.address user.role
      (if user.role = "STORE_OWNER" then
        some (((avgNumeric (ownerRatings db user.id)).map toBinary64).getD 0)
       else none)⟩

/-- A value of `req.query`: absent, a string, or an array or object, which
the query parser builds from repeated or bracketed keys, carried by the
string `String(v)` gives. -/
inductive QueryVal where
  | absent
  | str (s : String)
  | other (repr : String)
  deriving DecidableEq

/-- The part of the query string the list controllers use for ordering and
paging. -/
structure ListQuery where
  sortBy : QueryVal
  sortOrder : QueryVal
  page : QueryVal
  limit : QueryVal

/-- What the list controllers hand to `findAndCountAll`. -/
structure ListPlan where
  orderField : String
  orderDirection : String
  pageNum : Int
  pageSize : Int
  offset : Int
  deriving DecidableEq

/-- The expression `parseInt(v) || fallback` for a query value with a numeric default:
`NaN` and 0 give the fallback. -/
def parseIntOr (env : Env) (fallback : Int) (v : QueryVal) : Int :=
  match v with
  | .absent => fallback
  | .str s => match env.parseInt s with
    | none => fallback
    | some n => if n = 0 then fallback else n
  | .other r => match env.parseInt r with
    | none => fallback
    | some n => if n = 0 then fallback else n

/-- The lines the three list controllers share (`listUsers` lines 104-110,
`listStores` lines 321-327, `listStoresForUser` lines 93-99), for the
allow-list `validSortFields`.  An array or object as `sortOrder` has no
method `toUpperCase`: the call throws. -/
def listPlan (env : Env) (validSortFields : List String) (q : ListQuery) :
    Except Unit ListPlan :=
  let orderField : String := match q.sortBy with
    | .absent => "name"
    | .str s => if validSortFields.contains s then s else "name"
    | .other _ => "name"
  let pageNum := parseIntOr env 1 q.page
  let pageSize := parseIntOr env 10 q.limit
  match q.sortOrder with
  | .other _ => throw ()
  | .absent => pure ⟨orderField, "ASC", pageNum, pageSize, (pageNum - 1) * pageSize⟩
  | .str o =>
    pure ⟨orderField, if env.toUpperCase o = "DESC" then "DESC" else "ASC",
      pageNum, pageSize, (pageNum - 1) * pageSize⟩

/-- The `pagination` object of a list response. -/
structure Pagination where
  total : Int
  page : Int
  limit : Int
  totalPages : Int
  deriving DecidableEq

/-- A list controller: the plan, the query, whose rows and count come from
`exec` (`findAndCountAll`, which throws when the database refuses the
statement), and the response with `totalPages = Math.ceil(count /
pageSize)`; `none` is the 500 response of the `catch` block. -/
def listWith {α : Type} (env : Env) (validSortFields : List String)
    (exec : ListPlan → Option (List α × Nat)) (q : ListQuery) :
    Option (List α × Pagination) :=
  match listPlan env validSortFields q with
  | .error _ => none
  | .ok plan =>
    match exec plan with
    | none => none
    | some (rows, count) =>
      some (rows, ⟨count, plan.pageNum, plan.pageSize,
        ⌈(count : ℚ) / (plan.pageSize : ℚ)⌉⟩)

/-- The controller `listUsers` (`adminController.js` lines 84-133). -/
def listUsers {α : Type} (env : Env) (exec : ListPlan → Option (List α × Nat))
    (q : ListQuery) : Option (List α × Pagination) :=
  listWith env ["name", "email", "address", "role", "created_at"] exec q

/-- The controller `listStores` (`adminController.js` lines 304-364). -/
def listStores {α : Type} (env : Env) (exec : ListPlan → Option (List α × Nat))
    (q : ListQuery) : Option (List α × Pagination) :=
  listWith env ["name", "email", "address", "average_rating"] exec q

/-- The controller `listStoresForUser` (`userStoreController.js` lines 76-149); `exec`
includes the join with the caller's rating and its mapping to `myRating`. -/
def listStoresForUser {α : Type} (env : Env)
    (exec : ListPlan → Option (List α × Nat)) (q : ListQuery) :
    Option (List α × Pagination) :=
  listWith env ["name", "address", "average_rating", "ratings_count"] exec q

/-! ## Reachable states -/

/-- One request to a controller that writes, on a database that carries
out every statement (`writeOk` is true). -/
inductive Step (env : Env) : DB → DB → Prop where
  | signup (body : SignupBody) (db : DB) : Step env db (signup env body db).2
  | changePassword (user : Identity) (old new : TextField) (db : DB) :
      Step env db (changePassword env user old new db).2
  | createUser (body : SignupBody) (db : DB) :
      Step env db (createUser env body db).2
  | updateUserByAdmin (idParam : String) (body : UpdateUserBody) (db : DB) :
      Step env db (updateUserByAdmin env idParam body db).2
  | deleteUserByAdmin (admin : Identity) (idParam : String) (db : DB) :
      Step env db (deleteUserByAdmin env admin idParam db).2
  | createStore (body : StoreBody) (db : DB) :
      Step env db (createStore env body db).2
  | updateStoreByAdmin (idParam : String) (body : StoreBody) (db : DB) :
      Step env db (updateStoreByAdmin env idParam body db).2
  | deleteStoreByAdmin (idParam : String) (db : DB) :
      Step env db (deleteStoreByAdmin env idParam db).2
  | updateCurrentUser (user : Identity) (body : ProfileBody) (db : DB) :
      Step env db (updateCurrentUser env user body db).2
  | createRating (now : Nat) (user : Identity) (storeIdParam : String)
      (body : RatingBody) (db : DB) :
      Step env db (createRating env true now user storeIdParam body db).2
  | updateRating (user : Identity) (storeIdParam : String)
      (body : RatingBody) (db : DB) :
      Step env db (updateRating env true user storeIdParam body db).2

/-- The states the controllers reach from the empty database. -/
inductive Reachable (env : Env) : DB → Prop where
  | init : Reachable env DB.empty
  | step {db db2 : DB} : Reachable env db → Step env db db2 →
      Reachable env db2

/-- One request to one of the five administrator controllers that write
users and stores. -/
inductive AdminStep (env : Env) : DB → DB → Prop where
  | createUser (body : SignupBody) (db : DB) :
      AdminStep env db (createUser env body db).2
  | updateUserByAdmin (idParam : String) (body : UpdateUserBody) (db : DB) :
      AdminStep env db (updateUserByAdmin env idParam body db).2
  | deleteUserByAdmin (admin : Identity) (idParam : String) (db : DB) :
      AdminStep env db (deleteUserByAdmin env admin idParam db).2
  | createStore (body : StoreBody) (db : DB) :
      AdminStep env db (createStore env body db).2
  | updateStoreByAdmin (idParam : String) (body : StoreBody) (db : DB) :
      AdminStep env db (updateStoreByAdmin env idParam body db).2

/-- The states the administrator controllers reach from the empty
database. -/
inductive AdminReachable (env : Env) : DB → Prop where
  | init : AdminReachable env DB.empty
  | step {db db2 : DB} : AdminReachable env db → AdminStep env db db2 →
      AdminReachable env db2

/-- The arithmetic mean of `rating_value` over the rows, 0 when there are
none. -/
def meanRating (rows : List Rating) : ℚ :=
  if rows.length = 0 then 0
  else ((rows.map fun r => r.rating_value).sum : ℚ) / (rows.length : ℚ)

/-- The Rating rows whose store is owned by the user with key `ownerId`,
each once: the pool the specification takes the mean over. -/
def pooledRatings (db : DB) (ownerId : Int) : List Rating :=
  db.ratings.filter fun r =>
    db.stores.any fun s => s.id = r.store_id ∧ s.owner_id = ownerId

/-- The state after a recompute for `storeId` that the database carries
out. -/
def recomputed (storeId : Int) (db : DB) : DB :=
  { db with stores := db.stores.map fun s =>
      if s.id = storeId then
        { s with
          average_rating := roundDecimal2 (meanRating (ratingsOf db storeId)),
          ratings_count := ((ratingsOf db storeId).length : Int) }
      else s }

/-- The invariant of the reachable states: the derived fields of every
store are the aggregates of its Rating rows, the keys are below their
sequences, Rating ids are unique, and no two rows share user and store. -/
structure Consistent (db : DB) : Prop where
  aggregates : ∀ s ∈ db.stores,
    s.average_rating = roundDecimal2 (meanRating (ratingsOf db s.id)) ∧
    s.ratings_count = ((ratingsOf db s.id).length : Int)
  storeIds : ∀ s ∈ db.stores, s.id < db.nextStoreId
  ratingStores : ∀ r ∈ db.ratings, r.store_id < db.nextStoreId
  ratingIds : ∀ r ∈ db.ratings, r.id < db.nextRatingId
  ratingIdsUnique : db.ratings.Pairwise fun a b => a.id ≠ b.id
  onePerPair : db.ratings.Pairwise fun a b =>
    ¬ (a.user_id = b.user_id ∧ a.store_id = b.store_id)

/-- The key discipline of `users` in the reachable states: keys are below
the sequence and unique, and no two users share an e-mail address. -/
structure UserKeys (db : DB) : Prop where
  below : ∀ u ∈ db.users, u.id < db.nextUserId
  idsUnique : db.users.Pairwise fun a b => a.id ≠ b.id
  emailsUnique : db.users.Pairwise fun a b => a.email ≠ b.email

/-- The key discipline of `stores` and `ratings` in the reachable states:
store keys are below the sequence and unique, and every Rating row
references a store that exists. -/
structure StoreKeys (db : DB) : Prop where
  below : ∀ s ∈ db.stores, s.id < db.nextStoreId
  idsUnique : db.stores.Pairwise fun a b => a.id ≠ b.id
  rated : ∀ r ∈ db.ratings, ∃ s ∈ db.stores, s.id = r.store_id

/-- Two states with the same users and sequence for them: what a
controller that writes stores and ratings only leaves. -/
def SameUsers (db db2 : DB) : Prop :=
  db2.users = db.users ∧ db2.nextUserId = db.nextUserId

/-- The invariant but for the aggregates of the stores with key `sid`. -/
def ConsistentBut (sid : Int) (db : DB) : Prop :=
  (∀ s ∈ db.stores, s.id ≠ sid →
    s.average_rating = roundDecimal2 (meanRating (ratingsOf db s.id)) ∧
    s.ratings_count = ((ratingsOf db s.id).length : Int)) ∧
  (∀ s ∈ db.stores, s.id < db.nextStoreId) ∧
  (∀ r ∈ db.ratings, r.store_id < db.nextStoreId) ∧
  (∀ r ∈ db.ratings, r.id < db.nextRatingId) ∧
  (db.ratings.Pairwise fun a b => a.id ≠ b.id) ∧
  (db.ratings.Pairwise fun a b =>
    ¬ (a.user_id = b.user_id ∧ a.store_id = b.store_id))

/-- Two states with the same stores, ratings and sequences for them: what
a controller that writes `users` only leaves. -/
def SameCatalog (db db2 : DB) : Prop :=
  db2.stores = db.stores ∧ db2.ratings = db.ratings ∧
  db2.nextStoreId = db.nextStoreId ∧ db2.nextRatingId = db.nextRatingId

/-! ## Reference environment

A concrete `Env`, on which the definitions can be evaluated. -/

/-- Decimal digits read as a natural number. -/
def digitsValue : List Char → Nat → Option Nat
  | [], acc => some acc
  | c :: cs, acc =>
    if c.isDigit then digitsValue cs (10 * acc + (c.toNat - 48)) else none

/-- An optional minus sign and one or more decimal digits. -/
def readInteger (s : String) : Option Int :=
  match s.toList with
  | [] => none
  | '-' :: d :: ds => (digitsValue (d :: ds) 0).map fun n => - (n : Int)
  | cs => (digitsValue cs 0).map fun n => (n : Int)

/-- The tokens of the reference environment. -/
def refVerify (token : String) : Option Identity :=
  if token = "admin-token" then some ⟨1, "admin@example.com", "SYSTEM_ADMIN"⟩
  else if token = "owner-token" then some ⟨2, "owner@example.com", "STORE_OWNER"⟩
  else if token = "user-token" then some ⟨3, "user@example.com", "NORMAL_USER"⟩
  else none

/-- The reference environment: integer literals are read in decimal, a
number is an integer when its denominator is 1, every string with an `@`
is an e-mail address, and the hash of a password is the password after a
marker. -/
def refEnv : Env where
  verify := refVerify
  sign := fun u => "token-" ++ toString u.id
  hash := fun p => "hash:" ++ p
  compare := fun p h => decide (h = "hash:" ++ p)
  isEmail := fun s => s.toList.contains '@'
  strToNumber := fun s => (readInteger s).map fun n => (n : ℚ)
  parseFloat := fun s => (readInteger s).map fun n => (n : ℚ)
  parseInt := readInteger
  intColumn := fun v =>
    match v with
    | .num q => if q.den = 1 then some q.num else none
    | .str s => readInteger s
    | _ => none
  toUpperCase := fun s => String.mk (s.toList.map Char.toUpper)

/-! ## A worked example in the reference environment -/

/-- The request that creates the owner of the example. -/
def ownerBody : SignupBody :=
  ⟨.text "Owner A of the Store X", .text "owner@example.com",
   .text "1 Main Street", .text "Abcdefg1!", .str "STORE_OWNER"⟩

/-- The row of the owner of the example. -/
def ownerRow : User :=
  ⟨1, "Owner A of the Store X", "owner@example.com", some "1 Main Street",
   "hash:Abcdefg1!", "STORE_OWNER"⟩

/-- The example, step 1: an administrator creates the owner. -/
def stateOwner : DB := (createUser refEnv ownerBody DB.empty).2

/-- The example, step 2: an administrator creates Store X. -/
def stateStore : DB :=
  (createStore refEnv ⟨.text "Store X", .absent, .text "2 Main Street", .num 1⟩
    stateOwner).2

/-- A normal user of the example, by key. -/
def bob (id : Int) : Identity := ⟨id, "bob@example.com", "NORMAL_USER"⟩

/-- The example, step 3: user 3 gives Store X the value 1. -/
def stateFirst : DB := (createRating refEnv true 1 (bob 3) "1" ⟨.num 1, .absent⟩ stateStore).2

/-- Store X with given derived fields. -/
def storeX (avg : ℚ) (count : Int) : Store :=
  ⟨1, "Store X", none, "2 Main Street", 1, avg, count⟩

/-- The example, step 4: user 4 gives Store X the value 1. -/
def stateSecond : DB := (createRating refEnv true 2 (bob 4) "1" ⟨.num 1, .absent⟩ stateFirst).2

/-- The example, step 5: user 5 gives Store X the value 2. -/
def stateThird : DB := (createRating refEnv true 3 (bob 5) "1" ⟨.num 2, .absent⟩ stateSecond).2

/-- The request that creates the administrator of the example. -/
def adminBody : SignupBody :=
  ⟨.text "Administrator of the platform", .text "admin@example.com",
   .text "9 Main Street", .text "Abcdefg1!", .str "SYSTEM_ADMIN"⟩

/-- A database with the administrator alone, who gets the key 1. -/
def stateAdmin : DB := (createUser refEnv adminBody DB.empty).2

/-- The row of the administrator. -/
def adminRow : User :=
  ⟨1, "Administrator of the platform", "admin@example.com",
   some "9 Main Street", "hash:Abcdefg1!", "SYSTEM_ADMIN"⟩

/-- The request by which Bob signs up. -/
def bobBody : SignupBody :=
  ⟨.text "Bob the Normal User of X", .text "bob@example.com",
   .text "3 Main Street", .text "Abcdefg1!", .undefined⟩

/-- The owner of the example and Bob, who gets the key 2. -/
def stateBob : DB := (signup refEnv bobBody stateOwner).2

/-- The row of Bob. -/
def bobRow : User :=
  ⟨2, "Bob the Normal User of X", "bob@example.com", some "3 Main Street",
   "hash:Abcdefg1!", "NORMAL_USER"⟩

/-- The request that turns the owner of Store X into a normal user. -/
def demoteBody : UpdateUserBody :=
  ⟨.absent, .absent, .absent, .str "NORMAL_USER", .absent⟩

/-- The example after the administrator has changed the role of the owner
of Store X. -/
def stateDemoted : DB := (updateUserByAdmin refEnv "1" demoteBody stateStore).2

/-! ## Theorems: the authorization gate -/

theorem splitOn_ne_nil (sep : Char) (cs : List Char) : splitOn sep cs ≠ [] := by
  induction cs with
  | nil => simp [splitOn]
  | cons c cs ih =>
    unfold splitOn
    split
    · simp
    · split
      · simp
      · simp

theorem splitOn_no_sep (sep : Char) (cs : List Char) (h : sep ∉ cs) :
    splitOn sep cs = [cs] := by
  induction cs with
  | nil => simp [splitOn]
  | cons c cs ih =>
    have hc : c ≠ sep := fun e => h (by simp [e])
    have hcs : sep ∉ cs := fun e => h (by simp [e])
    simp [splitOn, hc, ih hcs]

/-- The token of a header `Bearer <t>` is `t`, when `t` has no blank. -/
theorem bearerToken_bearer (t : String) (h : ' ' ∉ t.toList) :
    bearerToken ("Bearer " ++ t) = some t := by
  have e : ("Bearer " ++ t).toList = 'B' :: 'e' :: 'a' :: 'r' :: 'e' :: 'r' :: ' ' :: t.toList := by
    simp [String.toList, String.data_append]
  have h2 : splitOn ' ' t.data = [t.data] := splitOn_no_sep _ _ h
  simp [bearerToken, e, splitOn, h2]

/-- C5: the middleware `authorizeRoles(...allowedRoles)` calls `next()`,
with the request as it received it, exactly when `req.user` is set and its
role is one of `allowedRoles`; in every other case it answers 403 and does
not call `next()`. -/
theorem authorizeRoles_spec (allowedRoles : List String) (req : Request) :
    ((∃ u, req.user = some u ∧ u.role ∈ allowedRoles) ∧
        authorizeRoles allowedRoles req = .next req) ∨
    ((¬ ∃ u, req.user = some u ∧ u.role ∈ allowedRoles) ∧
        authorizeRoles allowedRoles req =
          .respond 403 "Forbidden: insufficient rights") := by
  unfold authorizeRoles
  cases hu : req.user with
  | none => right; simp
  | some u =>
    by_cases hr : u.role ∈ allowedRoles
    · left; simp [hr]
    · right; simp [hr]

/-- C7: `authMiddleware` answers 401 without calling `next()` when the
Authorization header is absent, does not start with `Bearer `, or carries a
token that `verify` rejects; in every other case the header is
`Bearer`-prefixed, its token verifies, and the middleware calls `next()` once
with `req.user` set to exactly the decoded identity and the rest of the
request untouched. -/
theorem authMiddleware_spec (env : Env) (req : Request) :
    ((req.authorization = none ∨
        (∃ h, req.authorization = some h ∧ startsWithBearer h = false) ∨
        (∃ h, req.authorization = some h ∧
          (bearerToken h).bind env.verify = none)) ∧
      ∃ msg, authMiddleware env req = .respond 401 msg) ∨
    (∃ h tok ident, req.authorization = some h ∧ startsWithBearer h = true ∧
      bearerToken h = some tok ∧ env.verify tok = some ident ∧
      authMiddleware env req = .next { req with user := some ident }) := by
  unfold authMiddleware
  cases ha : req.authorization with
  | none => left; simp
  | some h =>
    by_cases he : h = ""
    · left
      subst he
      refine ⟨Or.inr (Or.inl ⟨"", rfl, by decide⟩), ?_⟩
      simp
    · cases hs : startsWithBearer h with
      | false => left; simp [hs]
      | true =>
        cases hv : (bearerToken h).bind env.verify with
        | none =>
          left
          refine ⟨Or.inr (Or.inr ⟨h, rfl, hv⟩), ?_⟩
          simp only [hs, he, hv]
          simp
        | some ident =>
          right
          obtain ⟨tok, ht, hvt⟩ := Option.bind_eq_some.mp hv
          refine ⟨h, tok, ident, rfl, hs, ht, hvt, ?_⟩
          simp only [hs, he, hv]
          simp

/-- The two-stage gate of a router: when it lets a request through, the
request carries the identity `authMiddleware` decoded and its role is one of
the permitted ones. -/
theorem gate_next (env : Env) (roles : List String) (req r : Request)
    (h : runMiddlewares [authMiddleware env, authorizeRoles roles] req = .next r) :
    authMiddleware env req = .next r ∧
      ∃ ident, r.user = some ident ∧ ident.role ∈ roles := by
  simp only [runMiddlewares] at h
  cases ha : authMiddleware env req with
  | respond s m => simp [ha] at h
  | next r1 =>
    simp only [ha, authorizeRoles] at h
    cases hu : r1.user with
    | none => simp [hu] at h
    | some u =>
      simp only [hu] at h
      by_cases hr : u.role ∈ roles
      · simp [hr] at h
        subst h
        exact ⟨rfl, u, hu, hr⟩
      · simp [hr] at h

/-- The gate answers 403 when the decoded identity has no permitted role. -/
theorem gate_forbidden (env : Env) (roles : List String) (req r : Request)
    (ident : Identity) (ha : authMiddleware env req = .next r)
    (hu : r.user = some ident) (hr : ident.role ∉ roles) :
    runMiddlewares [authMiddleware env, authorizeRoles roles] req =
      .respond 403 "Forbidden: insufficient rights" := by
  simp [runMiddlewares, ha, authorizeRoles, hu, hr]

/-- Routes without middleware of their own hand the controller the request
they received. -/
theorem runRouter_plain (layers : List Layer)
    (hl : ∀ l ∈ layers, ∃ m pat c, l = Layer.route m pat [] c)
    (path : List String) (r : Request) (c : Controller) (r2 : Request)
    (h : runRouter layers path r = .invoked c r2) : r2 = r := by
  induction layers with
  | nil => simp [runRouter] at h
  | cons l ls ih =>
    obtain ⟨m, pat, c1, rfl⟩ := hl l (by simp)
    have hl2 : ∀ l ∈ ls, ∃ m pat c, l = Layer.route m pat [] c :=
      fun l hm => hl l (by simp [hm])
    simp only [runRouter] at h
    split at h
    · simp [runMiddlewares] at h
      exact h.2.symm
    · exact ih hl2 h

/-- A router that opens with the two-stage gate invokes a controller only
on a request whose identity has a permitted role. -/
theorem gated_router_invoked (env : Env) (roles : List String)
    (layers : List Layer)
    (hl : ∀ l ∈ layers, ∃ m pat c, l = Layer.route m pat [] c)
    (path : List String) (req : Request) (c : Controller) (r2 : Request)
    (h : runRouter (.use [authMiddleware env, authorizeRoles roles] :: layers)
      path req = .invoked c r2) :
    ∃ ident, r2.user = some ident ∧ ident.role ∈ roles := by
  simp only [runRouter] at h
  cases hg : runMiddlewares [authMiddleware env, authorizeRoles roles] req with
  | respond s m => simp [hg] at h
  | next r1 =>
    simp only [hg] at h
    have := runRouter_plain layers hl path r1 c r2 h
    subst this
    exact (gate_next env roles req r2 hg).2

/-- A router that opens with the two-stage gate answers 403 to a request
whose identity has no permitted role, whatever the path and the method. -/
theorem gated_router_forbidden (env : Env) (roles : List String)
    (layers : List Layer) (path : List String) (req r : Request)
    (ident : Identity) (ha : authMiddleware env req = .next r)
    (hu : r.user = some ident) (hr : ident.role ∉ roles) :
    runRouter (.use [authMiddleware env, authorizeRoles roles] :: layers)
      path req = .responded 403 "Forbidden: insufficient rights" := by
  simp only [runRouter, gate_forbidden env roles req r ident ha hu hr]

/-- Under a mount, the application does what the mounted router does, and
answers 404 when the router leaves the request unhandled. -/
theorem app_under_mount (env : Env) (req : Request) (rest : List String) :
    (req.path = "api" :: "admin" :: rest →
      app env req = match runRouter (adminRoutes env) rest req with
        | .unhandled => .responded 404 "Not Found"
        | d => d) ∧
    (req.path = "api" :: "owner" :: rest →
      app env req = match runRouter (ownerRoutes env) rest req with
        | .unhandled => .responded 404 "Not Found"
        | d => d) ∧
    (req.path = "api" :: "user" :: rest →
      app env req = match runRouter (userStoreRoutes env) rest req with
        | .unhandled => .responded 404 "Not Found"
        | d => d) := by
  refine ⟨fun hp => ?_, fun hp => ?_, fun hp => ?_⟩
  · cases hd : runRouter (adminRoutes env) rest req <;>
      simp [app, runMounts, mounts, underMount, hp, hd]
  · cases hd : runRouter (ownerRoutes env) rest req <;>
      simp [app, runMounts, mounts, underMount, hp, hd]
  · cases hd : runRouter (userStoreRoutes env) rest req <;>
      simp [app, runMounts, mounts, underMount, hp, hd]

/-- C6: route gating.  A request that `authMiddleware` authenticates with an
identity whose role is not SYSTEM_ADMIN (in particular NORMAL_USER) is
answered 403 on every path under `/api/admin`, likewise for a role that is
not STORE_OWNER under `/api/owner` and for a role that is not NORMAL_USER (in
particular SYSTEM_ADMIN) under `/api/user`; and whenever the application
invokes a controller on a path under one of these three mounts, the request
it hands over carries an identity with the role of that mount. -/
theorem route_gating (env : Env) (req : Request) (rest : List String) :
    (∀ r ident, authMiddleware env req = .next r → r.user = some ident →
      (req.path = "api" :: "admin" :: rest ∧ ident.role ≠ "SYSTEM_ADMIN" ∨
       req.path = "api" :: "owner" :: rest ∧ ident.role ≠ "STORE_OWNER" ∨
       req.path = "api" :: "user" :: rest ∧ ident.role ≠ "NORMAL_USER") →
      app env req = .responded 403 "Forbidden: insufficient rights") ∧
    (∀ c r, app env req = .invoked c r →
      (req.path = "api" :: "admin" :: rest →
        ∃ ident, r.user = some ident ∧ ident.role = "SYSTEM_ADMIN") ∧
      (req.path = "api" :: "owner" :: rest →
        ∃ ident, r.user = some ident ∧ ident.role = "STORE_OWNER") ∧
      (req.path = "api" :: "user" :: rest →
        ∃ ident, r.user = some ident ∧ ident.role = "NORMAL_USER")) := by
  obtain ⟨hA, hO, hU⟩ := app_under_mount env req rest
  have key : ∀ (layers : List Layer) (c : Controller) (r : Request),
      (match runRouter layers rest req with
        | .unhandled => Dispatch.responded 404 "Not Found"
        | d => d) = .invoked c r → runRouter layers rest req = .invoked c r := by
    intro layers c r h
    generalize runRouter layers rest req = d at h
    cases d <;> simp_all
  constructor
  · intro r ident ha hu hp
    rcases hp with ⟨hp, hr⟩ | ⟨hp, hr⟩ | ⟨hp, hr⟩
    · rw [hA hp, adminRoutes,
        gated_router_forbidden env ["SYSTEM_ADMIN"] _ rest req r ident ha hu (by simpa using hr)]
    · rw [hO hp, ownerRoutes,
        gated_router_forbidden env ["STORE_OWNER"] _ rest req r ident ha hu (by simpa using hr)]
    · rw [hU hp, userStoreRoutes,
        gated_router_forbidden env ["NORMAL_USER"] _ rest req r ident ha hu (by simpa using hr)]
  · intro c r h
    refine ⟨fun hp => ?_, fun hp => ?_, fun hp => ?_⟩
    · rw [hA hp] at h
      have h2 := key _ c r h
      simpa using gated_router_invoked env ["SYSTEM_ADMIN"] _ (by simp) rest req c r h2
    · rw [hO hp] at h
      have h2 := key _ c r h
      simpa using gated_router_invoked env ["STORE_OWNER"] _ (by simp) rest req c r h2
    · rw [hU hp] at h
      have h2 := key _ c r h
      simpa using gated_router_invoked env ["NORMAL_USER"] _ (by simp) rest req c r h2

/-- Witness of C6: in the reference environment a NORMAL_USER token on
`GET /api/admin/users` is answered 403. -/
theorem route_gating_witness :
    app refEnv ⟨.GET, ["api", "admin", "users"], some "Bearer user-token", none⟩ =
      .responded 403 "Forbidden: insufficient rights" :=
  (route_gating refEnv ⟨.GET, ["api", "admin", "users"], some "Bearer user-token", none⟩
    ["users"]).1
    ⟨.GET, ["api", "admin", "users"], some "Bearer user-token",
      some ⟨3, "user@example.com", "NORMAL_USER"⟩⟩
    ⟨3, "user@example.com", "NORMAL_USER"⟩ (by decide) rfl
    (Or.inl ⟨rfl, by decide⟩)

/-! ## Theorems: the invariant of the reachable states -/

theorem meanRating_eq (rows : List Rating) :
    (avgOf rows).getD 0 = meanRating rows := by
  unfold avgOf meanRating
  by_cases h : rows = []
  · simp [h]
  · simp [h]

theorem recalculate_ok (sid : Int) (db : DB) :
    recalculateStoreRating true sid db = .ok (recomputed sid db) := by
  simp only [recalculateStoreRating, meanRating_eq, recomputed, if_true]
  rfl

theorem recalculate_fail (sid : Int) (db : DB) :
    recalculateStoreRating false sid db = .error () := by
  simp [recalculateStoreRating]
  rfl

theorem recomputed_consistent (sid : Int) (db : DB) (h : ConsistentBut sid db) :
    Consistent (recomputed sid db) := by
  obtain ⟨h1, h2, h3, h4, h5, h6⟩ := h
  refine ⟨?_, ?_, h3, h4, h5, h6⟩
  · intro s hs
    simp only [recomputed, List.mem_map] at hs
    obtain ⟨s0, hs0, rfl⟩ := hs
    by_cases e : s0.id = sid
    · simp [e, ratingsOf, recomputed]
    · simpa [e, ratingsOf, recomputed] using h1 s0 hs0 e
  · intro s hs
    simp only [recomputed, List.mem_map] at hs
    obtain ⟨s0, hs0, rfl⟩ := hs
    by_cases e : s0.id = sid
    · simpa [e, recomputed] using h2 s0 hs0
    · simpa [e, recomputed] using h2 s0 hs0

/-- Every run of `createRating` either leaves the database as it was, with
a status other than 201, or passes every check and inserts one row. -/
theorem createRating_cases (env : Env) (writeOk : Bool) (now : Nat)
    (user : Identity) (p : String) (body : RatingBody) (db : DB) :
    ((createRating env writeOk now user p body db).2 = db ∧
      (createRating env writeOk now user p body db).1.status ≠ 201) ∨
    ∃ sid value, env.parseInt p = some sid ∧
      (∃ s ∈ db.stores, s.id = sid) ∧
      (∀ r ∈ db.ratings, ¬ (r.store_id = sid ∧ r.user_id = user.id)) ∧
      writeRatingValue env body.rating_value = some value ∧
      createRating env writeOk now user p body db =
        if writeOk then
          (⟨201, "Rating created successfully",
            .rating (createdRating now user sid value body db)⟩,
           recomputed sid (afterInsert (createdRating now user sid value body db) db))
        else
          (.internal, afterInsert (createdRating now user sid value body db) db) := by
  unfold createRating
  split
  · left; simp [Response.msg]
  split
  · left; simp [Response.msg]
  split
  · left; simp [Response.internal, Response.msg]
  rename_i sid hsid
  split
  · left; simp [Response.msg]
  rename_i st hst
  split
  · left; simp [Response.msg]
  rename_i hnone
  split
  · left; simp [Response.internal, Response.msg]
  rename_i value hval
  right
  refine ⟨sid, value, hsid, ?_, ?_, hval, ?_⟩
  · have := List.find?_some hst
    exact ⟨st, List.mem_of_find?_eq_some hst, by simpa using this⟩
  · intro r hr
    have := List.find?_eq_none.mp hnone r hr
    simpa using this
  · cases writeOk
    · simp [recalculate_fail]
    · simp [recalculate_ok]

/-- Every run of `updateRating` either leaves the database as it was, with
a status other than 200, or finds the row of the caller and saves it. -/
theorem updateRating_cases (env : Env) (writeOk : Bool)
    (user : Identity) (p : String) (body : RatingBody) (db : DB) :
    ((updateRating env writeOk user p body db).2 = db ∧
      (updateRating env writeOk user p body db).1.status ≠ 200) ∨
    ∃ sid rating value, env.parseInt p = some sid ∧
      rating ∈ db.ratings ∧ rating.store_id = sid ∧ rating.user_id = user.id ∧
      updateRating env writeOk user p body db =
        if writeOk then
          (⟨200, "Rating updated successfully",
            .rating { rating with rating_value := value,
                                  comment := assignedComment rating body }⟩,
           recomputed sid
             (afterSave rating.id value (assignedComment rating body) db))
        else
          (.internal, afterSave rating.id value (assignedComment rating body) db) := by
  unfold updateRating
  split
  · left; simp [Response.msg]
  split
  · left; simp [Response.internal, Response.msg]
  rename_i sid hsid
  split
  · left; simp [Response.msg]
  rename_i rating hr
  have h1 := List.find?_some hr
  simp only [decide_eq_true_eq] at h1
  have hm := List.mem_of_find?_eq_some hr
  by_cases hu : body.rating_value = .undefined ∨
      body.rating_value = .num rating.rating_value
  · right
    refine ⟨sid, rating, rating.rating_value, hsid, hm, h1.1, h1.2, ?_⟩
    simp only [hu, if_true]
    cases writeOk
    · simp [recalculate_fail]
    · simp [recalculate_ok]
  · simp only [hu, if_false]
    cases hw : writeRatingValue env body.rating_value with
    | none => left; simp [Response.internal, Response.msg]
    | some value =>
      right
      refine ⟨sid, rating, value, hsid, hm, h1.1, h1.2, ?_⟩
      cases writeOk
      · simp [recalculate_fail]
      · simp [recalculate_ok]

theorem filter_map_of_fixed {α : Type} (p : α → Bool) (f : α → α) (l : List α)
    (h1 : ∀ r ∈ l, p (f r) = p r) (h2 : ∀ r ∈ l, p r = true → f r = r) :
    (l.map f).filter p = l.filter p := by
  induction l with
  | nil => rfl
  | cons a l ih =>
    have ih2 := ih (fun r hr => h1 r (by simp [hr])) (fun r hr => h2 r (by simp [hr]))
    have ha := h1 a (by simp)
    simp only [List.map_cons, List.filter_cons, ha, ih2]
    cases hp : p a
    · simp
    · simp [h2 a (by simp) hp]

theorem unique_of_pairwise_id (l : List Rating)
    (h : l.Pairwise fun a b => a.id ≠ b.id) (a b : Rating) (ha : a ∈ l)
    (hb : b ∈ l) (e : a.id = b.id) : a = b := by
  by_contra hne
  exact (h.forall (fun x y hxy => fun e2 => hxy e2.symm) ha hb hne) e

theorem consistent_of_sameCatalog (db db2 : DB) (h : SameCatalog db db2)
    (hc : Consistent db) : Consistent db2 := by
  obtain ⟨h1, h2, h3, h4⟩ := h
  obtain ⟨c1, c2, c3, c4, c5, c6⟩ := hc
  refine ⟨?_, ?_, ?_, ?_, ?_, ?_⟩
  · intro s hs
    rw [h1] at hs
    simpa [ratingsOf, h2] using c1 s hs
  · intro s hs
    rw [h1] at hs
    rw [h3]
    exact c2 s hs
  · intro r hr
    rw [h2] at hr
    rw [h3]
    exact c3 r hr
  · intro r hr
    rw [h2] at hr
    rw [h4]
    exact c4 r hr
  · rw [h2]; exact c5
  · rw [h2]; exact c6

theorem afterInsert_consistentBut (db : DB) (row : Rating) (hc : Consistent db)
    (hs : ∃ s ∈ db.stores, s.id = row.store_id)
    (hn : ∀ r ∈ db.ratings,
      ¬ (r.store_id = row.store_id ∧ r.user_id = row.user_id))
    (hid : row.id = db.nextRatingId) :
    ConsistentBut row.store_id (afterInsert row db) := by
  obtain ⟨c1, c2, c3, c4, c5, c6⟩ := hc
  refine ⟨?_, c2, ?_, ?_, ?_, ?_⟩
  · intro s hs he
    have hne : ¬ row.store_id = s.id := fun e => he e.symm
    simpa [ratingsOf, afterInsert, List.filter_append, hne] using c1 s hs
  · intro r hr
    simp only [afterInsert, List.mem_append, List.mem_singleton] at hr
    rcases hr with hr | rfl
    · exact c3 r hr
    · obtain ⟨s, hs1, hs2⟩ := hs
      rw [← hs2]
      exact c2 s hs1
  · intro r hr
    simp only [afterInsert, List.mem_append, List.mem_singleton] at hr
    rcases hr with hr | rfl
    · have := c4 r hr
      simp only [afterInsert]
      omega
    · simp only [afterInsert]
      omega
  · simp only [afterInsert, List.pairwise_append]
    refine ⟨c5, by simp, ?_⟩
    intro a ha b hb
    simp only [List.mem_singleton] at hb
    subst hb
    have := c4 a ha
    omega
  · simp only [afterInsert, List.pairwise_append]
    refine ⟨c6, by simp, ?_⟩
    intro a ha b hb
    simp only [List.mem_singleton] at hb
    subst hb
    intro ⟨e1, e2⟩
    exact hn a ha ⟨e2, e1⟩

theorem afterSave_consistentBut (db : DB) (rating : Rating) (value : Int)
    (comment : Option String) (hc : Consistent db) (hm : rating ∈ db.ratings) :
    ConsistentBut rating.store_id (afterSave rating.id value comment db) := by
  obtain ⟨c1, c2, c3, c4, c5, c6⟩ := hc
  refine ⟨?_, c2, ?_, ?_, ?_, ?_⟩
  · intro s hs he
    have key : ratingsOf (afterSave rating.id value comment db) s.id =
        ratingsOf db s.id := by
      simp only [ratingsOf, afterSave]
      apply filter_map_of_fixed
      · intro r _
        by_cases e : r.id = rating.id <;> simp [e]
      · intro r hr hp
        by_cases e : r.id = rating.id
        · have := unique_of_pairwise_id _ c5 r rating hr hm e
          subst this
          simp at hp
          exact absurd hp.symm he
        · simp [e]
    rw [key]
    exact c1 s hs
  · intro r hr
    simp only [afterSave, List.mem_map] at hr
    obtain ⟨r0, hr0, rfl⟩ := hr
    by_cases e : r0.id = rating.id
    · simpa [e] using c3 r0 hr0
    · simpa [e] using c3 r0 hr0
  · intro r hr
    simp only [afterSave, List.mem_map] at hr
    obtain ⟨r0, hr0, rfl⟩ := hr
    by_cases e : r0.id = rating.id
    · simpa [e] using c4 r0 hr0
    · simpa [e] using c4 r0 hr0
  · simp only [afterSave, List.pairwise_map]
    refine c5.imp ?_
    intro a b hab
    by_cases e1 : a.id = rating.id <;> by_cases e2 : b.id = rating.id <;>
      simp [e1, e2] <;> simp_all
  · simp only [afterSave, List.pairwise_map]
    refine c6.imp ?_
    intro a b hab
    by_cases e1 : a.id = rating.id <;> by_cases e2 : b.id = rating.id <;>
      simpa [e1, e2] using hab

theorem createRating_consistent (env : Env) (now : Nat) (user : Identity)
    (p : String) (body : RatingBody) (db : DB) (hc : Consistent db) :
    Consistent (createRating env true now user p body db).2 := by
  rcases createRating_cases env true now user p body db with ⟨h, _⟩ |
    ⟨sid, value, _, hs, hn, _, h⟩
  · rw [h]; exact hc
  · rw [h]
    simp only [if_true]
    exact recomputed_consistent _ _
      (afterInsert_consistentBut db (createdRating now user sid value body db) hc hs hn rfl)

theorem updateRating_consistent (env : Env) (user : Identity)
    (p : String) (body : RatingBody) (db : DB) (hc : Consistent db) :
    Consistent (updateRating env true user p body db).2 := by
  rcases updateRating_cases env true user p body db with ⟨h, _⟩ |
    ⟨sid, rating, value, _, hm, hs, _, h⟩
  · rw [h]; exact hc
  · rw [h]
    simp only [if_true]
    subst hs
    exact recomputed_consistent _ _ (afterSave_consistentBut db rating value _ hc hm)

theorem roundDecimal2_zero : roundDecimal2 0 = 0 := by
  norm_num [roundDecimal2]

/-- Replacing the stores by rows that keep key and derived fields of rows
that were there keeps the invariant. -/
theorem consistent_of_stores (db : DB) (stores2 : List Store)
    (h : ∀ s ∈ stores2, ∃ s0 ∈ db.stores, s.id = s0.id ∧
      s.average_rating = s0.average_rating ∧ s.ratings_count = s0.ratings_count)
    (hc : Consistent db) : Consistent { db with stores := stores2 } := by
  obtain ⟨c1, c2, c3, c4, c5, c6⟩ := hc
  refine ⟨?_, ?_, c3, c4, c5, c6⟩
  · intro s hs
    obtain ⟨s0, hs0, e1, e2, e3⟩ := h s hs
    have := c1 s0 hs0
    simpa [ratingsOf, e1, e2, e3] using this
  · intro s hs
    obtain ⟨s0, hs0, e1, _, _⟩ := h s hs
    simpa [e1] using c2 s0 hs0

theorem findByPk_some {α : Type} (env : Env) (key : α → Int) (rows : List α)
    (v : JsVal) (r : α) (h : findByPk env key rows v = .ok (some r)) :
    env.intColumn v = some (key r) ∧ r ∈ rows := by
  have aux : (match env.intColumn v with
      | none => (throw () : Except Unit (Option α))
      | some n => pure (rows.find? fun r => key r = n)) = .ok (some r) →
      env.intColumn v = some (key r) ∧ r ∈ rows := by
    intro h
    cases hn : env.intColumn v with
    | none => simp [hn, throw, throwThe, MonadExceptOf.throw] at h
    | some n =>
      simp only [hn, pure, Except.pure, Except.ok.injEq] at h
      have := List.find?_some h
      simp only [decide_eq_true_eq] at this
      exact ⟨by rw [this], List.mem_of_find?_eq_some h⟩
  cases v with
  | undefined => simp [findByPk, pure, Except.pure] at h
  | null => simp [findByPk, pure, Except.pure] at h
  | bool b => simp [findByPk, throw, throwThe, MonadExceptOf.throw] at h
  | num q => exact aux (by simpa [findByPk] using h)
  | str s => exact aux (by simpa [findByPk] using h)
  | compound c => simp [findByPk, throw, throwThe, MonadExceptOf.throw] at h

/-- The store `createStore` inserts. -/
theorem createStore_cases (env : Env) (body : StoreBody) (db : DB) :
    ((createStore env body db).2 = db ∧ (createStore env body db).1.status ≠ 201) ∨
    ∃ owner name email address,
      owner ∈ db.users ∧ owner.role = "STORE_OWNER" ∧
      env.intColumn body.ownerId = some owner.id ∧
      createStore env body db =
        (⟨201, "Store created successfully",
          .store ⟨db.nextStoreId, name, email, address, owner.id, 0, 0⟩⟩,
         { db with
           stores := db.stores ++ [⟨db.nextStoreId, name, email, address, owner.id, 0, 0⟩],
           nextStoreId := db.nextStoreId + 1 }) := by
  unfold createStore
  split
  · left; simp [Response.msg]
  split
  · left; simp [Response.internal, Response.msg]
  · left; simp [Response.msg]
  rename_i owner hf
  split
  · left; simp [Response.msg]
  rename_i hrole
  obtain ⟨hn, hmem⟩ := findByPk_some env User.id db.users body.ownerId owner hf
  cases h1 : validStoreText 60 body.name with
  | none => left; simp [Response.internal, Response.msg]
  | some name =>
    cases h2 : validStoreEmail env (orNull body.email) with
    | none => left; simp [Response.internal, Response.msg]
    | some email =>
      cases h3 : validStoreText 400 body.address with
      | none => left; simp [Response.internal, Response.msg]
      | some address =>
        right
        refine ⟨owner, name, email, address, hmem, by simpa using hrole, hn, ?_⟩
        simp [hn]

theorem createStore_consistent (env : Env) (body : StoreBody) (db : DB)
    (hc : Consistent db) : Consistent (createStore env body db).2 := by
  rcases createStore_cases env body db with ⟨h, _⟩ | ⟨owner, name, email, address, _, _, _, h⟩
  · rw [h]; exact hc
  · rw [h]
    obtain ⟨c1, c2, c3, c4, c5, c6⟩ := hc
    have hnil : ratingsOf db db.nextStoreId = [] := by
      simp only [ratingsOf, List.filter_eq_nil_iff]
      intro r hr
      have := c3 r hr
      simp
      omega
    refine ⟨?_, ?_, ?_, c4, c5, c6⟩
    · intro s hs
      simp only [List.mem_append, List.mem_singleton] at hs
      rcases hs with hs | rfl
      · simpa [ratingsOf] using c1 s hs
      · have h2 : ratingsOf
            { db with
              stores := db.stores ++ [⟨db.nextStoreId, name, email, address, owner.id, 0, 0⟩],
              nextStoreId := db.nextStoreId + 1 } db.nextStoreId = [] := hnil
        simp [h2, meanRating, roundDecimal2_zero]
    · intro s hs
      simp only [List.mem_append, List.mem_singleton] at hs
      rcases hs with hs | rfl
      · have := c2 s hs
        show s.id < db.nextStoreId + 1
        omega
      · show db.nextStoreId < db.nextStoreId + 1
        omega
    · intro r hr
      have := c3 r hr
      show r.store_id < db.nextStoreId + 1
      omega

/-- The controller `updateStoreByAdmin` rewrites stores without touching their key and
their derived fields. -/
theorem updateStoreByAdmin_stores (env : Env) (idParam : String)
    (body : StoreBody) (db : DB) :
    ∃ f : Store → Store,
      (∀ s, (f s).id = s.id ∧ (f s).average_rating = s.average_rating ∧
        (f s).ratings_count = s.ratings_count) ∧
      (updateStoreByAdmin env idParam body db).2 =
        { db with stores := db.stores.map f } := by
  have hid : ∃ f : Store → Store,
      (∀ s, (f s).id = s.id ∧ (f s).average_rating = s.average_rating ∧
        (f s).ratings_count = s.ratings_count) ∧
      db = { db with stores := db.stores.map f } :=
    ⟨id, fun s => ⟨rfl, rfl, rfl⟩, by simp⟩
  unfold updateStoreByAdmin
  split
  · exact hid
  split
  · exact hid
  · exact hid
  rename_i store hf
  split
  · exact hid
  rename_i newOwner hown
  split
  · rename_i name email address h1 h2 h3
    refine ⟨fun s => if s.id = store.id then
      { s with name := name, email := email, address := address,
               owner_id := newOwner.getD s.owner_id } else s, ?_, rfl⟩
    intro s
    by_cases e : s.id = store.id <;> simp [e]
  · exact hid

theorem updateStoreByAdmin_consistent (env : Env) (idParam : String)
    (body : StoreBody) (db : DB) (hc : Consistent db) :
    Consistent (updateStoreByAdmin env idParam body db).2 := by
  obtain ⟨f, hf, h⟩ := updateStoreByAdmin_stores env idParam body db
  rw [h]
  apply consistent_of_stores db _ _ hc
  intro s hs
  simp only [List.mem_map] at hs
  obtain ⟨s0, hs0, rfl⟩ := hs
  exact ⟨s0, hs0, hf s0⟩

theorem deleteStoreByAdmin_cases (env : Env) (idParam : String) (db : DB) :
    ((deleteStoreByAdmin env idParam db).2 = db ∧
      (deleteStoreByAdmin env idParam db).1.status ≠ 200) ∨
    ∃ store, store ∈ db.stores ∧ env.intColumn (.str idParam) = some store.id ∧
      ratingsOf db store.id = [] ∧
      deleteStoreByAdmin env idParam db =
        (.msg 200 "Store deleted",
         { db with stores := db.stores.filter fun s => s.id ≠ store.id }) := by
  unfold deleteStoreByAdmin
  split
  · left; simp [Response.msg]
  split
  · left; simp [Response.internal, Response.msg]
  · left; simp [Response.msg]
  rename_i store hf
  obtain ⟨hn, hmem⟩ := findByPk_some env Store.id db.stores (.str idParam) store hf
  split
  · rename_i h
    rw [hn] at h
    cases h
  rename_i storeId hsid
  rw [hn] at hsid
  cases hsid
  split
  · left; simp [Response.msg]
  · rename_i hcount
    right
    refine ⟨store, hmem, hn, ?_, rfl⟩
    simpa using hcount

theorem deleteStoreByAdmin_consistent (env : Env) (idParam : String) (db : DB)
    (hc : Consistent db) : Consistent (deleteStoreByAdmin env idParam db).2 := by
  rcases deleteStoreByAdmin_cases env idParam db with ⟨h, _⟩ | ⟨store, _, _, _, h⟩
  · rw [h]; exact hc
  · rw [h]
    apply consistent_of_stores db _ _ hc
    intro s hs
    exact ⟨s, (List.mem_filter.mp hs).1, rfl, rfl, rfl⟩

theorem insertUser_some (env : Env) (name email : String)
    (address : Option String) (hash role : String) (db : DB) (u : User)
    (db1 : DB) (h : insertUser env name email address hash role db = some (u, db1)) :
    u = ⟨db.nextUserId, name, email, address, hash, role⟩ ∧
    db1 = { db with users := db.users ++ [u], nextUserId := db.nextUserId + 1 } ∧
    (∀ v ∈ db.users, v.email ≠ email) ∧ allowedRoles.contains role = true := by
  unfold insertUser at h
  split at h
  · rename_i hv
    simp only [Option.some.injEq, Prod.mk.injEq] at h
    obtain ⟨rfl, rfl⟩ := h
    simp only [Bool.and_eq_true, Bool.not_eq_true', List.any_eq_false,
      decide_eq_true_eq] at hv
    exact ⟨rfl, rfl, fun v hv2 => by simpa using hv.2 v hv2, hv.1.2⟩
  · simp at h

theorem signup_sameCatalog (env : Env) (body : SignupBody) (db : DB) :
    SameCatalog db (signup env body db).2 := by
  unfold signup
  split
  · simp [SameCatalog]
  split
  · simp [SameCatalog]
  split
  · simp [SameCatalog]
  split
  · simp [SameCatalog]
  · rename_i u db1 h
    obtain ⟨_, rfl, _⟩ := insertUser_some _ _ _ _ _ _ _ _ _ h
    simp [SameCatalog]

theorem createUser_sameCatalog (env : Env) (body : SignupBody) (db : DB) :
    SameCatalog db (createUser env body db).2 := by
  unfold createUser
  split
  · simp [SameCatalog]
  split
  · split
    · simp [SameCatalog]
    split
    · simp [SameCatalog]
    split
    · simp [SameCatalog]
    split
    · simp [SameCatalog]
    · rename_i u db1 h
      obtain ⟨_, rfl, _⟩ := insertUser_some _ _ _ _ _ _ _ _ _ h
      simp [SameCatalog]
  · simp [SameCatalog]

theorem changePassword_sameCatalog (env : Env) (user : Identity)
    (old new : TextField) (db : DB) :
    SameCatalog db (changePassword env user old new db).2 := by
  unfold changePassword
  repeat' split
  all_goals simp [SameCatalog]

theorem updateUserByAdmin_sameCatalog (env : Env) (idParam : String)
    (body : UpdateUserBody) (db : DB) :
    SameCatalog db (updateUserByAdmin env idParam body db).2 := by
  unfold updateUserByAdmin
  repeat' split
  all_goals simp [SameCatalog]

theorem deleteUserByAdmin_sameCatalog (env : Env) (admin : Identity)
    (idParam : String) (db : DB) :
    SameCatalog db (deleteUserByAdmin env admin idParam db).2 := by
  unfold deleteUserByAdmin
  repeat' split
  all_goals simp [SameCatalog]

theorem updateCurrentUser_sameCatalog (env : Env) (user : Identity)
    (body : ProfileBody) (db : DB) :
    SameCatalog db (updateCurrentUser env user body db).2 := by
  unfold updateCurrentUser saveProfile
  repeat' split
  all_goals simp [SameCatalog]

theorem step_consistent (env : Env) (db db2 : DB) (h : Step env db db2)
    (hc : Consistent db) : Consistent db2 := by
  cases h with
  | signup body => exact consistent_of_sameCatalog _ _ (signup_sameCatalog env body db) hc
  | changePassword user old new =>
    exact consistent_of_sameCatalog _ _ (changePassword_sameCatalog env user old new db) hc
  | createUser body =>
    exact consistent_of_sameCatalog _ _ (createUser_sameCatalog env body db) hc
  | updateUserByAdmin idParam body =>
    exact consistent_of_sameCatalog _ _ (updateUserByAdmin_sameCatalog env idParam body db) hc
  | deleteUserByAdmin admin idParam =>
    exact consistent_of_sameCatalog _ _ (deleteUserByAdmin_sameCatalog env admin idParam db) hc
  | createStore body => exact createStore_consistent env body db hc
  | updateStoreByAdmin idParam body => exact updateStoreByAdmin_consistent env idParam body db hc
  | deleteStoreByAdmin idParam => exact deleteStoreByAdmin_consistent env idParam db hc
  | updateCurrentUser user body =>
    exact consistent_of_sameCatalog _ _ (updateCurrentUser_sameCatalog env user body db) hc
  | createRating now user p body => exact createRating_consistent env now user p body db hc
  | updateRating user p body => exact updateRating_consistent env user p body db hc

theorem empty_consistent : Consistent DB.empty := by
  refine ⟨?_, ?_, ?_, ?_, ?_, ?_⟩ <;> simp [DB.empty]

theorem reachable_consistent (env : Env) (db : DB) (h : Reachable env db) :
    Consistent db := by
  induction h with
  | init => exact empty_consistent
  | step _ hs ih => exact step_consistent env _ _ hs ih

/-! ## Theorems: the key discipline of the reachable states -/

theorem storeKeys_of_sameCatalog (db db2 : DB) (h : SameCatalog db db2)
    (hk : StoreKeys db) : StoreKeys db2 := by
  obtain ⟨h1, h2, h3, _⟩ := h
  obtain ⟨k1, k2, k3⟩ := hk
  refine ⟨?_, ?_, ?_⟩
  · intro s hs
    rw [h1] at hs
    rw [h3]
    exact k1 s hs
  · rw [h1]; exact k2
  · intro r hr
    rw [h2] at hr
    rw [h1]
    exact k3 r hr

theorem userKeys_of_sameUsers (db db2 : DB) (h : SameUsers db db2)
    (hk : UserKeys db) : UserKeys db2 := by
  obtain ⟨h1, h2⟩ := h
  obtain ⟨k1, k2, k3⟩ := hk
  refine ⟨?_, ?_, ?_⟩
  · intro u hu
    rw [h1] at hu
    rw [h2]
    exact k1 u hu
  · rw [h1]; exact k2
  · rw [h1]; exact k3

/-- Rewriting stores without touching their keys keeps the key discipline. -/
theorem storeKeys_map (db : DB) (f : Store → Store) (hf : ∀ s, (f s).id = s.id)
    (hk : StoreKeys db) : StoreKeys { db with stores := db.stores.map f } := by
  obtain ⟨k1, k2, k3⟩ := hk
  refine ⟨?_, ?_, ?_⟩
  · intro s hs
    simp only [List.mem_map] at hs
    obtain ⟨s0, hs0, rfl⟩ := hs
    rw [hf]
    exact k1 s0 hs0
  · simp only [List.pairwise_map]
    exact k2.imp fun {a b} hab => by rw [hf, hf]; exact hab
  · intro r hr
    obtain ⟨s, hs, e⟩ := k3 r hr
    exact ⟨f s, List.mem_map_of_mem f hs, by rw [hf]; exact e⟩

theorem recomputed_eq_map (sid : Int) (db : DB) :
    ∃ f : Store → Store, (∀ s, (f s).id = s.id) ∧
      recomputed sid db = { db with stores := db.stores.map f } :=
  ⟨fun s => if s.id = sid then
      { s with average_rating := roundDecimal2 (meanRating (ratingsOf db sid)),
               ratings_count := ((ratingsOf db sid).length : Int) }
    else s,
   fun s => by by_cases e : s.id = sid <;> simp [e], rfl⟩

theorem createRating_storeKeys (env : Env) (now : Nat) (user : Identity)
    (p : String) (body : RatingBody) (db : DB) (hk : StoreKeys db) :
    StoreKeys (createRating env true now user p body db).2 := by
  rcases createRating_cases env true now user p body db with ⟨h, _⟩ |
    ⟨sid, value, _, hs, _, _, h⟩
  · rw [h]; exact hk
  · rw [h]
    simp only [if_true]
    obtain ⟨f, hf, e⟩ := recomputed_eq_map sid
      (afterInsert (createdRating now user sid value body db) db)
    rw [e]
    apply storeKeys_map _ f hf
    obtain ⟨k1, k2, k3⟩ := hk
    refine ⟨k1, k2, ?_⟩
    intro r hr
    simp only [afterInsert, List.mem_append, List.mem_singleton] at hr
    rcases hr with hr | rfl
    · exact k3 r hr
    · exact hs

theorem updateRating_storeKeys (env : Env) (user : Identity)
    (p : String) (body : RatingBody) (db : DB) (hk : StoreKeys db) :
    StoreKeys (updateRating env true user p body db).2 := by
  rcases updateRating_cases env true user p body db with ⟨h, _⟩ |
    ⟨sid, rating, value, _, hm, _, _, h⟩
  · rw [h]; exact hk
  · rw [h]
    simp only [if_true]
    obtain ⟨f, hf, e⟩ := recomputed_eq_map sid
      (afterSave rating.id value (assignedComment rating body) db)
    rw [e]
    apply storeKeys_map _ f hf
    obtain ⟨k1, k2, k3⟩ := hk
    refine ⟨k1, k2, ?_⟩
    intro r hr
    simp only [afterSave, List.mem_map] at hr
    obtain ⟨r0, hr0, rfl⟩ := hr
    obtain ⟨s, hs, e2⟩ := k3 r0 hr0
    refine ⟨s, hs, ?_⟩
    by_cases e3 : r0.id = rating.id <;> simp [e3, e2]

theorem createStore_storeKeys (env : Env) (body : StoreBody) (db : DB)
    (hk : StoreKeys db) : StoreKeys (createStore env body db).2 := by
  rcases createStore_cases env body db with ⟨h, _⟩ | ⟨owner, name, email, address, _, _, _, h⟩
  · rw [h]; exact hk
  · rw [h]
    obtain ⟨k1, k2, k3⟩ := hk
    refine ⟨?_, ?_, ?_⟩
    · intro s hs
      simp only [List.mem_append, List.mem_singleton] at hs
      rcases hs with hs | rfl
      · have := k1 s hs
        show s.id < db.nextStoreId + 1
        omega
      · show db.nextStoreId < db.nextStoreId + 1
        omega
    · simp only [List.pairwise_append]
      refine ⟨k2, by simp, ?_⟩
      intro a ha b hb
      simp only [List.mem_singleton] at hb
      subst hb
      have := k1 a ha
      show a.id ≠ db.nextStoreId
      omega
    · intro r hr
      obtain ⟨s, hs, e⟩ := k3 r hr
      exact ⟨s, by simp [hs], e⟩

theorem updateStoreByAdmin_storeKeys (env : Env) (idParam : String)
    (body : StoreBody) (db : DB) (hk : StoreKeys db) :
    StoreKeys (updateStoreByAdmin env idParam body db).2 := by
  obtain ⟨f, hf, h⟩ := updateStoreByAdmin_stores env idParam body db
  rw [h]
  exact storeKeys_map db f (fun s => (hf s).1) hk

theorem deleteStoreByAdmin_storeKeys (env : Env) (idParam : String) (db : DB)
    (hk : StoreKeys db) : StoreKeys (deleteStoreByAdmin env idParam db).2 := by
  rcases deleteStoreByAdmin_cases env idParam db with ⟨h, _⟩ | ⟨store, _, _, hnil, h⟩
  · rw [h]; exact hk
  · rw [h]
    obtain ⟨k1, k2, k3⟩ := hk
    refine ⟨?_, ?_, ?_⟩
    · intro s hs
      exact k1 s (List.mem_filter.mp hs).1
    · exact k2.sublist (List.filter_sublist _)
    · intro r hr
      obtain ⟨s, hs, e⟩ := k3 r hr
      refine ⟨s, List.mem_filter.mpr ⟨hs, ?_⟩, e⟩
      have hne : r.store_id ≠ store.id := by
        intro e2
        have : r ∈ ratingsOf db store.id := by
          simp [ratingsOf, hr, e2]
        rw [hnil] at this
        simp at this
      simp only [decide_eq_true_eq]
      rw [e]
      exact hne


theorem createRating_sameUsers (env : Env) (w : Bool) (now : Nat) (user : Identity)
    (p : String) (body : RatingBody) (db : DB) :
    SameUsers db (createRating env w now user p body db).2 := by
  rcases createRating_cases env w now user p body db with ⟨h, _⟩ | ⟨sid, value, _, _, _, _, h⟩
  · rw [h]; exact ⟨rfl, rfl⟩
  · rw [h]; cases w <;> exact ⟨rfl, rfl⟩

theorem updateRating_sameUsers (env : Env) (w : Bool) (user : Identity)
    (p : String) (body : RatingBody) (db : DB) :
    SameUsers db (updateRating env w user p body db).2 := by
  rcases updateRating_cases env w user p body db with ⟨h, _⟩ | ⟨sid, r, value, _, _, _, _, h⟩
  · rw [h]; exact ⟨rfl, rfl⟩
  · rw [h]; cases w <;> exact ⟨rfl, rfl⟩

theorem createStore_sameUsers (env : Env) (body : StoreBody) (db : DB) :
    SameUsers db (createStore env body db).2 := by
  rcases createStore_cases env body db with ⟨h, _⟩ | ⟨_, _, _, _, _, _, _, h⟩
  · rw [h]; exact ⟨rfl, rfl⟩
  · rw [h]; exact ⟨rfl, rfl⟩

theorem updateStoreByAdmin_sameUsers (env : Env) (idParam : String)
    (body : StoreBody) (db : DB) :
    SameUsers db (updateStoreByAdmin env idParam body db).2 := by
  obtain ⟨f, _, h⟩ := updateStoreByAdmin_stores env idParam body db
  rw [h]; exact ⟨rfl, rfl⟩

theorem deleteStoreByAdmin_sameUsers (env : Env) (idParam : String) (db : DB) :
    SameUsers db (deleteStoreByAdmin env idParam db).2 := by
  rcases deleteStoreByAdmin_cases env idParam db with ⟨h, _⟩ | ⟨_, _, _, _, h⟩
  · rw [h]; exact ⟨rfl, rfl⟩
  · rw [h]; exact ⟨rfl, rfl⟩

theorem insertUser_userKeys (env : Env) (name email : String)
    (address : Option String) (hash role : String) (db : DB) (u : User)
    (db1 : DB) (h : insertUser env name email address hash role db = some (u, db1))
    (hk : UserKeys db) : UserKeys db1 := by
  obtain ⟨hu, hdb, hfresh, _⟩ := insertUser_some _ _ _ _ _ _ _ _ _ h
  obtain ⟨k1, k2, k3⟩ := hk
  subst hdb
  refine ⟨?_, ?_, ?_⟩
  · intro v hv
    simp only [List.mem_append, List.mem_singleton] at hv
    rcases hv with hv | rfl
    · have := k1 v hv
      show v.id < db.nextUserId + 1
      omega
    · rw [hu]
      show db.nextUserId < db.nextUserId + 1
      omega
  · simp only [List.pairwise_append]
    refine ⟨k2, by simp, ?_⟩
    intro a ha b hb
    simp only [List.mem_singleton] at hb
    subst hb
    have := k1 a ha
    rw [hu]
    show a.id ≠ db.nextUserId
    omega
  · simp only [List.pairwise_append]
    refine ⟨k3, by simp, ?_⟩
    intro a ha b hb
    simp only [List.mem_singleton] at hb
    subst hb
    rw [hu]
    exact hfresh a ha

theorem signup_userKeys (env : Env) (body : SignupBody) (db : DB)
    (hk : UserKeys db) : UserKeys (signup env body db).2 := by
  unfold signup
  split
  · exact hk
  split
  · exact hk
  split
  · exact hk
  split
  · exact hk
  · rename_i u db1 h
    exact insertUser_userKeys _ _ _ _ _ _ _ _ _ h hk

theorem createUser_userKeys (env : Env) (body : SignupBody) (db : DB)
    (hk : UserKeys db) : UserKeys (createUser env body db).2 := by
  unfold createUser
  split
  · exact hk
  split
  · split
    · exact hk
    split
    · exact hk
    split
    · exact hk
    split
    · exact hk
    · rename_i u db1 h
      exact insertUser_userKeys _ _ _ _ _ _ _ _ _ h hk
  · exact hk

/-- Rewriting the rows with the key of `target` keeps the key discipline
when the rewriting keeps the key and sets an e-mail address that is the
one of `target` or that no other user holds. -/
theorem userKeys_update (db : DB) (target : User) (g : User → User) (e : String)
    (ht : target ∈ db.users) (hid : ∀ u, (g u).id = u.id)
    (he : (g target).email = e)
    (hfree : e = target.email ∨ ∀ v ∈ db.users, v.id ≠ target.id → v.email ≠ e)
    (hk : UserKeys db) :
    UserKeys { db with users := db.users.map fun u =>
      if u.id = target.id then g u else u } := by
  obtain ⟨k1, k2, k3⟩ := hk
  have huniq : ∀ a ∈ db.users, a.id = target.id → a = target := by
    intro a ha e1
    by_contra hne
    exact (k2.forall (fun x y hxy => fun e2 => hxy e2.symm) ha ht hne) e1
  refine ⟨?_, ?_, ?_⟩
  · intro u hu
    simp only [List.mem_map] at hu
    obtain ⟨u0, hu0, rfl⟩ := hu
    by_cases e1 : u0.id = target.id
    · simpa [e1, hid] using (e1 ▸ k1 u0 hu0)
    · simpa [e1] using k1 u0 hu0
  · simp only [List.pairwise_map]
    refine k2.imp ?_
    intro a b hab
    by_cases e1 : a.id = target.id <;> by_cases e2 : b.id = target.id <;>
      simp [e1, e2, hid] <;> simp_all
  · simp only [List.pairwise_map]
    have hboth : db.users.Pairwise fun a b => a.id ≠ b.id ∧ a.email ≠ b.email :=
      k2.and k3
    refine hboth.imp_of_mem ?_
    intro a b ha hb hab
    by_cases e1 : a.id = target.id
    · have e2 : ¬ b.id = target.id := fun e2 => hab.1 (e1.trans e2.symm)
      have hat := huniq a ha e1
      subst hat
      simp only [e2, if_true, if_false, he]
      rcases hfree with h | h
      · rw [h]
        exact hab.2
      · exact fun e3 => h b hb e2 e3.symm
    · by_cases e2 : b.id = target.id
      · have hbt := huniq b hb e2
        subst hbt
        simp only [e1, if_true, if_false, he]
        rcases hfree with h | h
        · rw [h]
          exact hab.2
        · exact h a ha e1
      · simp only [e1, e2, if_false]
        exact hab.2

theorem assignText_email (env : Env) (db : DB) (row : User) (f : TextField)
    (e : String)
    (h : assignText (validNewEmail env db row.id) row.email f = some e) :
    e = row.email ∨ ∀ v ∈ db.users, v.id ≠ row.id → v.email ≠ e := by
  unfold assignText at h
  split at h
  · left; simpa using h.symm
  · simp at h
  · rename_i s
    split at h
    · left; simpa using h.symm
    · split at h
      · rename_i hv
        simp only [Option.some.injEq] at h
        subst h
        right
        simp only [validNewEmail, Bool.and_eq_true, Bool.not_eq_true', List.any_eq_false,
          decide_eq_true_eq] at hv
        intro v hv2 hne
        have := hv.2 v hv2
        simpa [hne] using this
      · simp at h

theorem findByPk_mem {α : Type} (env : Env) (key : α → Int) (rows : List α)
    (v : JsVal) (r : α) (h : findByPk env key rows v = .ok (some r)) : r ∈ rows :=
  (findByPk_some env key rows v r h).2

theorem updateUserByAdmin_userKeys (env : Env) (idParam : String)
    (body : UpdateUserBody) (db : DB) (hk : UserKeys db) :
    UserKeys (updateUserByAdmin env idParam body db).2 := by
  unfold updateUserByAdmin
  split
  · exact hk
  split
  · exact hk
  · exact hk
  rename_i user hf
  have hm := findByPk_mem env User.id db.users _ user hf
  split
  · exact hk
  split
  · exact hk
  split
  · exact hk
  rename_i hash hh
  split
  · rename_i name email address role hash2 h1 h2 h3 h4 h5
    exact userKeys_update db user
      (fun u => { u with name := name, email := email, address := address,
                         role := role, password_hash := hash2 })
      email hm (fun _ => rfl) rfl (assignText_email env db user _ _ h2) hk
  · exact hk

theorem updateCurrentUser_userKeys (env : Env) (user : Identity)
    (body : ProfileBody) (db : DB) (hk : UserKeys db) :
    UserKeys (updateCurrentUser env user body db).2 := by
  have hsave : ∀ row, row ∈ db.users → UserKeys (saveProfile env row body db).2 := by
    intro row hm
    unfold saveProfile
    split
    · rename_i name email address h1 h2 h3
      exact userKeys_update db row
        (fun u => { u with name := name, email := email, address := address })
        email hm (fun _ => rfl) rfl (assignText_email env db row _ _ h2) hk
    · exact hk
  unfold updateCurrentUser
  split
  · exact hk
  split
  · exact hk
  rename_i row hr
  have hm := List.mem_of_find?_eq_some hr
  split
  · exact hsave row hm
  · exact hk
  · split
    · exact hsave row hm
    · split
      · exact hk
      · exact hk

theorem changePassword_userKeys (env : Env) (user : Identity)
    (old new : TextField) (db : DB) (hk : UserKeys db) :
    UserKeys (changePassword env user old new db).2 := by
  unfold changePassword
  split
  · exact hk
  split
  · exact hk
  split
  · exact hk
  rename_i row hr
  have hm := List.mem_of_find?_eq_some hr
  split
  · exact hk
  split
  · exact hk
  · exact userKeys_update db row
      (fun u => { u with password_hash := env.hash new.get }) row.email hm
      (fun _ => rfl) rfl (Or.inl rfl) hk

theorem deleteUserByAdmin_userKeys (env : Env) (admin : Identity)
    (idParam : String) (db : DB) (hk : UserKeys db) :
    UserKeys (deleteUserByAdmin env admin idParam db).2 := by
  have hfil : ∀ k : Int, UserKeys { db with users := db.users.filter fun u => u.id ≠ k } := by
    intro k
    obtain ⟨k1, k2, k3⟩ := hk
    exact ⟨fun u hu => k1 u (List.mem_filter.mp hu).1,
      k2.sublist (List.filter_sublist _), k3.sublist (List.filter_sublist _)⟩
  unfold deleteUserByAdmin
  split
  · exact hk
  split
  · exact hk
  split
  · exact hk
  · exact hk
  · exact hfil _

theorem step_keys (env : Env) (db db2 : DB) (h : Step env db db2)
    (hk : UserKeys db ∧ StoreKeys db) : UserKeys db2 ∧ StoreKeys db2 := by
  obtain ⟨hu, hs⟩ := hk
  cases h with
  | signup body =>
    exact ⟨signup_userKeys env body db hu,
      storeKeys_of_sameCatalog _ _ (signup_sameCatalog env body db) hs⟩
  | changePassword user old new =>
    exact ⟨changePassword_userKeys env user old new db hu,
      storeKeys_of_sameCatalog _ _ (changePassword_sameCatalog env user old new db) hs⟩
  | createUser body =>
    exact ⟨createUser_userKeys env body db hu,
      storeKeys_of_sameCatalog _ _ (createUser_sameCatalog env body db) hs⟩
  | updateUserByAdmin idParam body =>
    exact ⟨updateUserByAdmin_userKeys env idParam body db hu,
      storeKeys_of_sameCatalog _ _ (updateUserByAdmin_sameCatalog env idParam body db) hs⟩
  | deleteUserByAdmin admin idParam =>
    exact ⟨deleteUserByAdmin_userKeys env admin idParam db hu,
      storeKeys_of_sameCatalog _ _ (deleteUserByAdmin_sameCatalog env admin idParam db) hs⟩
  | createStore body =>
    exact ⟨userKeys_of_sameUsers _ _ (createStore_sameUsers env body db) hu,
      createStore_storeKeys env body db hs⟩
  | updateStoreByAdmin idParam body =>
    exact ⟨userKeys_of_sameUsers _ _ (updateStoreByAdmin_sameUsers env idParam body db) hu,
      updateStoreByAdmin_storeKeys env idParam body db hs⟩
  | deleteStoreByAdmin idParam =>
    exact ⟨userKeys_of_sameUsers _ _ (deleteStoreByAdmin_sameUsers env idParam db) hu,
      deleteStoreByAdmin_storeKeys env idParam db hs⟩
  | updateCurrentUser user body =>
    exact ⟨updateCurrentUser_userKeys env user body db hu,
      storeKeys_of_sameCatalog _ _ (updateCurrentUser_sameCatalog env user body db) hs⟩
  | createRating now user p body =>
    exact ⟨userKeys_of_sameUsers _ _ (createRating_sameUsers env true now user p body db) hu,
      createRating_storeKeys env now user p body db hs⟩
  | updateRating user p body =>
    exact ⟨userKeys_of_sameUsers _ _ (updateRating_sameUsers env true user p body db) hu,
      updateRating_storeKeys env user p body db hs⟩

/-- In every reachable state user keys and e-mail addresses are unique,
store keys are unique, and every Rating row references a store that
exists. -/
theorem reachable_keys (env : Env) (db : DB) (h : Reachable env db) :
    UserKeys db ∧ StoreKeys db := by
  induction h with
  | init =>
    exact ⟨⟨by simp [DB.empty], by simp [DB.empty], by simp [DB.empty]⟩,
      ⟨by simp [DB.empty], by simp [DB.empty], by simp [DB.empty]⟩⟩
  | step _ hs ih => exact step_keys env _ _ hs ih

/-! ## Theorems: ratings and stores -/

/-- The example after step 1. -/
theorem stateOwner_eq : stateOwner = ⟨[ownerRow], [], [], 2, 1, 1⟩ := by
  decide

/-- The example after step 2. -/
theorem stateStore_eq :
    stateStore = ⟨[ownerRow], [storeX 0 0], [], 2, 2, 1⟩ := by
  rw [stateStore, stateOwner_eq]
  simp [createStore, JsVal.truthy, TextField.truthy, findByPk, refEnv, ownerRow,
    validStoreText, validStoreEmail, orNull, pure, Except.pure, storeX]
  decide

theorem refEnv_parseInt_1 : refEnv.parseInt "1" = some 1 := by decide

theorem roundDecimal2_one : roundDecimal2 1 = 1 := by
  norm_num [roundDecimal2]

theorem roundDecimal2_four_thirds : roundDecimal2 (4 / 3) = 133 / 100 := by
  have h : (0 : ℚ) ≤ 4 / 3 := by norm_num
  have : ⌊(4 / 3 : ℚ) * 100 + 1 / 2⌋ = 133 := by
    rw [Int.floor_eq_iff]; norm_num
  simp only [roundDecimal2, h, if_true, this]
  norm_num

/-- The example after step 3: one rating, average 1.00. -/
theorem stateFirst_eq2 :
    stateFirst = ⟨[ownerRow], [storeX 1 1], [⟨1, 1, 3, 1, none, 1⟩], 2, 2, 2⟩ := by
  rw [stateFirst, stateStore_eq]
  simp [createRating, JsVal.truthy, JsVal.ltNum, JsVal.gtNum, JsVal.toNumber,
    refEnv_parseInt_1, writeRatingValue, validRatingValue, parseFloatOf,
    recalculate_ok, createdRating, bob, storeX]
  simp [refEnv, recomputed, afterInsert, ratingsOf, meanRating, roundDecimal2_one]

/-- The example after step 4: two ratings, average 1.00. -/
theorem stateSecond_eq :
    stateSecond =
      ⟨[ownerRow], [storeX 1 2],
       [⟨1, 1, 3, 1, none, 1⟩, ⟨2, 1, 4, 1, none, 2⟩], 2, 2, 3⟩ := by
  rw [stateSecond, stateFirst_eq2]
  simp [createRating, JsVal.truthy, JsVal.ltNum, JsVal.gtNum, JsVal.toNumber,
    refEnv_parseInt_1, writeRatingValue, validRatingValue, parseFloatOf,
    recalculate_ok, createdRating, bob, storeX]
  simp [refEnv, recomputed, afterInsert, ratingsOf, meanRating, roundDecimal2_one]

/-- The example after step 5: three ratings 1, 1, 2, average 1.33. -/
theorem stateThird_eq :
    stateThird =
      ⟨[ownerRow], [storeX (133 / 100) 3],
       [⟨1, 1, 3, 1, none, 1⟩, ⟨2, 1, 4, 1, none, 2⟩, ⟨3, 1, 5, 2, none, 3⟩],
       2, 2, 4⟩ := by
  rw [stateThird, stateSecond_eq]
  simp [createRating, JsVal.truthy, JsVal.ltNum, JsVal.gtNum, JsVal.toNumber,
    refEnv_parseInt_1, writeRatingValue, validRatingValue, parseFloatOf,
    recalculate_ok, createdRating, bob, storeX]
  norm_num [refEnv, recomputed, afterInsert, ratingsOf, meanRating,
    roundDecimal2_four_thirds]

theorem stateThird_reachable : Reachable refEnv stateThird :=
  .step (.step (.step (.step (.step .init (.createUser ownerBody _))
    (.createStore ⟨.text "Store X", .absent, .text "2 Main Street", .num 1⟩ _))
    (.createRating 1 (bob 3) "1" ⟨.num 1, .absent⟩ _))
    (.createRating 2 (bob 4) "1" ⟨.num 1, .absent⟩ _))
    (.createRating 3 (bob 5) "1" ⟨.num 2, .absent⟩ _)

/-- C1, as stated, fails: after three ratings 1, 1 and 2 the store keeps
1.33 while the mean is 4/3. -/
theorem aggregate_exact_counterexample :
    ¬ (∀ db, Reachable refEnv db → ∀ s ∈ db.stores,
        s.average_rating = meanRating (ratingsOf db s.id) ∧
        s.ratings_count = ((ratingsOf db s.id).length : Int)) := by
  intro h
  have := (h stateThird stateThird_reachable (storeX (133/100) 3) (by rw [stateThird_eq]; simp)).1
  rw [stateThird_eq] at this
  norm_num [storeX, ratingsOf, meanRating] at this

/-- C1, amended: in every state the controllers reach from the empty
database, with a database that carries out every statement, every store
has `average_rating` equal to the arithmetic mean of its Rating rows
rounded to the two decimals of the DECIMAL(3,2) column (0 without rows),
and `ratings_count` equal to the number of those rows; so it is right after
every `createRating` and `updateRating`. -/
theorem aggregate_invariant (env : Env) (db : DB) (h : Reachable env db) :
    (∀ s ∈ db.stores,
      s.average_rating = roundDecimal2 (meanRating (ratingsOf db s.id)) ∧
      s.ratings_count = ((ratingsOf db s.id).length : Int)) ∧
    (∀ now user p body, ∀ s ∈ (createRating env true now user p body db).2.stores,
      s.average_rating = roundDecimal2 (meanRating
        (ratingsOf (createRating env true now user p body db).2 s.id)) ∧
      s.ratings_count =
        ((ratingsOf (createRating env true now user p body db).2 s.id).length : Int)) ∧
    (∀ user p body, ∀ s ∈ (updateRating env true user p body db).2.stores,
      s.average_rating = roundDecimal2 (meanRating
        (ratingsOf (updateRating env true user p body db).2 s.id)) ∧
      s.ratings_count =
        ((ratingsOf (updateRating env true user p body db).2 s.id).length : Int)) := by
  have hc : Consistent db := by
    induction h with
    | init => exact empty_consistent
    | step _ hs ih => exact step_consistent env _ _ hs ih
  refine ⟨hc.aggregates, ?_, ?_⟩
  · intro now user p body
    exact (createRating_consistent env now user p body db hc).aggregates
  · intro user p body
    exact (updateRating_consistent env user p body db hc).aggregates

/-- Witness of C1: the invariant for Store X in the state after the three
ratings. -/
theorem aggregate_invariant_witness :
    (storeX (133 / 100) 3).average_rating =
        roundDecimal2 (meanRating (ratingsOf stateThird (storeX (133 / 100) 3).id)) ∧
    (storeX (133 / 100) 3).ratings_count =
        ((ratingsOf stateThird (storeX (133 / 100) 3).id).length : Int) :=
  (aggregate_invariant refEnv stateThird stateThird_reachable).1
    (storeX (133 / 100) 3) (by rw [stateThird_eq]; simp)

/-- C2: when a Rating row of the caller for the store exists, `createRating`
answers 400 or 404 and leaves the database as it was, whatever the body and
whether the recompute would succeed; in a reachable state the answer is
400, and at most one Rating row has a given user and store. -/
theorem createRating_duplicate (env : Env) (writeOk : Bool) (now : Nat)
    (user : Identity) (p : String) (body : RatingBody) (db : DB) (sid : Int)
    (hp : env.parseInt p = some sid)
    (hex : ∃ r ∈ db.ratings, r.store_id = sid ∧ r.user_id = user.id) :
    ((createRating env writeOk now user p body db).1.status = 400 ∨
      (createRating env writeOk now user p body db).1.status = 404) ∧
    (createRating env writeOk now user p body db).2 = db ∧
    (Reachable env db →
      (createRating env writeOk now user p body db).1.status = 400 ∧
      ∀ u s, (db.ratings.filter fun r => r.user_id = u ∧ r.store_id = s).length ≤ 1) := by
  have hstatus : (createRating env writeOk now user p body db).1.status = 400 ∨
      ((createRating env writeOk now user p body db).1.status = 404 ∧
        ¬ ∃ s ∈ db.stores, s.id = sid) := by
    unfold createRating
    split
    · simp [Response.msg]
    split
    · simp [Response.msg]
    simp only [hp]
    split
    · rename_i hnone
      right
      refine ⟨by simp [Response.msg], ?_⟩
      rintro ⟨s, hs, e⟩
      have := List.find?_eq_none.mp hnone s hs
      simp [e] at this
    split
    · simp [Response.msg]
    · rename_i hnone
      obtain ⟨r, hr, h1, h2⟩ := hex
      have := List.find?_eq_none.mp hnone r hr
      simp [h1, h2] at this
  refine ⟨?_, ?_, ?_⟩
  · rcases hstatus with h | ⟨h, _⟩
    · exact Or.inl h
    · exact Or.inr h
  · rcases createRating_cases env writeOk now user p body db with ⟨h, _⟩ |
      ⟨sid2, value, hp2, _, hn, _, _⟩
    · exact h
    · rw [hp] at hp2
      cases hp2
      obtain ⟨r, hr, h1, h2⟩ := hex
      exact absurd ⟨h1, h2⟩ (hn r hr)
  · intro hreach
    constructor
    · rcases hstatus with h | ⟨_, hno⟩
      · exact h
      · exfalso
        obtain ⟨r, hr, h1, _⟩ := hex
        obtain ⟨s, hs, e⟩ := (reachable_keys env db hreach).2.rated r hr
        exact hno ⟨s, hs, e.trans h1⟩
    intro u s
    have hpw := (reachable_consistent env db hreach).onePerPair
    generalize db.ratings = l at hpw
    induction l with
    | nil => simp
    | cons a l ih =>
      rw [List.pairwise_cons] at hpw
      have ih2 := ih hpw.2
      by_cases ha : a.user_id = u ∧ a.store_id = s
      · have hnil : l.filter (fun r => decide (r.user_id = u ∧ r.store_id = s)) = [] := by
          rw [List.filter_eq_nil_iff]
          intro b hb hb2
          simp only [decide_eq_true_eq] at hb2
          exact hpw.1 b hb ⟨ha.1.trans hb2.1.symm, ha.2.trans hb2.2.symm⟩
        rw [List.filter_cons_of_pos (by simpa using ha), hnil]
        simp
      · simpa [List.filter_cons, ha] using ih2

/-- Witness of C2: the user who rated store 1 asks to rate it again. -/
theorem createRating_duplicate_witness :
    ((createRating refEnv true 9 (bob 3) "1" ⟨.num 5, .absent⟩ stateFirst).1.status = 400 ∨
      (createRating refEnv true 9 (bob 3) "1" ⟨.num 5, .absent⟩ stateFirst).1.status = 404) ∧
    (createRating refEnv true 9 (bob 3) "1" ⟨.num 5, .absent⟩ stateFirst).2 = stateFirst ∧
    (Reachable refEnv stateFirst →
      (createRating refEnv true 9 (bob 3) "1" ⟨.num 5, .absent⟩ stateFirst).1.status = 400 ∧
      ∀ u s,
        (stateFirst.ratings.filter fun r => r.user_id = u ∧ r.store_id = s).length ≤ 1) :=
  createRating_duplicate refEnv true 9 (bob 3) "1" ⟨.num 5, .absent⟩ stateFirst 1 (by decide)
    ⟨⟨1, 1, 3, 1, none, 1⟩, by rw [stateFirst_eq2]; simp, rfl, rfl⟩

theorem find?_store_some (db : DB) (sid : Int) (hs : ∃ s ∈ db.stores, s.id = sid) :
    ∃ st, db.stores.find? (fun s => s.id = sid) = some st := by
  cases h : db.stores.find? (fun s => s.id = sid) with
  | some st => exact ⟨st, rfl⟩
  | none =>
    obtain ⟨s, hs1, hs2⟩ := hs
    have := List.find?_eq_none.mp h s hs1
    simp [hs2] at this

theorem find?_rating_none (db : DB) (sid uid : Int)
    (hn : ∀ r ∈ db.ratings, ¬ (r.store_id = sid ∧ r.user_id = uid)) :
    db.ratings.find? (fun r => decide (r.store_id = sid) && decide (r.user_id = uid)) =
      none := by
  rw [List.find?_eq_none]
  intro r hr
  simpa using hn r hr

/-- The part of C3 that holds: an integer from 1 to 5 that the INTEGER
column takes as itself, on an existing store the caller has not rated,
creates exactly one row with that value and is answered 201. -/
theorem createRating_integer (env : Env) (now : Nat) (user : Identity)
    (p : String) (comment : TextField) (db : DB) (sid n : Int)
    (h1 : 1 ≤ n) (h5 : n ≤ 5) (hcol : env.intColumn (.num n) = some n)
    (hp : env.parseInt p = some sid) (hs : ∃ s ∈ db.stores, s.id = sid)
    (hn : ∀ r ∈ db.ratings, ¬ (r.store_id = sid ∧ r.user_id = user.id)) :
    (createRating env true now user p ⟨.num n, comment⟩ db).1.status = 201 ∧
    (createRating env true now user p ⟨.num n, comment⟩ db).2.ratings =
      db.ratings ++ [createdRating now user sid n ⟨.num n, comment⟩ db] ∧
    (createdRating now user sid n ⟨.num n, comment⟩ db).rating_value = n := by
  obtain ⟨st, hst⟩ := find?_store_some db sid hs
  have hr := find?_rating_none db sid user.id hn
  have hq1 : ¬ ((n : ℚ) < 1) := by
    have : (1 : ℚ) ≤ n := by exact_mod_cast h1
    linarith
  have hq5 : ¬ ((5 : ℚ) < n) := by
    have : (n : ℚ) ≤ 5 := by exact_mod_cast h5
    linarith
  have hq0 : (n : ℚ) ≠ 0 := by
    have : (1 : ℚ) ≤ n := by exact_mod_cast h1
    linarith
  have hv : writeRatingValue env (.num n) = some n := by
    have a1 : (1 : ℚ) ≤ n := by exact_mod_cast h1
    have a5 : (n : ℚ) ≤ 5 := by exact_mod_cast h5
    simp [writeRatingValue, validRatingValue, parseFloatOf, a1, a5, hcol]
  simp [createRating, JsVal.truthy, JsVal.ltNum, JsVal.gtNum, JsVal.toNumber,
    hq1, hq5, hq0, hp, hst, hr, hv, recalculate_ok, recomputed, afterInsert, createdRating]

/-- The other part of C3 that holds: a value that is falsy (missing, `null`,
0, the empty string, `false`) or that compares below 1 or above 5 is
answered 400 and nothing is written. -/
theorem createRating_rejected (env : Env) (writeOk : Bool) (now : Nat)
    (user : Identity) (p : String) (body : RatingBody) (db : DB)
    (h : body.rating_value.truthy = false ∨ body.rating_value.ltNum env 1 = true ∨
      body.rating_value.gtNum env 5 = true) :
    (createRating env writeOk now user p body db).1.status = 400 ∧
    (createRating env writeOk now user p body db).2 = db := by
  unfold createRating
  split
  · simp [Response.msg]
  split
  · simp [Response.msg]
  · rename_i h1 h2
    rcases h with h | h | h
    · simp [h] at h1
    · simp [h] at h2
    · simp [h] at h2

/-- C3 at the failing input: on an existing store the caller has not rated,
the value 2.5 passes both checks of `createRating`, which then answers 201
or 500 and never 400; it answers 500 and writes nothing when the INTEGER
column rejects the fraction. -/
theorem createRating_fraction (env : Env) (writeOk : Bool) (now : Nat)
    (user : Identity) (p : String) (comment : TextField) (db : DB) (sid : Int)
    (hp : env.parseInt p = some sid) (hs : ∃ s ∈ db.stores, s.id = sid)
    (hn : ∀ r ∈ db.ratings, ¬ (r.store_id = sid ∧ r.user_id = user.id)) :
    (createRating env writeOk now user p ⟨.num (5 / 2), comment⟩ db).1.status ≠ 400 ∧
    ((createRating env writeOk now user p ⟨.num (5 / 2), comment⟩ db).1.status = 201 ∨
      (createRating env writeOk now user p ⟨.num (5 / 2), comment⟩ db).1.status = 500) ∧
    (env.intColumn (.num (5 / 2)) = none →
      createRating env writeOk now user p ⟨.num (5 / 2), comment⟩ db =
        (.internal, db)) := by
  obtain ⟨st, hst⟩ := find?_store_some db sid hs
  have hr := find?_rating_none db sid user.id hn
  have hvalid : validRatingValue env (.num (5 / 2)) = true := by
    norm_num [validRatingValue, parseFloatOf]
  have hq1 : ¬ ((5 / 2 : ℚ) < 1) := by norm_num
  have hq5 : ¬ ((5 : ℚ) < 5 / 2) := by norm_num
  have hq0 : (5 / 2 : ℚ) ≠ 0 := by norm_num
  cases hc : env.intColumn (.num (5 / 2)) with
  | none =>
    simp [createRating, JsVal.truthy, JsVal.ltNum, JsVal.gtNum, JsVal.toNumber,
      hq1, hq5, hq0, hp, hst, hr, writeRatingValue, hvalid, hc, Response.internal,
      Response.msg]
  | some value =>
    cases writeOk
    · simp [createRating, JsVal.truthy, JsVal.ltNum, JsVal.gtNum, JsVal.toNumber,
        hq1, hq5, hq0, hp, hst, hr, writeRatingValue, hvalid, hc, Response.internal,
        Response.msg, recalculate_fail]
    · simp [createRating, JsVal.truthy, JsVal.ltNum, JsVal.gtNum, JsVal.toNumber,
        hq1, hq5, hq0, hp, hst, hr, writeRatingValue, hvalid, hc, Response.internal,
        Response.msg, recalculate_ok]

/-- Witness of C3: in the reference environment the request with 2.5 is
answered 500. -/
theorem createRating_fraction_witness :
    (createRating refEnv true 9 (bob 7) "1" ⟨.num (5 / 2), .absent⟩ stateStore).1.status ≠ 400 ∧
    ((createRating refEnv true 9 (bob 7) "1" ⟨.num (5 / 2), .absent⟩ stateStore).1.status = 201 ∨
      (createRating refEnv true 9 (bob 7) "1" ⟨.num (5 / 2), .absent⟩ stateStore).1.status = 500) ∧
    (refEnv.intColumn (.num (5 / 2)) = none →
      createRating refEnv true 9 (bob 7) "1" ⟨.num (5 / 2), .absent⟩ stateStore =
        (.internal, stateStore)) :=
  createRating_fraction refEnv true 9 (bob 7) "1" .absent stateStore 1 (by decide)
    ⟨storeX 0 0, by rw [stateStore_eq]; simp, rfl⟩
    (by rw [stateStore_eq]; simp)

/-- The part of C4 that holds: a truthy value that compares below 1 or
above 5 is answered 400, and a request that passes this check from a
caller without a Rating row for the store is answered 404; nothing is
written in either case. -/
theorem updateRating_rejected (env : Env) (writeOk : Bool) (user : Identity)
    (p : String) (body : RatingBody) (db : DB) (sid : Int)
    (hp : env.parseInt p = some sid) :
    (body.rating_value.truthy = true ∧
        (body.rating_value.ltNum env 1 = true ∨ body.rating_value.gtNum env 5 = true) →
      (updateRating env writeOk user p body db).1.status = 400 ∧
      (updateRating env writeOk user p body db).2 = db) ∧
    (¬ (body.rating_value.truthy = true ∧
        (body.rating_value.ltNum env 1 = true ∨ body.rating_value.gtNum env 5 = true)) →
      (∀ r ∈ db.ratings, ¬ (r.store_id = sid ∧ r.user_id = user.id)) →
      (updateRating env writeOk user p body db).1.status = 404 ∧
      (updateRating env writeOk user p body db).2 = db) := by
  constructor
  · rintro ⟨h1, h2⟩
    have : (body.rating_value.truthy &&
        (body.rating_value.ltNum env 1 || body.rating_value.gtNum env 5)) = true := by
      rcases h2 with h2 | h2 <;> simp [h1, h2]
    simp [updateRating, this, Response.msg]
  · intro hno hn
    have hg : ¬ (body.rating_value.truthy &&
        (body.rating_value.ltNum env 1 || body.rating_value.gtNum env 5)) = true := by
      intro h
      simp only [Bool.and_eq_true, Bool.or_eq_true] at h
      exact hno h
    have hf : db.ratings.find? (fun r => r.store_id = sid ∧ r.user_id = user.id) = none := by
      rw [List.find?_eq_none]
      intro r hr
      simpa using hn r hr
    simp only [updateRating, hg, if_false, hp, hf]
    simp [Response.msg]

/-- C4 at the failing input: the value 0 skips the range check of
`updateRating`; when the caller has a Rating row with another value, the
validation `min: 1` of the model rejects the save, the `catch` block
answers 500, not 400, and the database is as it was. -/
theorem updateRating_zero (env : Env) (writeOk : Bool) (user : Identity)
    (p : String) (comment : TextField) (db : DB) (sid : Int) (rating : Rating)
    (hp : env.parseInt p = some sid)
    (hf : db.ratings.find? (fun r => r.store_id = sid ∧ r.user_id = user.id) =
      some rating)
    (hz : rating.rating_value ≠ 0) :
    updateRating env writeOk user p ⟨.num 0, comment⟩ db = (.internal, db) ∧
    (updateRating env writeOk user p ⟨.num 0, comment⟩ db).1.status = 500 := by
  have hz2 : ¬ ((0 : ℚ) = (rating.rating_value : ℚ)) := by
    intro h
    exact hz (by exact_mod_cast h.symm)
  have hv : writeRatingValue env (.num 0) = none := by
    norm_num [writeRatingValue, validRatingValue, parseFloatOf]
  have e : (fun r : Rating => decide (r.store_id = sid ∧ r.user_id = user.id)) =
      fun r => (decide (r.store_id = sid) && decide (r.user_id = user.id)) := by
    funext r; simp
  rw [e] at hf
  simp [updateRating, JsVal.truthy, hp, hf, hz2, hv, Response.internal, Response.msg]

/-- Witness of C4: the user who gave store 1 the value 1 sends 0. -/
theorem updateRating_zero_witness :
    updateRating refEnv true (bob 3) "1" ⟨.num 0, .absent⟩ stateFirst = (.internal, stateFirst) ∧
    (updateRating refEnv true (bob 3) "1" ⟨.num 0, .absent⟩ stateFirst).1.status = 500 :=
  updateRating_zero refEnv true (bob 3) "1" .absent stateFirst 1 ⟨1, 1, 3, 1, none, 1⟩
    (by decide) (by rw [stateFirst_eq2]; simp [bob]) (by decide)

/-- C8: for a store S that exists, `deleteStoreByAdmin` answers 400 and
leaves the database as it was when S has Rating rows, and answers 200 and
removes S, and nothing else, when S has none; in a reachable state the
number of Rating rows of S is its `ratings_count`. -/
theorem deleteStoreByAdmin_spec (env : Env) (idParam : String) (db : DB)
    (S : Store) (hid : idParam ≠ "")
    (hcol : env.intColumn (.str idParam) = some S.id) (hS : S ∈ db.stores) :
    (0 < (ratingsOf db S.id).length →
      (deleteStoreByAdmin env idParam db).1.status = 400 ∧
      (deleteStoreByAdmin env idParam db).2 = db) ∧
    ((ratingsOf db S.id).length = 0 →
      (deleteStoreByAdmin env idParam db).1.status = 200 ∧
      (deleteStoreByAdmin env idParam db).2 =
        { db with stores := db.stores.filter fun s => s.id ≠ S.id } ∧
      S ∉ (deleteStoreByAdmin env idParam db).2.stores) ∧
    (Reachable env db → S.ratings_count = ((ratingsOf db S.id).length : Int)) := by
  obtain ⟨st, hst⟩ : ∃ st, db.stores.find? (fun s => s.id = S.id) = some st := by
    cases h : db.stores.find? (fun s => s.id = S.id) with
    | some st => exact ⟨st, rfl⟩
    | none =>
      have := List.find?_eq_none.mp h S hS
      simp at this
  have hsid : st.id = S.id := by simpa using List.find?_some hst
  have hfind : findByPk env Store.id db.stores (.str idParam) = .ok (some st) := by
    simp [findByPk, hcol, hst, pure, Except.pure]
  refine ⟨fun hpos => ?_, fun hzero => ?_, fun hr => ?_⟩
  · simp [deleteStoreByAdmin, hid, hfind, hcol, hpos, Response.msg]
  · have hnil : ratingsOf db S.id = [] := List.length_eq_zero.mp hzero
    have e : deleteStoreByAdmin env idParam db =
        (.msg 200 "Store deleted",
          { db with stores := db.stores.filter fun s => s.id ≠ S.id }) := by
      simp [deleteStoreByAdmin, hid, hfind, hcol, hnil, hsid]
    rw [e]
    refine ⟨rfl, rfl, ?_⟩
    simp
  · exact ((reachable_consistent env db hr).aggregates S hS).2

/-- Witness of C8: the store of the example, before and after its first
rating. -/
theorem deleteStoreByAdmin_spec_witness :
    ((0 < (ratingsOf stateFirst (storeX 1 1).id).length →
      (deleteStoreByAdmin refEnv "1" stateFirst).1.status = 400 ∧
      (deleteStoreByAdmin refEnv "1" stateFirst).2 = stateFirst) ∧
    ((ratingsOf stateFirst (storeX 1 1).id).length = 0 →
      (deleteStoreByAdmin refEnv "1" stateFirst).1.status = 200 ∧
      (deleteStoreByAdmin refEnv "1" stateFirst).2 =
        { stateFirst with stores := stateFirst.stores.filter fun s => s.id ≠ (storeX 1 1).id } ∧
      storeX 1 1 ∉ (deleteStoreByAdmin refEnv "1" stateFirst).2.stores) ∧
    (Reachable refEnv stateFirst →
      (storeX 1 1).ratings_count = ((ratingsOf stateFirst (storeX 1 1).id).length : Int))) ∧
    0 < (ratingsOf stateFirst (storeX 1 1).id).length :=
  ⟨deleteStoreByAdmin_spec refEnv "1" stateFirst (storeX 1 1) (by decide) (by decide)
    (by rw [stateFirst_eq2]; simp), by rw [stateFirst_eq2]; simp [ratingsOf, storeX]⟩

/-- The example: the recompute fails after user 3 has changed the value for
Store X from 1 to 5.  The row keeps 5, the store keeps the average 1.00 of
the old value, and the answer is 500. -/
theorem updateRating_stale_example :
    updateRating refEnv false (bob 3) "1" ⟨.num 5, .absent⟩ stateFirst =
      (.internal, ⟨[ownerRow], [storeX 1 1], [⟨1, 1, 3, 5, none, 1⟩], 2, 2, 2⟩) := by
  rw [stateFirst_eq2]
  norm_num [updateRating, JsVal.truthy, JsVal.ltNum, JsVal.gtNum, JsVal.toNumber,
    refEnv_parseInt_1, writeRatingValue, validRatingValue, parseFloatOf,
    recalculate_fail, afterSave, assignedComment, bob, storeX]
  norm_num [refEnv]
  rw [if_neg (by decide)]

/-- C17, as stated, fails: when the recompute fails, the state after
`createRating` is not the state before it. -/
theorem rating_write_atomic_counterexample :
    ¬ (∀ (env : Env) (now : Nat) (user : Identity) (p : String)
        (body : RatingBody) (db : DB),
        (createRating env false now user p body db).2 = db) := by
  intro h
  have h2 := h refEnv 9 (bob 7) "1" ⟨.num 4, .absent⟩ stateStore
  have h3 := congrArg (fun d => d.ratings.length) h2
  rw [stateStore_eq] at h3
  norm_num [createRating, JsVal.truthy, JsVal.ltNum, JsVal.gtNum, JsVal.toNumber,
    refEnv_parseInt_1, writeRatingValue, validRatingValue, parseFloatOf,
    recalculate_fail, createdRating, afterInsert, storeX] at h3
  norm_num [refEnv] at h3

/-- C17, amended: when the database fails the recompute, `createRating` and
`updateRating` never answer with success, and each either leaves the
database as it was or answers 500 with the Rating row written (inserted,
or saved) and every store as it was before the request: the write and the
recompute are not atomic. -/
theorem rating_write_not_atomic (env : Env) (now : Nat) (user : Identity)
    (p : String) (body : RatingBody) (db : DB) :
    ((createRating env false now user p body db).2 = db ∨
      ∃ sid value, env.parseInt p = some sid ∧
        writeRatingValue env body.rating_value = some value ∧
        createRating env false now user p body db =
          (.internal, afterInsert (createdRating now user sid value body db) db) ∧
        (afterInsert (createdRating now user sid value body db) db).stores = db.stores ∧
        (afterInsert (createdRating now user sid value body db) db).ratings =
          db.ratings ++ [createdRating now user sid value body db]) ∧
    (createRating env false now user p body db).1.status ≠ 201 ∧
    ((updateRating env false user p body db).2 = db ∨
      ∃ rating value, rating ∈ db.ratings ∧
        updateRating env false user p body db =
          (.internal, afterSave rating.id value (assignedComment rating body) db) ∧
        (afterSave rating.id value (assignedComment rating body) db).stores = db.stores) ∧
    (updateRating env false user p body db).1.status ≠ 200 := by
  refine ⟨?_, ?_, ?_, ?_⟩
  · rcases createRating_cases env false now user p body db with ⟨h, _⟩ |
      ⟨sid, value, hp, _, _, hv, h⟩
    · exact Or.inl h
    · exact Or.inr ⟨sid, value, hp, hv, by simpa using h, rfl, rfl⟩
  · rcases createRating_cases env false now user p body db with ⟨_, h⟩ |
      ⟨sid, value, _, _, _, _, h⟩
    · exact h
    · rw [h]; simp [Response.internal, Response.msg]
  · rcases updateRating_cases env false user p body db with ⟨h, _⟩ |
      ⟨sid, rating, value, _, hm, _, _, h⟩
    · exact Or.inl h
    · exact Or.inr ⟨rating, value, hm, by simpa using h, rfl⟩
  · rcases updateRating_cases env false user p body db with ⟨_, h⟩ |
      ⟨sid, rating, value, _, _, _, _, h⟩
    · exact h
    · rw [h]; simp [Response.internal, Response.msg]

/-! ## Theorems: users -/

theorem lookahead_iff (cls : Char → Bool) (l : List Char)
    (h : ∀ c ∈ l, isLineTerminator c = false) :
    lookahead cls l = true ↔ ∃ c ∈ l, cls c = true := by
  induction l with
  | nil => simp [lookahead]
  | cons a l ih =>
    have ha := h a (by simp)
    have ih2 := ih (fun c hc => h c (by simp [hc]))
    simp [lookahead, ha, ih2]

/-- What `passwordRegex` accepts: 8 to 16 code units, none of them a line
terminator, one of them in `[A-Z]` and one of them special. -/
theorem passwordRegexTest_iff (w : String) :
    passwordRegexTest w = true ↔
      (8 ≤ jsLength w ∧ jsLength w ≤ 16 ∧ (∃ c ∈ w.toList, isUpperAZ c = true) ∧
        (∃ c ∈ w.toList, isSpecial c = true) ∧
        ∀ c ∈ w.toList, isLineTerminator c = false) := by
  unfold passwordRegexTest
  constructor
  · intro h
    simp only [Bool.and_eq_true, decide_eq_true_eq, List.all_eq_true,
      Bool.not_eq_true'] at h
    obtain ⟨⟨h1, h2⟩, ⟨h3, h4⟩, h5⟩ := h
    exact ⟨h3, h4, (lookahead_iff _ _ h5).mp h1, (lookahead_iff _ _ h5).mp h2, h5⟩
  · rintro ⟨h3, h4, h1, h2, h5⟩
    simp only [Bool.and_eq_true, decide_eq_true_eq, List.all_eq_true,
      Bool.not_eq_true']
    exact ⟨⟨(lookahead_iff _ _ h5).mpr h1, (lookahead_iff _ _ h5).mpr h2⟩, ⟨h3, h4⟩, h5⟩

/-- C9 at the failing input: the password `Abcdefg!` followed by a line
feed has 9 characters, an uppercase letter and a special character, and
`signup` answers 400 to it, with no user created, because `.` in
`passwordRegex` does not match a line terminator; `abcdefgh` is refused and
`Abcdefg1!` passes the check. -/
theorem signup_password_line_feed (env : Env) (body : SignupBody) (db : DB)
    (hn : body.name.truthy = true) (he : body.email.truthy = true)
    (ha : body.address.truthy = true)
    (hp : body.password = .text "Abcdefg!\n") :
    (8 ≤ jsLength "Abcdefg!\n" ∧ jsLength "Abcdefg!\n" ≤ 16 ∧
      (∃ c ∈ "Abcdefg!\n".toList, isUpperAZ c = true) ∧
      (∃ c ∈ "Abcdefg!\n".toList, isSpecial c = true)) ∧
    signup env body db =
      (.msg 400 "Password must be 8-16 chars, include at least one uppercase and one special character", db) ∧
    passwordRegexTest "abcdefgh" = false ∧ passwordRegexTest "Abcdefg1!" = true := by
  refine ⟨by decide, ?_, by decide, by decide⟩
  have ht : body.password.truthy = true := by rw [hp]; decide
  have hr : passwordRegexTest body.password.get = false := by rw [hp]; decide
  simp [signup, hn, he, ha, ht, hr]

/-- Witness of C9. -/
theorem signup_password_line_feed_witness :
    (8 ≤ jsLength "Abcdefg!\n" ∧ jsLength "Abcdefg!\n" ≤ 16 ∧
      (∃ c ∈ "Abcdefg!\n".toList, isUpperAZ c = true) ∧
      (∃ c ∈ "Abcdefg!\n".toList, isSpecial c = true)) ∧
    signup refEnv { bobBody with password := .text "Abcdefg!\n" } DB.empty =
      (.msg 400 "Password must be 8-16 chars, include at least one uppercase and one special character", DB.empty) ∧
    passwordRegexTest "abcdefgh" = false ∧ passwordRegexTest "Abcdefg1!" = true :=
  signup_password_line_feed refEnv _ DB.empty (by decide) (by decide) (by decide) rfl

/-- C10: every `signup` either answers 201 after adding exactly one user,
whose role is NORMAL_USER whatever the body holds, or answers another
status and leaves the database as it was. -/
theorem signup_role_forced (env : Env) (body : SignupBody) (db : DB) :
    ((signup env body db).1.status = 201 ∧
      ∃ u : User, u.role = "NORMAL_USER" ∧
        (signup env body db).2 =
          { db with users := db.users ++ [u], nextUserId := db.nextUserId + 1 }) ∨
    ((signup env body db).1.status ≠ 201 ∧ (signup env body db).2 = db) := by
  unfold signup
  split
  · right; simp [Response.msg]
  split
  · right; simp [Response.msg]
  split
  · right; simp [Response.msg]
  split
  · right; simp [Response.internal, Response.msg]
  · rename_i u db1 h
    obtain ⟨hu, hdb, _, _⟩ := insertUser_some _ _ _ _ _ _ _ _ _ h
    left
    refine ⟨rfl, u, by rw [hu], hdb⟩

/-- A signup that asks for the role SYSTEM_ADMIN succeeds in the reference
environment and creates a NORMAL_USER. -/
theorem signup_example :
    (signup refEnv { bobBody with role := .str "SYSTEM_ADMIN" } stateOwner).2.users =
      [ownerRow, bobRow] := by
  decide

/-- C11: two logins with non-empty e-mail and password, one for an e-mail
no user has and one for the e-mail of a user whose password does not
verify, get the same response: status 401, the message `Invalid
credentials`, and no token. -/
theorem login_indistinguishable (env : Env) (db : DB) (b1 b2 : LoginBody)
    (u : User)
    (h1 : b1.email.truthy = true ∧ b1.password.truthy = true)
    (h2 : b2.email.truthy = true ∧ b2.password.truthy = true)
    (hnone : ∀ v ∈ db.users, v.email ≠ b1.email.get)
    (hsome : db.users.find? (fun v => v.email = b2.email.get) = some u)
    (hbad : env.compare b2.password.get u.password_hash = false) :
    login env b1 db = login env b2 db ∧
    login env b1 db = ⟨401, "Invalid credentials", .empty⟩ := by
  have hn : db.users.find? (fun v => v.email = b1.email.get) = none := by
    rw [List.find?_eq_none]
    intro v hv
    simpa using hnone v hv
  have e1 : login env b1 db = ⟨401, "Invalid credentials", .empty⟩ := by
    simp [login, h1.1, h1.2, hn, Response.msg]
  have e2 : login env b2 db = ⟨401, "Invalid credentials", .empty⟩ := by
    simp [login, h2.1, h2.2, hsome, hbad, Response.msg]
  exact ⟨e1.trans e2.symm, e1⟩

/-- Witness of C11: an unknown e-mail and a wrong password for the owner of
the example. -/
theorem login_indistinguishable_witness :
    login refEnv ⟨.text "nobody@example.com", .text "Abcdefg1!"⟩ stateOwner =
      login refEnv ⟨.text "owner@example.com", .text "Wrong-password"⟩ stateOwner ∧
    login refEnv ⟨.text "nobody@example.com", .text "Abcdefg1!"⟩ stateOwner =
      ⟨401, "Invalid credentials", .empty⟩ :=
  login_indistinguishable refEnv stateOwner _ _ ownerRow (by decide) (by decide)
    (by decide) (by decide) (by decide)

/-- The part of C12 that holds: when the path parameter is the decimal
numeral of the caller's key, `deleteUserByAdmin` answers 400 and leaves the
database as it was. -/
theorem deleteUserByAdmin_own_numeral (env : Env) (admin : Identity) (db : DB) :
    (deleteUserByAdmin env admin (toString admin.id) db).1.status = 400 ∧
    (deleteUserByAdmin env admin (toString admin.id) db).2 = db := by
  unfold deleteUserByAdmin
  split
  · simp [Response.msg]
  · simp [Response.msg]

/-- C12 at the failing input: when the path parameter is not the decimal
numeral `String(adminId)` but the database reads it as the key of the
caller, such as `01` for the administrator 1, `deleteUserByAdmin` passes the
self-delete check, answers 200 and removes the row of the caller. -/
theorem deleteUserByAdmin_self (env : Env) (admin : Identity)
    (idParam : String) (db : DB) (u : User)
    (hid : idParam ≠ "") (hne : toString admin.id ≠ idParam)
    (hcol : env.intColumn (.str idParam) = some admin.id)
    (hu : db.users.find? (fun v => v.id = admin.id) = some u) :
    deleteUserByAdmin env admin idParam db =
      (.msg 200 "User deleted",
       { db with users := db.users.filter fun v => v.id ≠ admin.id }) ∧
    ∀ v ∈ (deleteUserByAdmin env admin idParam db).2.users, v.id ≠ admin.id := by
  have hid2 : u.id = admin.id := by simpa using List.find?_some hu
  have e : deleteUserByAdmin env admin idParam db =
      (.msg 200 "User deleted",
       { db with users := db.users.filter fun v => v.id ≠ admin.id }) := by
    simp [deleteUserByAdmin, hid, hne, findByPk, hcol, hu, pure, Except.pure, hid2]
  refine ⟨e, ?_⟩
  rw [e]
  intro v hv
  simpa using (List.mem_filter.mp hv).2

/-- Witness of C12: the administrator, whose key is 1, asks for
`DELETE /api/admin/users/01`. -/
theorem deleteUserByAdmin_self_witness :
    deleteUserByAdmin refEnv ⟨1, "admin@example.com", "SYSTEM_ADMIN"⟩ "01" stateAdmin =
      (.msg 200 "User deleted",
       { stateAdmin with users := stateAdmin.users.filter fun v => v.id ≠ 1 }) ∧
    ∀ v ∈ (deleteUserByAdmin refEnv ⟨1, "admin@example.com", "SYSTEM_ADMIN"⟩ "01"
        stateAdmin).2.users, v.id ≠ 1 :=
  deleteUserByAdmin_self refEnv ⟨1, "admin@example.com", "SYSTEM_ADMIN"⟩ "01" stateAdmin
    adminRow (by decide) (by decide) (by decide) (by decide)

theorem stateDemoted_eq : stateDemoted =
    ⟨[{ ownerRow with role := "NORMAL_USER" }],
     [⟨1, "Store X", none, "2 Main Street", 1, 0, 0⟩], [], 2, 2, 1⟩ := by
  rw [stateDemoted, stateStore_eq]
  simp [updateUserByAdmin, findByPk, refEnv, pure, Except.pure, demoteBody,
    TextField.truthy, JsVal.truthy, newPasswordHash, assignText, assignAddress,
    assignRole, allowedRoles, ownerRow]
  decide

theorem stateDemoted_reachable : AdminReachable refEnv stateDemoted :=
  .step (.step (.step .init (.createUser ownerBody _))
    (.createStore ⟨.text "Store X", .absent, .text "2 Main Street", .num 1⟩ _))
    (.updateUserByAdmin "1" demoteBody _)

/-- C13, as stated, fails: after the administrator has changed the role of
the owner of Store X, the store references a user who is no STORE_OWNER. -/
theorem store_owner_invariant_counterexample :
    ¬ (∀ db, AdminReachable refEnv db → ∀ s ∈ db.stores,
        ∃ u ∈ db.users, u.id = s.owner_id ∧ u.role = "STORE_OWNER") := by
  intro h
  obtain ⟨u, hu, _, hr⟩ := h stateDemoted stateDemoted_reachable
    ⟨1, "Store X", none, "2 Main Street", 1, 0, 0⟩ (by rw [stateDemoted_eq]; simp)
  rw [stateDemoted_eq] at hu
  simp at hu
  subst hu
  simp at hr

theorem newOwnerOf_cases (env : Env) (db : DB) (ownerId : JsVal) :
    (∃ r, newOwnerOf env db ownerId = .error r ∧ r.status ≠ 200) ∨
    (newOwnerOf env db ownerId = .ok none ∧
      (ownerId = .undefined ∨ ownerId = .null)) ∨
    (∃ owner ∈ db.users, owner.role = "STORE_OWNER" ∧
      findByPk env User.id db.users ownerId = .ok (some owner) ∧
      newOwnerOf env db ownerId = .ok (some owner.id)) := by
  unfold newOwnerOf
  split
  · split
    · left; exact ⟨_, rfl, by simp [Response.internal, Response.msg]⟩
    · left; exact ⟨_, rfl, by simp [Response.msg]⟩
    · rename_i owner hf
      obtain ⟨hn, hmem⟩ := findByPk_some env User.id db.users ownerId owner hf
      split
      · left; exact ⟨_, rfl, by simp [Response.msg]⟩
      · rename_i hrole
        right; right
        refine ⟨owner, hmem, by simpa using hrole, hf, ?_⟩
        simp [hn]
        rfl
  · rename_i h
    right; left
    refine ⟨rfl, ?_⟩
    by_cases h1 : ownerId = .undefined
    · exact Or.inl h1
    · right
      by_contra h2
      exact h ⟨h1, h2⟩

/-- C13, amended: `createStore` and `updateStoreByAdmin` fail, without
creating or changing any store, when the given ownerId does not resolve to
an existing user with role STORE_OWNER; and every store they leave either
has the owner a store with its key had before the request, or its owner is
an existing user with role STORE_OWNER at that moment.  (Nothing keeps that
user a STORE_OWNER, or in existence, afterwards.) -/
theorem store_owner_checked (env : Env) (db : DB) (body : StoreBody)
    (idParam : String) :
    ((∀ u, findByPk env User.id db.users body.ownerId = .ok (some u) →
        u.role ≠ "STORE_OWNER") →
      ((createStore env body db).2 = db ∧ (createStore env body db).1.status ≠ 201) ∧
      (body.ownerId ≠ .undefined → body.ownerId ≠ .null →
        (updateStoreByAdmin env idParam body db).2 = db ∧
        (updateStoreByAdmin env idParam body db).1.status ≠ 200)) ∧
    (∀ s ∈ (createStore env body db).2.stores,
      (∃ s0 ∈ db.stores, s0.id = s.id ∧ s0.owner_id = s.owner_id) ∨
      ∃ u ∈ (createStore env body db).2.users,
        u.id = s.owner_id ∧ u.role = "STORE_OWNER") ∧
    (∀ s ∈ (updateStoreByAdmin env idParam body db).2.stores,
      (∃ s0 ∈ db.stores, s0.id = s.id ∧ s0.owner_id = s.owner_id) ∨
      ∃ u ∈ (updateStoreByAdmin env idParam body db).2.users,
        u.id = s.owner_id ∧ u.role = "STORE_OWNER") := by
  refine ⟨fun hbad => ⟨?_, fun h1 h2 => ?_⟩, ?_, ?_⟩
  · rcases createStore_cases env body db with h | ⟨owner, name, email, address, hm, hr, hn, h⟩
    · exact h
    · exfalso
      have hf : findByPk env User.id db.users body.ownerId = .ok (some owner) := by
        have := h
        unfold createStore at this
        split at this
        · simp [Response.msg] at this
        split at this
        · simp [Response.internal, Response.msg] at this
        · simp [Response.msg] at this
        · rename_i o hf
          have ho := hbad o hf
          simp [ho, Response.msg] at this
      exact hbad owner hf hr
  · rcases newOwnerOf_cases env db body.ownerId with ⟨r, he, hs⟩ | ⟨_, h | h⟩ |
      ⟨owner, _, hr, hf, _⟩
    · unfold updateStoreByAdmin
      split
      · simp [Response.msg]
      split
      · simp [Response.internal, Response.msg]
      · simp [Response.msg]
      · simp [he, hs]
    · exact absurd h h1
    · exact absurd h h2
    · exact absurd hr (hbad owner hf)
  · rcases createStore_cases env body db with ⟨h, _⟩ | ⟨owner, name, email, address, hm, hr, hn, h⟩
    · rw [h]
      intro s hs
      exact Or.inl ⟨s, hs, rfl, rfl⟩
    · rw [h]
      intro s hs
      simp only [List.mem_append, List.mem_singleton] at hs
      rcases hs with hs | rfl
      · exact Or.inl ⟨s, hs, rfl, rfl⟩
      · exact Or.inr ⟨owner, hm, rfl, hr⟩
  · unfold updateStoreByAdmin
    split
    · intro s hs; exact Or.inl ⟨s, hs, rfl, rfl⟩
    split
    · intro s hs; exact Or.inl ⟨s, hs, rfl, rfl⟩
    · intro s hs; exact Or.inl ⟨s, hs, rfl, rfl⟩
    rename_i store hf
    split
    · intro s hs; exact Or.inl ⟨s, hs, rfl, rfl⟩
    rename_i newOwner hown
    split
    · rename_i name email address h1 h2 h3
      intro s hs
      simp only [List.mem_map] at hs
      obtain ⟨s0, hs0, rfl⟩ := hs
      by_cases e : s0.id = store.id
      · rcases newOwnerOf_cases env db body.ownerId with ⟨r, he, _⟩ | ⟨he, _⟩ |
          ⟨owner, hm, hr, _, he⟩
        · rw [he] at hown; cases hown
        · rw [he] at hown
          cases hown
          exact Or.inl ⟨s0, hs0, by simp [e], by simp [e]⟩
        · rw [he] at hown
          cases hown
          exact Or.inr ⟨owner, hm, by simp [e], hr⟩
      · exact Or.inl ⟨s0, hs0, by simp [e], by simp [e]⟩
    · intro s hs; exact Or.inl ⟨s, hs, rfl, rfl⟩


/-- Witness of C13: after the demotion, user 1 is refused as the owner of a
new store. -/
theorem store_owner_checked_witness :
    (createStore refEnv ⟨.text "Store Y", .absent, .text "4 Main Street", .str "1"⟩
        stateDemoted).2 = stateDemoted ∧
    (createStore refEnv ⟨.text "Store Y", .absent, .text "4 Main Street", .str "1"⟩
        stateDemoted).1.status ≠ 201 :=
  ((store_owner_checked refEnv stateDemoted
      ⟨.text "Store Y", .absent, .text "4 Main Street", .str "1"⟩ "1").1
    (by
      intro u h
      rw [stateDemoted_eq] at h
      simp [findByPk, refEnv, pure, Except.pure, ownerRow] at h
      have h2 : readInteger "1" = some 1 := by decide
      simp [h2] at h
      subst h
      decide)).1

/-- The part of C14 that holds: in every reachable state no two users have
the same e-mail address. -/
theorem reachable_emails_unique (env : Env) (db : DB) (h : Reachable env db) :
    db.users.Pairwise fun a b => a.email ≠ b.email :=
  (reachable_keys env db h).1.emailsUnique

/-- The sibling paths of C14: `signup` and `createUser` answer 409, with
every row as it was, when the fields are present, the password passes the
check and a user holds the e-mail address. -/
theorem signup_email_taken (env : Env) (body : SignupBody) (db : DB)
    (hn : body.name.truthy = true) (he : body.email.truthy = true)
    (ha : body.address.truthy = true) (hp : body.password.truthy = true)
    (hpw : passwordRegexTest body.password.get = true)
    (hex : ∃ u ∈ db.users, u.email = body.email.get) :
    signup env body db = (.msg 409 "Email already in use", db) ∧
    (∀ r, body.role = .str r → allowedRoles.contains r = true →
      createUser env body db = (.msg 409 "Email already in use", db)) := by
  have hany : db.users.any (fun u => u.email = body.email.get) = true := by
    simpa using hex
  refine ⟨by simp [signup, hn, he, ha, hp, hpw, hany], ?_⟩
  intro r hr hal
  have ht : body.role.truthy = true := by
    rw [hr]
    simp only [JsVal.truthy, decide_eq_true_eq]
    intro h
    rw [h] at hal
    simp [allowedRoles] at hal
  have hmem : r ∈ allowedRoles := by simpa using hal
  rw [hr] at ht
  simp [createUser, hn, he, ha, hp, ht, hr, hmem, hpw, hany]

/-- C14 at the failing input: `updateCurrentUser` has no check of the
e-mail; when the body asks for an address another user holds, the unique
index refuses the save and the `catch` block answers 500, not 409, with
every row as it was. -/
theorem updateCurrentUser_email_taken (env : Env) (user : Identity)
    (body : ProfileBody) (db : DB) (row other : User) (e : String)
    (h0 : user.id ≠ 0)
    (hrow : db.users.find? (fun u => u.id = user.id) = some row)
    (hpw : body.password = .absent) (hem : body.email = .text e)
    (hother : other ∈ db.users) (hid : other.id ≠ row.id)
    (hmail : other.email = e) (hne : e ≠ row.email) :
    updateCurrentUser env user body db = (.internal, db) ∧
    (updateCurrentUser env user body db).1.status = 500 := by
  have hv : validNewEmail env db row.id e = false := by
    simp only [validNewEmail, Bool.and_eq_false_imp, Bool.not_eq_false',
      List.any_eq_true, decide_eq_true_eq]
    intro _
    exact ⟨other, hother, hid, hmail⟩
  have ha : assignText (validNewEmail env db row.id) row.email body.email = none := by
    simp [assignText, hem, hne, hv]
  have e1 : updateCurrentUser env user body db = (.internal, db) := by
    simp only [updateCurrentUser, h0, if_false, hrow, hpw, saveProfile, ha]
    split <;> first | rfl | simp_all
  exact ⟨e1, by rw [e1]; rfl⟩

/-- C16 at the failing input: with a password of 6 characters or more in
the body, `updateCurrentUser` reaches `bcrypt.hash` in a module that does
not define `bcrypt`; the `catch` block answers 500 and no row changes, so
the stored `password_hash` is the old one. -/
theorem updateCurrentUser_password (env : Env) (user : Identity)
    (body : ProfileBody) (db : DB) (row : User) (p : String)
    (h0 : user.id ≠ 0)
    (hrow : db.users.find? (fun u => u.id = user.id) = some row)
    (hpw : body.password = .text p) (hlen : 6 ≤ jsLength p) :
    updateCurrentUser env user body db = (.internal, db) ∧
    (updateCurrentUser env user body db).1.status = 500 := by
  have hp : p ≠ "" := by
    intro h
    rw [h] at hlen
    simp [jsLength] at hlen
  have hl : ¬ jsLength p < 6 := by omega
  have e1 : updateCurrentUser env user body db = (.internal, db) := by
    simp [updateCurrentUser, h0, hrow, hpw, hp, hl]
  exact ⟨e1, by rw [e1]; rfl⟩

/-- Witness of C14: Bob asks for the e-mail address of the owner. -/
theorem updateCurrentUser_email_taken_witness :
    updateCurrentUser refEnv ⟨2, "bob@example.com", "NORMAL_USER"⟩
        ⟨.absent, .text "owner@example.com", .absent, .absent⟩ stateBob =
      (.internal, stateBob) ∧
    (updateCurrentUser refEnv ⟨2, "bob@example.com", "NORMAL_USER"⟩
        ⟨.absent, .text "owner@example.com", .absent, .absent⟩ stateBob).1.status = 500 :=
  updateCurrentUser_email_taken refEnv ⟨2, "bob@example.com", "NORMAL_USER"⟩
    ⟨.absent, .text "owner@example.com", .absent, .absent⟩ stateBob bobRow ownerRow
    "owner@example.com" (by decide) (by decide) rfl rfl (by decide) (by decide)
    (by decide) (by decide)

/-- Witness of C16: Bob sends a new password of nine characters. -/
theorem updateCurrentUser_password_witness :
    updateCurrentUser refEnv ⟨2, "bob@example.com", "NORMAL_USER"⟩
        ⟨.absent, .absent, .absent, .text "Newpass1!"⟩ stateBob =
      (.internal, stateBob) ∧
    (updateCurrentUser refEnv ⟨2, "bob@example.com", "NORMAL_USER"⟩
        ⟨.absent, .absent, .absent, .text "Newpass1!"⟩ stateBob).1.status = 500 :=
  updateCurrentUser_password refEnv ⟨2, "bob@example.com", "NORMAL_USER"⟩
    ⟨.absent, .absent, .absent, .text "Newpass1!"⟩ stateBob bobRow "Newpass1!"
    (by decide) (by decide) rfl (by decide)

/-! ## Theorems: read-only controllers -/

theorem newestFirst_sorted (rows : List Rating) :
    (newestFirst rows).Sorted (fun a b => b.created_at ≤ a.created_at) :=
  @List.sorted_insertionSort Rating (fun a b => b.created_at ≤ a.created_at) _
    ⟨fun a b => Nat.le_total b.created_at a.created_at⟩
    ⟨fun _ _ _ h1 h2 => Nat.le_trans h2 h1⟩ rows

theorem newestFirst_perm (rows : List Rating) : (newestFirst rows).Perm rows :=
  List.perm_insertionSort _ _

/-- C15: for a caller and a store key, `getStoreRatingsWithUsers` answers
the same 404 whether no store has the key or every store with the key has
another owner; it answers 200 exactly when a store has the key and is owned
by the caller, and the same 404 otherwise; and when the caller owns a store
with the key, the response is 200 with that store and the Rating rows of the
store, each once, newest first, each with the user it belongs to. -/
theorem owner_boundary (env : Env) (user : Identity) (db : DB)
    (p p2 : String) (sid sid2 : Int)
    (hp : env.parseInt p = some sid) (hp2 : env.parseInt p2 = some sid2) :
    ((∀ s ∈ db.stores, s.id ≠ sid) →
      (∀ s ∈ db.stores, s.id = sid2 → s.owner_id ≠ user.id) →
      getStoreRatingsWithUsers env user p db =
        .msg 404 "Store not found or you are not the owner" ∧
      getStoreRatingsWithUsers env user p2 db =
        getStoreRatingsWithUsers env user p db) ∧
    ((getStoreRatingsWithUsers env user p db).status = 200 ↔
      ∃ s ∈ db.stores, s.id = sid ∧ s.owner_id = user.id) ∧
    ((¬ ∃ s ∈ db.stores, s.id = sid ∧ s.owner_id = user.id) →
      getStoreRatingsWithUsers env user p db =
        .msg 404 "Store not found or you are not the owner") ∧
    ((∃ s ∈ db.stores, s.id = sid ∧ s.owner_id = user.id) →
      ∃ store rs, store ∈ db.stores ∧ store.id = sid ∧
        store.owner_id = user.id ∧
        getStoreRatingsWithUsers env user p db =
          ⟨200, "", .storeRatings store rs⟩ ∧
        (rs.map Prod.fst).Perm (ratingsOf db sid) ∧
        (rs.map Prod.fst).Sorted (fun a b => b.created_at ≤ a.created_at) ∧
        ∀ x ∈ rs, x.2 = db.users.find? fun u => u.id = x.1.user_id) := by
  have hnone : (¬ ∃ s ∈ db.stores, s.id = sid ∧ s.owner_id = user.id) →
      getStoreRatingsWithUsers env user p db =
        .msg 404 "Store not found or you are not the owner" := by
    intro hn
    have e1 : db.stores.find? (fun s => s.id = sid ∧ s.owner_id = user.id) = none := by
      rw [List.find?_eq_none]
      intro s hs hc
      simp only [decide_eq_true_eq] at hc
      exact hn ⟨s, hs, hc⟩
    simp only [getStoreRatingsWithUsers, hp, e1]
  have hsome : (∃ s ∈ db.stores, s.id = sid ∧ s.owner_id = user.id) →
      ∃ store rs, store ∈ db.stores ∧ store.id = sid ∧
        store.owner_id = user.id ∧
        getStoreRatingsWithUsers env user p db =
          ⟨200, "", .storeRatings store rs⟩ ∧
        (rs.map Prod.fst).Perm (ratingsOf db sid) ∧
        (rs.map Prod.fst).Sorted (fun a b => b.created_at ≤ a.created_at) ∧
        ∀ x ∈ rs, x.2 = db.users.find? fun u => u.id = x.1.user_id := by
    rintro ⟨s, hs, hc⟩
    cases hf : db.stores.find? (fun s => s.id = sid ∧ s.owner_id = user.id) with
    | none =>
      rw [List.find?_eq_none] at hf
      exact absurd (by simpa using hc) (hf s hs)
    | some store =>
      have h1 := List.find?_some hf
      simp only [decide_eq_true_eq] at h1
      have hfst : (Prod.fst ∘ fun r : Rating =>
          (r, db.users.find? fun u => u.id = r.user_id)) = id := by
        funext r; rfl
      refine ⟨store, (newestFirst (ratingsOf db sid)).map fun r =>
          (r, db.users.find? fun u => u.id = r.user_id),
        List.mem_of_find?_eq_some hf, h1.1, h1.2, ?_, ?_, ?_, ?_⟩
      · simp only [getStoreRatingsWithUsers, hp, hf]
      · rw [List.map_map, hfst, List.map_id]
        exact newestFirst_perm _
      · rw [List.map_map, hfst, List.map_id]
        exact newestFirst_sorted _
      · intro x hx
        rw [List.mem_map] at hx
        obtain ⟨r, _, rfl⟩ := hx
        rfl
  refine ⟨?_, ⟨?_, ?_⟩, hnone, hsome⟩
  · intro h1 h2
    have e2 : db.stores.find? (fun s => s.id = sid2 ∧ s.owner_id = user.id) = none := by
      rw [List.find?_eq_none]
      intro s hs
      simpa using h2 s hs
    have r1 := hnone (by
      rintro ⟨s, hs, hc⟩
      exact h1 s hs hc.1)
    have r2 : getStoreRatingsWithUsers env user p2 db =
        .msg 404 "Store not found or you are not the owner" := by
      simp only [getStoreRatingsWithUsers, hp2, e2]
    exact ⟨r1, r2.trans r1.symm⟩
  · intro hs
    by_contra hn
    rw [hnone hn] at hs
    simp [Response.msg] at hs
  · intro h
    obtain ⟨store, rs, _, _, _, he, _⟩ := hsome h
    rw [he]

/-- The example: what the owner of Store X gets for the key 1 after the
three ratings, the newest first. -/
theorem getStoreRatingsWithUsers_example :
    getStoreRatingsWithUsers refEnv ⟨1, "owner@example.com", "STORE_OWNER"⟩ "1" stateThird =
      ⟨200, "", .storeRatings (storeX (133 / 100) 3)
        [(⟨3, 1, 5, 2, none, 3⟩, none), (⟨2, 1, 4, 1, none, 2⟩, none),
         (⟨1, 1, 3, 1, none, 1⟩, none)]⟩ := by
  rw [stateThird_eq]
  simp [getStoreRatingsWithUsers, refEnv_parseInt_1, storeX, ratingsOf, newestFirst, ownerRow]

theorem filter_key_le_one (stores : List Store) (k o : Int)
    (h : stores.Pairwise fun a b => a.id ≠ b.id) :
    (stores.filter fun s => s.id = k ∧ s.owner_id = o).map (fun _ => ()) =
      if stores.any (fun s => s.id = k ∧ s.owner_id = o) then [()] else [] := by
  induction stores with
  | nil => simp
  | cons a l ih =>
    rw [List.pairwise_cons] at h
    have ih2 := ih h.2
    by_cases ha : a.id = k ∧ a.owner_id = o
    · have hnil : l.filter (fun s => decide (s.id = k ∧ s.owner_id = o)) = [] := by
        rw [List.filter_eq_nil_iff]
        intro b hb hb2
        simp only [decide_eq_true_eq] at hb2
        exact h.1 b hb (ha.1.trans hb2.1.symm)
      rw [List.filter_cons_of_pos (by simpa using ha), hnil]
      simp [ha]
    · rw [List.filter_cons_of_neg (by simpa using ha), ih2]
      simp [ha]

theorem ownerRatings_eq (db : DB) (o : Int)
    (h : db.stores.Pairwise fun a b => a.id ≠ b.id) :
    ownerRatings db o = pooledRatings db o := by
  unfold ownerRatings pooledRatings
  generalize db.ratings = l
  induction l with
  | nil => simp
  | cons r l ih =>
    have key := filter_key_le_one db.stores r.store_id o h
    have e : (db.stores.filter fun s => s.id = r.store_id ∧ s.owner_id = o).map (fun _ => r) =
        if db.stores.any (fun s => s.id = r.store_id ∧ s.owner_id = o) then [r] else [] := by
      have := congrArg (List.map fun _ => r) key
      simp only [List.map_map] at this
      rw [show ((fun _ => r) ∘ fun (_ : Store) => ()) = (fun _ => r) from rfl] at this
      rw [this]
      split <;> simp
    rw [List.flatMap_cons, e, ih]
    by_cases hany : db.stores.any (fun s => s.id = r.store_id ∧ s.owner_id = o) = true
    · rw [List.filter_cons, if_pos hany, if_pos hany]
      rfl
    · rw [List.filter_cons, if_neg hany, if_neg hany]
      rfl


/-! ## Theorems: the number read from the aggregate -/

theorem log2_eq (q : ℚ) (e : Int) (h1 : (2 : ℚ) ^ e ≤ q) (h2 : q < (2 : ℚ) ^ (e + 1)) :
    Int.log 2 q = e := by
  have hq : 0 < q := lt_of_lt_of_le (by positivity) h1
  apply le_antisymm
  · have := (Int.lt_zpow_iff_log_lt (by norm_num : 1 < 2) hq).1 (by exact_mod_cast h2)
    omega
  · exact (Int.zpow_le_iff_le_log (by norm_num : 1 < 2) hq).1 (by exact_mod_cast h1)

theorem numericDiv_4_3 : numericDiv 4 3 = 13333333333333333 / 10 ^ 16 := by
  have hs : divScale 4 3 = 16 := by
    simp [divScale, quotientWeight, numericWeight, numericFirstDigit, Nat.log_of_lt]
  have hf : ⌊((4 : Int) : ℚ) / ((3 : Nat) : ℚ) * 10 ^ 16 + 1 / 2⌋ = 13333333333333333 := by
    rw [Int.floor_eq_iff]; norm_num
  have h0 : (0 : ℚ) ≤ ((4 : Int) : ℚ) / ((3 : Nat) : ℚ) := by norm_num
  simp only [numericDiv, roundHalfAway, h0, if_true]
  rw [show (4 : Int).natAbs = 4 from rfl, hs, hf]
  norm_num

theorem toBinary64_example :
    toBinary64 (13333333333333333 / 10 ^ 16) = 6004799503160661 / 2 ^ 52 := by
  have hl : Int.log 2 (13333333333333333 / 10 ^ 16 : ℚ) = 0 := by
    apply log2_eq <;> norm_num
  have hu : ulp (13333333333333333 / 10 ^ 16) = 1 / 2 ^ 52 := by
    simp only [ulp, hl]
    norm_num
  have hf : ⌊(13333333333333333 / 10 ^ 16 : ℚ) / (1 / 2 ^ 52)⌋ = 6004799503160661 := by
    rw [Int.floor_eq_iff]; norm_num
  have hr : roundHalfEven ((13333333333333333 / 10 ^ 16 : ℚ) / (1 / 2 ^ 52)) =
      6004799503160661 := by
    simp only [roundHalfEven, hf]
    norm_num
  have h0 : (0 : ℚ) ≤ 13333333333333333 / 10 ^ 16 := by norm_num
  simp only [toBinary64, h0, if_true, hu, hr]
  norm_num


/-- The example: a DECIMAL(3,2) column keeps the same 1.33 of the number
read from `1.3333333333333333` as of the mean 4/3. -/
theorem roundDecimal2_of_double :
    roundDecimal2 (toBinary64 (numericDiv 4 3)) = roundDecimal2 (4 / 3) := by
  rw [numericDiv_4_3, toBinary64_example, roundDecimal2_four_thirds]
  have h : (0 : ℚ) ≤ 6004799503160661 / 2 ^ 52 := by norm_num
  have : ⌊(6004799503160661 / 2 ^ 52 : ℚ) * 100 + 1 / 2⌋ = 133 := by
    rw [Int.floor_eq_iff]; norm_num
  simp only [roundDecimal2, h, if_true, this]
  norm_num

theorem roundHalfAway_error (s : Nat) (q : ℚ) (hq : 0 ≤ q) :
    |roundHalfAway s q - q| ≤ 1 / (2 * 10 ^ s) := by
  have hp : (0 : ℚ) < 10 ^ s := by positivity
  simp only [roundHalfAway, hq, if_true]
  have h1 := Int.floor_le (q * 10 ^ s + 1 / 2)
  have h2 := Int.lt_floor_add_one (q * 10 ^ s + 1 / 2)
  rw [abs_le]
  constructor
  · rw [le_sub_iff_add_le, ← sub_eq_neg_add, le_div_iff₀ hp, sub_mul]
    have : (1 : ℚ) / (2 * 10 ^ s) * 10 ^ s = 1 / 2 := by field_simp; ring
    rw [this]
    linarith
  · rw [sub_le_iff_le_add, div_le_iff₀ hp, add_mul]
    have : (1 : ℚ) / (2 * 10 ^ s) * 10 ^ s = 1 / 2 := by field_simp; ring
    rw [this]
    linarith

theorem roundHalfAway_between (s : Nat) (q : ℚ) (h1 : 1 ≤ q) (h5 : q ≤ 5) :
    1 ≤ roundHalfAway s q ∧ roundHalfAway s q ≤ 5 := by
  have hp : (0 : ℚ) < 10 ^ s := by positivity
  have hq : 0 ≤ q := by linarith
  simp only [roundHalfAway, hq, if_true]
  constructor
  · rw [le_div_iff₀ hp, one_mul]
    have : ((10 ^ s : Int) : ℚ) ≤ q * 10 ^ s + 1 / 2 := by
      push_cast
      nlinarith
    have := Int.le_floor.2 this
    exact_mod_cast this
  · rw [div_le_iff₀ hp]
    have : q * 10 ^ s + 1 / 2 < ((5 * 10 ^ s + 1 : Int) : ℚ) := by
      push_cast
      nlinarith
    have := Int.floor_lt.2 this
    have h3 : ⌊q * 10 ^ s + 1 / 2⌋ ≤ 5 * 10 ^ s := by omega
    exact_mod_cast h3

theorem roundHalfEven_error (m : ℚ) : |(roundHalfEven m : ℚ) - m| ≤ 1 / 2 := by
  have h1 := Int.floor_le m
  have h2 := Int.lt_floor_add_one m
  unfold roundHalfEven
  rw [abs_le]
  split_ifs with a b c
  · constructor <;> linarith
  · push_cast
    constructor <;> linarith
  · have : m - ⌊m⌋ = 1 / 2 := le_antisymm (not_lt.1 b) (not_lt.1 a)
    constructor <;> linarith
  · have : m - ⌊m⌋ = 1 / 2 := le_antisymm (not_lt.1 b) (not_lt.1 a)
    push_cast
    constructor <;> linarith

theorem ulp_pos (q : ℚ) : 0 < ulp q := by
  unfold ulp
  positivity

theorem toBinary64_error (q : ℚ) (hq : 0 ≤ q) :
    |toBinary64 q - q| ≤ ulp q / 2 := by
  have hu := ulp_pos q
  simp only [toBinary64, hq, if_true]
  have h := roundHalfEven_error (q / ulp q)
  have e : (roundHalfEven (q / ulp q) : ℚ) * ulp q - q =
      ((roundHalfEven (q / ulp q) : ℚ) - q / ulp q) * ulp q := by
    field_simp
  rw [e, abs_mul, abs_of_pos hu]
  calc |(roundHalfEven (q / ulp q) : ℚ) - q / ulp q| * ulp q
      ≤ 1 / 2 * ulp q := mul_le_mul_of_nonneg_right h hu.le
    _ = ulp q / 2 := by ring

theorem ulp_le (q : ℚ) (h1 : 1 ≤ q) (h5 : q ≤ 5) : ulp q ≤ 1 / 2 ^ 50 := by
  have hq : 0 < q := by linarith
  have hl : Int.log 2 q < 3 :=
    (Int.lt_zpow_iff_log_lt (by norm_num : 1 < 2) hq).1 (by norm_num; linarith)
  have hm : max (Int.log 2 q) (-1022) - 52 ≤ -50 := by
    have : max (Int.log 2 q) (-1022) ≤ 2 := max_le (by omega) (by norm_num)
    omega
  unfold ulp
  calc (2 : ℚ) ^ (max (Int.log 2 q) (-1022) - 52) ≤ 2 ^ (-50 : Int) :=
        zpow_le_zpow_right₀ (by norm_num) hm
    _ = 1 / 2 ^ 50 := by norm_num

theorem divScale_ge (a b : Nat) (hb : 0 < b) (h1 : b ≤ a) (h5 : a ≤ 5 * b) :
    16 ≤ divScale a b := by
  have hw1 : Nat.log 10000 b ≤ Nat.log 10000 a := Nat.log_mono_right h1
  have hw2 : Nat.log 10000 a ≤ Nat.log 10000 b + 1 := by
    have : Nat.log 10000 a ≤ Nat.log 10000 (b * 10000) := Nat.log_mono_right (by omega)
    rwa [Nat.log_mul_base (by norm_num) (by omega)] at this
  have hq : quotientWeight a b ≤ 0 := by
    unfold quotientWeight numericWeight numericFirstDigit
    rcases Nat.lt_or_ge (Nat.log 10000 b) (Nat.log 10000 a) with h | h
    · have e : Nat.log 10000 a = Nat.log 10000 b + 1 := by omega
      have hfd : a / 10000 ^ Nat.log 10000 a ≤ b / 10000 ^ Nat.log 10000 b := by
        rw [e, pow_succ, mul_comm]
        calc a / (10000 * 10000 ^ Nat.log 10000 b)
            ≤ (10000 * b) / (10000 * 10000 ^ Nat.log 10000 b) :=
              Nat.div_le_div_right (by omega)
          _ = b / 10000 ^ Nat.log 10000 b := Nat.mul_div_mul_left _ _ (by norm_num)
      rw [if_pos hfd]
      omega
    · have e : Nat.log 10000 a = Nat.log 10000 b := by omega
      rw [e]
      split <;> omega
  unfold divScale
  have : 16 ≤ (max (16 - quotientWeight a b * 4) 0).toNat := by
    have h2 : (16 : Int) ≤ max (16 - quotientWeight a b * 4) 0 :=
      le_max_of_le_left (by omega)
    omega
  omega

theorem sum_between (rows : List Rating)
    (h : ∀ r ∈ rows, 1 ≤ r.rating_value ∧ r.rating_value ≤ 5) :
    (rows.length : Int) ≤ (rows.map fun r => r.rating_value).sum ∧
    (rows.map fun r => r.rating_value).sum ≤ 5 * (rows.length : Int) := by
  induction rows with
  | nil => simp
  | cons a l ih =>
    have ha := h a (List.mem_cons_self _ _)
    have hl := ih fun r hr => h r (List.mem_cons_of_mem _ hr)
    simp only [List.map_cons, List.sum_cons, List.length_cons]
    push_cast
    constructor <;> linarith [ha.1, ha.2, hl.1, hl.2]

theorem numericDiv_error (S : Int) (n : Nat) (hn : 0 < n) (h1 : (n : Int) ≤ S)
    (h5 : S ≤ 5 * (n : Int)) :
    |toBinary64 (numericDiv S n) - (S : ℚ) / (n : ℚ)| ≤ 5 / 10 ^ 16 := by
  have hnq : (0 : ℚ) < (n : ℚ) := by exact_mod_cast hn
  have hS1 : (n : ℚ) ≤ (S : ℚ) := by exact_mod_cast h1
  have hS5 : (S : ℚ) ≤ 5 * (n : ℚ) := by exact_mod_cast h5
  have hq1 : 1 ≤ (S : ℚ) / (n : ℚ) := by rw [le_div_iff₀ hnq]; linarith
  have hq5 : (S : ℚ) / (n : ℚ) ≤ 5 := by rw [div_le_iff₀ hnq]; linarith
  have hsc : 16 ≤ divScale S.natAbs n := divScale_ge _ _ hn (by omega) (by omega)
  have hb := roundHalfAway_between (divScale S.natAbs n) _ hq1 hq5
  have he := roundHalfAway_error (divScale S.natAbs n) ((S : ℚ) / (n : ℚ)) (by linarith)
  have hpow : (1 : ℚ) / (2 * 10 ^ divScale S.natAbs n) ≤ 1 / (2 * 10 ^ 16) := by
    apply one_div_le_one_div_of_le (by positivity)
    have : (10 : ℚ) ^ 16 ≤ 10 ^ divScale S.natAbs n :=
      pow_le_pow_right₀ (by norm_num) hsc
    linarith
  have hd := toBinary64_error (numericDiv S n) (by unfold numericDiv; linarith [hb.1])
  have hu := ulp_le (numericDiv S n) hb.1 hb.2
  unfold numericDiv at hd hu ⊢
  calc |toBinary64 (roundHalfAway (divScale S.natAbs n) (S / n)) - (S : ℚ) / n|
      = |(toBinary64 (roundHalfAway (divScale S.natAbs n) (S / n)) -
            roundHalfAway (divScale S.natAbs n) (S / n)) +
          (roundHalfAway (divScale S.natAbs n) (S / n) - (S : ℚ) / n)| := by ring_nf
    _ ≤ _ := abs_add _ _
    _ ≤ ulp (roundHalfAway (divScale S.natAbs n) (S / n)) / 2 +
          1 / (2 * 10 ^ divScale S.natAbs n) := add_le_add hd he
    _ ≤ (1 / 2 ^ 50) / 2 + 1 / (2 * 10 ^ 16) := by linarith
    _ ≤ 5 / 10 ^ 16 := by norm_num

/-- The example: the administrator reads the owner of Store X after the
ratings 1, 1 and 2.  The database sends `1.3333333333333333`, and `Number`
gives the binary64 number next to it. -/
theorem getUserDetails_example :
    getUserDetails refEnv "1" stateThird =
      ⟨200, "", .userDetails 1 "Owner A of the Store X" "owner@example.com"
        (some "1 Main Street") "STORE_OWNER"
        (some (6004799503160661 / 2 ^ 52))⟩ := by
  have hf : findByPk refEnv User.id stateThird.users (.str "1") = .ok (some ownerRow) := by
    rw [stateThird_eq]
    rfl
  have hk : stateThird.stores.Pairwise fun a b => a.id ≠ b.id := by
    rw [stateThird_eq]; simp
  have ha : avgNumeric (pooledRatings stateThird 1) = some (numericDiv 4 3) := by
    rw [stateThird_eq]
    simp [avgNumeric, pooledRatings, storeX]
  simp only [getUserDetails, hf]
  rw [show ownerRow.id = 1 from rfl, ownerRatings_eq stateThird 1 hk, ha, numericDiv_4_3]
  simp only [Option.map, Option.getD, toBinary64_example]
  rfl

/-- C18, as stated, fails: for the owner of Store X after the ratings 1, 1
and 2 the controller returns 6004799503160661 / 2^52, the number JavaScript
prints as 1.3333333333333333, while the mean is 4/3. -/
theorem getUserDetails_mean_counterexample :
    ¬ (∀ (db : DB) (idParam : String) (U : User), Reachable refEnv db →
        refEnv.intColumn (.str idParam) = some U.id →
        db.users.find? (fun u => u.id = U.id) = some U →
        getUserDetails refEnv idParam db =
          ⟨200, "", .userDetails U.id U.name U.email U.address U.role
            (if U.role = "STORE_OWNER" then
              some (meanRating (pooledRatings db U.id))
             else none)⟩) := by
  intro h
  have h2 := h stateThird "1" ownerRow stateThird_reachable (by decide)
    (by rw [stateThird_eq]; simp [ownerRow])
  rw [getUserDetails_example] at h2
  have hm : meanRating (pooledRatings stateThird ownerRow.id) = 4 / 3 := by
    rw [stateThird_eq]
    norm_num [meanRating, pooledRatings, storeX, ownerRow]
  rw [hm] at h2
  simp only [ownerRow, if_true, Response.mk.injEq, Payload.userDetails.injEq,
    Option.some.injEq, true_and] at h2
  norm_num at h2

/-- C18, amended: for a user U that exists, in a database whose store keys
are unique, `getUserDetails` answers 200 with `storeOwnerAverageRating =
null` when the role of U is not STORE_OWNER; when it is STORE_OWNER, with 0
when no Rating row belongs to a store owned by U, and otherwise with the
binary64 number nearest to the quotient of the sum of `rating_value` over
all those rows, pooled, by their number, as the database rounds it to 16 or
more significant digits; when the values are between 1 and 5 that number is
within 5 / 10^16 of the arithmetic mean. -/
theorem getUserDetails_rating (env : Env) (idParam : String) (db : DB)
    (U : User) (hcol : env.intColumn (.str idParam) = some U.id)
    (hU : db.users.find? (fun u => u.id = U.id) = some U)
    (hkeys : db.stores.Pairwise fun a b => a.id ≠ b.id) :
    ∃ v : Option ℚ,
      getUserDetails env idParam db =
        ⟨200, "", .userDetails U.id U.name U.email U.address U.role v⟩ ∧
      (U.role ≠ "STORE_OWNER" → v = none) ∧
      (U.role = "STORE_OWNER" →
        (pooledRatings db U.id = [] → v = some 0) ∧
        (pooledRatings db U.id ≠ [] →
          v = some (toBinary64 (numericDiv
            ((pooledRatings db U.id).map fun r => r.rating_value).sum
            (pooledRatings db U.id).length))) ∧
        ((∀ r ∈ pooledRatings db U.id, 1 ≤ r.rating_value ∧ r.rating_value ≤ 5) →
          ∃ x, v = some x ∧
            |x - meanRating (pooledRatings db U.id)| ≤ 5 / 10 ^ 16)) := by
  have hf : findByPk env User.id db.users (.str idParam) = .ok (some U) := by
    simp [findByPk, hcol, hU, pure, Except.pure]
  refine ⟨if U.role = "STORE_OWNER" then
      some (((avgNumeric (pooledRatings db U.id)).map toBinary64).getD 0)
    else none, ?_, ?_, ?_⟩
  · simp only [getUserDetails, hf, ownerRatings_eq db U.id hkeys]
  · intro h
    rw [if_neg h]
  · intro h
    rw [if_pos h]
    refine ⟨?_, ?_, ?_⟩
    · intro he
      simp [avgNumeric, he]
    · intro hne
      simp [avgNumeric, hne]
    · intro hr
      by_cases he : pooledRatings db U.id = []
      · exact ⟨0, by simp [avgNumeric, he], by rw [he]; norm_num [meanRating]⟩
      · have hs := sum_between _ hr
        have hlen : 0 < (pooledRatings db U.id).length := List.length_pos.2 he
        have hl0 : (pooledRatings db U.id).length ≠ 0 := by omega
        refine ⟨toBinary64 (numericDiv
            ((pooledRatings db U.id).map fun r => r.rating_value).sum
            (pooledRatings db U.id).length),
          by simp only [avgNumeric, he, if_false, Option.map, Option.getD], ?_⟩
        simp only [meanRating, hl0, if_false]
        have h9 := numericDiv_error
          ((pooledRatings db U.id).map fun r => r.rating_value).sum
          (pooledRatings db U.id).length hlen hs.1 hs.2
        rw [Int.cast_list_sum, List.map_map] at h9
        exact h9

/-- C19: for every query string and every allow-list that holds `name`,
when the plan of a list controller is built, the column it orders by is in
the allow-list and is `name` for any other `sortBy`, the direction is `ASC`
or `DESC`, and `DESC` exactly when `sortOrder` is a string whose upper case
is `DESC`; `page` and `limit` are 1 and 10 when absent or not numeric, the
limit is never 0, and the response has `totalPages = ceil(total / limit)`
with the page and the limit of the plan.  The three controllers are this
one with their allow-lists. -/
theorem list_plan_spec (env : Env) (valid : List String) (q : ListQuery)
    (plan : ListPlan) (hname : "name" ∈ valid)
    (h : listPlan env valid q = .ok plan) :
    plan.orderField ∈ valid ∧
    ((∀ s, q.sortBy = .str s → s ∉ valid) → plan.orderField = "name") ∧
    (plan.orderDirection = "ASC" ∨ plan.orderDirection = "DESC") ∧
    (plan.orderDirection = "DESC" ↔
      ∃ o, q.sortOrder = .str o ∧ env.toUpperCase o = "DESC") ∧
    ((q.page = .absent ∨ ∃ s, q.page = .str s ∧ env.parseInt s = none) →
      plan.pageNum = 1) ∧
    ((q.limit = .absent ∨ ∃ s, q.limit = .str s ∧ env.parseInt s = none) →
      plan.pageSize = 10) ∧
    plan.pageSize ≠ 0 ∧
    (∀ (α : Type) (exec : ListPlan → Option (List α × Nat)) rows pg,
      listWith env valid exec q = some (rows, pg) →
      pg.totalPages = ⌈(pg.total : ℚ) / (pg.limit : ℚ)⌉ ∧
      pg.page = plan.pageNum ∧ pg.limit = plan.pageSize) ∧
    (∀ (α : Type) (exec : ListPlan → Option (List α × Nat)),
      listUsers env exec =
        listWith env ["name", "email", "address", "role", "created_at"] exec ∧
      listStores env exec =
        listWith env ["name", "email", "address", "average_rating"] exec ∧
      listStoresForUser env exec =
        listWith env ["name", "address", "average_rating", "ratings_count"] exec) := by
  have hfield : (match q.sortBy with
      | .absent => "name"
      | .str s => if valid.contains s then s else "name"
      | .other _ => "name") ∈ valid ∧
      ((∀ s, q.sortBy = .str s → s ∉ valid) →
        (match q.sortBy with
        | .absent => "name"
        | .str s => if valid.contains s then s else "name"
        | .other _ => "name") = "name") := by
    cases hs : q.sortBy with
    | absent => exact ⟨hname, fun _ => rfl⟩
    | other r => exact ⟨hname, fun _ => rfl⟩
    | str s =>
      by_cases hv : s ∈ valid
      · refine ⟨by simp [hv], fun hno => absurd hv (hno s rfl)⟩
      · exact ⟨by simpa [hv] using hname, fun _ => by simp [hv]⟩
  have hor : ∀ (d : Int) (v : QueryVal), d ≠ 0 → parseIntOr env d v ≠ 0 ∧
      ((v = .absent ∨ ∃ s, v = .str s ∧ env.parseInt s = none) →
        parseIntOr env d v = d) := by
    intro d v hd
    cases v with
    | absent => exact ⟨by simpa [parseIntOr] using hd, fun _ => rfl⟩
    | str s =>
      cases hp : env.parseInt s with
      | none => exact ⟨by simpa [parseIntOr, hp] using hd, fun _ => by simp [parseIntOr, hp]⟩
      | some n =>
        refine ⟨?_, ?_⟩
        · by_cases hn : n = 0 <;> simp [parseIntOr, hp, hn, hd]
        · rintro (h | ⟨s2, h1, h2⟩)
          · cases h
          · cases h1
            rw [hp] at h2
            cases h2
    | other r =>
      refine ⟨?_, ?_⟩
      · cases hp : env.parseInt r with
        | none => simpa [parseIntOr, hp] using hd
        | some n => by_cases hn : n = 0 <;> simp [parseIntOr, hp, hn, hd]
      · rintro (h | ⟨s2, h1, _⟩)
        · cases h
        · cases h1
  have hplan : plan.orderField ∈ valid ∧
      ((∀ s, q.sortBy = .str s → s ∉ valid) → plan.orderField = "name") ∧
      (plan.orderDirection = "ASC" ∨ plan.orderDirection = "DESC") ∧
      (plan.orderDirection = "DESC" ↔
        ∃ o, q.sortOrder = .str o ∧ env.toUpperCase o = "DESC") ∧
      plan.pageNum = parseIntOr env 1 q.page ∧
      plan.pageSize = parseIntOr env 10 q.limit := by
    unfold listPlan at h
    cases ho : q.sortOrder with
    | other r => simp [ho, throw, throwThe, MonadExceptOf.throw] at h
    | absent =>
      simp only [ho, pure, Except.pure, Except.ok.injEq] at h
      subst h
      exact ⟨hfield.1, hfield.2, Or.inl rfl, by simp, rfl, rfl⟩
    | str o =>
      simp only [ho, pure, Except.pure, Except.ok.injEq] at h
      subst h
      refine ⟨hfield.1, hfield.2, ?_, ?_, rfl, rfl⟩
      · by_cases hu : env.toUpperCase o = "DESC" <;> simp [hu]
      · by_cases hu : env.toUpperCase o = "DESC" <;> simp [hu]
  obtain ⟨h1, h2, h3, h4, h5, h6⟩ := hplan
  refine ⟨h1, h2, h3, h4, ?_, ?_, ?_, ?_, ?_⟩
  · intro hq
    rw [h5]
    exact (hor 1 q.page (by decide)).2 hq
  · intro hq
    rw [h6]
    exact (hor 10 q.limit (by decide)).2 hq
  · rw [h6]
    exact (hor 10 q.limit (by decide)).1
  · intro α exec rows pg hl
    simp only [listWith, h] at hl
    cases he : exec plan with
    | none => simp [he] at hl
    | some res =>
      obtain ⟨rows2, count⟩ := res
      simp only [he, Option.some.injEq, Prod.mk.injEq] at hl
      obtain ⟨_, rfl⟩ := hl
      exact ⟨by simp, rfl, rfl⟩
  · intro α exec
    exact ⟨rfl, rfl, rfl⟩

/-- Witness of C15: a store owner who does not own Store X asks for the
ratings of the key 7, which no store has, and of the key 1; the owner of
Store X asks for the ratings of the key 1. -/
theorem owner_boundary_witness :
    (getStoreRatingsWithUsers refEnv ⟨9, "other@example.com", "STORE_OWNER"⟩ "7" stateThird =
      .msg 404 "Store not found or you are not the owner" ∧
    getStoreRatingsWithUsers refEnv ⟨9, "other@example.com", "STORE_OWNER"⟩ "1" stateThird =
      getStoreRatingsWithUsers refEnv ⟨9, "other@example.com", "STORE_OWNER"⟩ "7" stateThird) ∧
    (getStoreRatingsWithUsers refEnv ⟨1, "owner@example.com", "STORE_OWNER"⟩ "1"
      stateThird).status = 200 ∧
    ∃ store rs, store ∈ stateThird.stores ∧ store.id = 1 ∧ store.owner_id = 1 ∧
      getStoreRatingsWithUsers refEnv ⟨1, "owner@example.com", "STORE_OWNER"⟩ "1" stateThird =
        ⟨200, "", .storeRatings store rs⟩ ∧
      (rs.map Prod.fst).Perm (ratingsOf stateThird 1) ∧
      (rs.map Prod.fst).Sorted (fun a b => b.created_at ≤ a.created_at) ∧
      ∀ x ∈ rs, x.2 = stateThird.users.find? fun u => u.id = x.1.user_id :=
  ⟨(owner_boundary refEnv ⟨9, "other@example.com", "STORE_OWNER"⟩ stateThird "7" "1" 7 1
      (by decide) (by decide)).1
      (by rw [stateThird_eq]; simp [storeX])
      (by rw [stateThird_eq]; simp [storeX]),
    (owner_boundary refEnv ⟨1, "owner@example.com", "STORE_OWNER"⟩ stateThird "1" "7" 1 7
      (by decide) (by decide)).2.1.mpr
      ⟨storeX (133 / 100) 3, by rw [stateThird_eq]; simp, rfl, rfl⟩,
    (owner_boundary refEnv ⟨1, "owner@example.com", "STORE_OWNER"⟩ stateThird "1" "7" 1 7
      (by decide) (by decide)).2.2.2
      ⟨storeX (133 / 100) 3, by rw [stateThird_eq]; simp, rfl, rfl⟩⟩

/-- Witness of C18: the owner of Store X after the ratings 1, 1 and 2; the
value returned is within 5 / 10^16 of the mean of the three. -/
theorem getUserDetails_rating_witness :
    ∃ x : ℚ,
      getUserDetails refEnv "1" stateThird =
        ⟨200, "", .userDetails ownerRow.id ownerRow.name ownerRow.email
          ownerRow.address ownerRow.role (some x)⟩ ∧
      |x - meanRating (pooledRatings stateThird ownerRow.id)| ≤ 5 / 10 ^ 16 :=
  match getUserDetails_rating refEnv "1" stateThird ownerRow (by decide)
    (by rw [stateThird_eq]; simp [ownerRow])
    (by rw [stateThird_eq]; simp) with
  | ⟨_, h1, _, h3⟩ =>
    match (h3 rfl).2.2 (by
      rw [stateThird_eq]
      intro r hr
      simp only [pooledRatings, List.mem_filter, List.mem_cons, List.mem_singleton,
        List.not_mem_nil, or_false] at hr
      rcases hr.1 with rfl | rfl | rfl <;> decide) with
    | ⟨x, hx, hb⟩ => ⟨x, hx ▸ h1, hb⟩

/-- Witness of C19: `sortBy=password_hash&sortOrder=desc&limit=abc` on the
list of users. -/
theorem list_plan_spec_witness :
    (⟨"name", "DESC", 1, 10, 0⟩ : ListPlan).orderField ∈
        ["name", "email", "address", "role", "created_at"] ∧
    (⟨"name", "DESC", 1, 10, 0⟩ : ListPlan).orderDirection = "DESC" ∧
    (⟨"name", "DESC", 1, 10, 0⟩ : ListPlan).pageSize = 10 :=
  have h := list_plan_spec refEnv ["name", "email", "address", "role", "created_at"]
    ⟨.str "password_hash", .str "desc", .absent, .str "abc"⟩ ⟨"name", "DESC", 1, 10, 0⟩
    (by decide) rfl
  ⟨h.1, h.2.2.2.1.mpr ⟨"desc", rfl, by decide⟩,
    h.2.2.2.2.2.1 (Or.inr ⟨"abc", rfl, by decide⟩)⟩

end RatingBackend
